import Mathlib

/-!
# wm-ble-com: state machine engine, beacon codec and upload controller

A shallow embedding of `src/sm.c`, `src/mod/ble.c`, `src/otap.c` and
`src/app_settings.c`, followed by the properties proved about it.

Conventions of the embedding:

* C enumerations are inductive types carrying the enumerators of the source.
* A function pointer is `Option Nat`: `none` is `NULL`, `some f` is the address
  of a function whose body is looked up in a `Code` table.
* A C array together with its length is one Lean list.
* Machine integers are natural numbers reduced modulo `2 ^ w` where the source
  stores them in a `w`-bit object.
* Where C leaves the behaviour undefined (division by zero, access past the end
  of an array, shift by a negative amount) a function returns `Except.error`.
* `__ASSERT` and `LOG` expand to nothing: the assertions of `ble.c` name
  identifiers that are declared nowhere, so the sources build with assertions
  off only.
* Calls into the scheduler (`App_Scheduler_addTask_execTime_Caller`) are not
  part of the state; what a scheduled task does is the function it runs.
-/

namespace WmBle

/-! ## app_app.h: states and events -/

/-- The enumeration `sm_state_e` of `app_app.h`. -/
inductive sm_state_e where
  | sm_S_NO_NEW_STATE
  | sm_S_ANY_STATE
  | sm_S_BOOT
  | sm_S_IDLE
  | ble_S_SCANNING
  | ble_S_CONNECTING
  | ble_S_CONNECTED
  deriving DecidableEq, Repr

/-- The enumeration `sm_event_e` of `app_app.h`; `sm_E_NONE` has the value 0. -/
inductive sm_event_e where
  | sm_E_NONE
  | sm_E_ERROR
  | sm_E_INIT
  | sm_E_IDLE
  | fsm_E_REBOOT
  | ble_E_SCANNING_START
  | ble_E_CONNECTING_START
  | ble_E_CONNECTED
  | ble_E_TIMEOUT
  deriving DecidableEq, Repr

open sm_state_e sm_event_e

/-! ## sm.h / sm.c: the table driven state machine -/

/-- One row of the event matrix, `sm_event_matrix_t`. -/
structure sm_event_matrix_t where
  state : sm_state_e
  event : sm_event_e
  guard : Option Nat
  next_state : sm_state_e
  entry_function : Option Nat
  exit_function : Option Nat
  deriving DecidableEq, Repr

/-- The struct `Sm` (`Sm_context`) without its `module_context`, `module_name`
and `handleEvents` members.  `event_queue` holds the `event` member of every
queue slot (its length is `event_queue_len`); `event_queue_head` is the
`sl_list` of pending slots, kept as the list of slot indices from front to
back (`sl_list_push_back` appends, `sl_list_pop_front` removes the first,
`sl_list_size` is the length). -/
structure Sm_context where
  current_state : sm_state_e
  event_queue : List sm_event_e
  event_queue_head : List Nat
  event_matrix : List sm_event_matrix_t
  exit_action : Option Nat
  deriving DecidableEq, Repr

/-- The bodies behind the function pointers of an event matrix.  Guards and
actions receive `module_context`; `W` is the state they can reach through it
(everything but the context of the state machine that calls them). -/
structure Code (W : Type) where
  guard : Nat → W → Bool
  action : Nat → W → W

/-- The scheduler constant `APP_SCHEDULER_STOP_TASK`, `(uint32_t)(-1)`. -/
def APP_SCHEDULER_STOP_TASK : Nat := 4294967295

/-- The scheduler constant `APP_SCHEDULER_SCHEDULE_ASAP`. -/
def APP_SCHEDULER_SCHEDULE_ASAP : Nat := 0

/-- `Sm_createStatic` with a non-NULL `me`: the queue is cleared by `memset`,
then `Sm_init` empties the pending list, enters `sm_S_BOOT` and disarms the
exit action. -/
def Sm_createStatic (event_matrix : List sm_event_matrix_t) (event_queue_len : Nat) :
    Sm_context :=
  { current_state := sm_S_BOOT
    event_queue := List.replicate event_queue_len sm_E_NONE
    event_queue_head := []
    event_matrix := event_matrix
    exit_action := none }

/-- The loop of `Sm_fireEvent`: the lowest index `i` with
`event_queue[i].event == sm_E_NONE`, if there is one. -/
def firstFreeSlot : List sm_event_e → Option Nat
  | [] => none
  | e :: q => if e = sm_E_NONE then some 0 else (firstFreeSlot q).map (· + 1)

/-- `Sm_fireEvent`: the first free slot takes the event and is pushed to the
back of the pending list; with no free slot nothing is stored.  (The call
that re-arms the dispatch task in the scheduler is outside this state.) -/
def Sm_fireEvent (me : Sm_context) (event_type : sm_event_e) : Sm_context :=
  match firstFreeSlot me.event_queue with
  | some i =>
    { me with
      event_queue := me.event_queue.set i event_type
      event_queue_head := me.event_queue_head ++ [i] }
  | none => me

/-- The condition of the `if` inside the loop of `Sm_handleEvents` for one
table row. -/
def rowMatches {W : Type} (code : Code W) (w : W) (current_state : sm_state_e)
    (event : sm_event_e) (row : sm_event_matrix_t) : Bool :=
  (event == row.event) &&
  ((current_state == row.state) || (row.state == sm_S_ANY_STATE)) &&
  (match row.guard with
   | none => true
   | some g => code.guard g w)

/-- The `for` loop of `Sm_handleEvents` up to its `break`: the index of the
first row, in table order, whose condition holds. -/
def findTransition {W : Type} (code : Code W) (w : W) (current_state : sm_state_e)
    (event : sm_event_e) : List sm_event_matrix_t → Option Nat
  | [] => none
  | row :: rows =>
    if rowMatches code w current_state event row then some 0
    else (findTransition code w current_state event rows).map (· + 1)

/-- Calling a function pointer when it is not `NULL`. -/
def callIfSet {W : Type} (code : Code W) (f : Option Nat) (w : W) : W :=
  match f with
  | none => w
  | some a => code.action a w

/-- What one call of `Sm_handleEvents` leaves behind: the state machine, the
state reached through `module_context`, the actions that were called (in call
order), the event that was taken from the queue (if any) and the value
returned to the scheduler. -/
structure Sm_result (W : Type) where
  sm : Sm_context
  world : W
  invoked : List Nat
  dequeued : Option sm_event_e
  ret : Nat

/-- The body of the `if` in the loop of `Sm_handleEvents` for the matching
row: armed exit action, entry action, state change, new exit action. -/
def takeTransition {W : Type} (code : Code W) (sm : Sm_context) (w : W)
    (row : sm_event_matrix_t) : Sm_context × W × List Nat :=
  let w1 := callIfSet code sm.exit_action w
  let w2 := callIfSet code row.entry_function w1
  let st := if row.next_state ≠ sm_S_NO_NEW_STATE then row.next_state else sm.current_state
  ({ sm with current_state := st, exit_action := row.exit_function }, w2,
    sm.exit_action.toList ++ row.entry_function.toList)

/-- `Sm_handleEvents` for a non-NULL context (for `NULL` the source returns
`APP_SCHEDULER_STOP_TASK` at once). -/
def Sm_handleEvents {W : Type} (code : Code W) (sm : Sm_context) (w : W) : Sm_result W :=
  match sm.event_queue_head with
  | [] => { sm := sm, world := w, invoked := [], dequeued := none,
            ret := APP_SCHEDULER_STOP_TASK }
  | slot :: rest =>
    let event := sm.event_queue.getD slot sm_E_NONE
    let sm1 := { sm with event_queue_head := rest }
    let step : Sm_context × W × List Nat :=
      match findTransition code w sm1.current_state event sm1.event_matrix with
      | some i =>
        match sm1.event_matrix.get? i with
        | some row => takeTransition code sm1 w row
        | none => (sm1, w, [])
      | none => (sm1, w, [])
    let sm2 := step.1
    { sm := { sm2 with event_queue := sm2.event_queue.set slot sm_E_NONE }
      world := step.2.1
      invoked := step.2.2
      dequeued := some event
      ret := if rest.length = 0 then APP_SCHEDULER_STOP_TASK
             else APP_SCHEDULER_SCHEDULE_ASAP }

/-- Firing a list of events one after the other, no dispatch in between. -/
def fireAll (me : Sm_context) (events : List sm_event_e) : Sm_context :=
  events.foldl Sm_fireEvent me

/-- The events of the pending list, front first: the `event` member of each
linked slot. -/
def pendingEvents (me : Sm_context) : List sm_event_e :=
  me.event_queue_head.map (fun i => me.event_queue.getD i sm_E_NONE)

/-- Successive calls of `Sm_handleEvents`, `n` of them; the result lists the
event each call took from the queue. -/
def dispatchN {W : Type} (code : Code W) : Nat → Sm_context → W →
    Sm_context × W × List (Option sm_event_e)
  | 0, sm, w => (sm, w, [])
  | n + 1, sm, w =>
    let r := Sm_handleEvents code sm w
    let rest := dispatchN code n r.sm r.world
    (rest.1, rest.2.1, r.dequeued :: rest.2.2)

/-! ## Undefined behaviour, bytes and the trace of calls -/

/-- Where the C source has no defined result.  A function of the embedding
returns `Except.error` there instead of a state. -/
inductive Fault where
  /-- Integer division or remainder by zero. -/
  | div_by_zero
  /-- A shift by a negative amount. -/
  | negative_shift
  /-- An array object is read or written past its end. -/
  | out_of_bounds
  /-- The busy-wait loop never leaves (the clock does not advance and the
  device stays busy). -/
  | hang
  deriving DecidableEq, Repr

/-- The two bytes of a `uint16_t`, little-endian (the value is reduced
modulo `2 ^ 16` as by a store to the object). -/
def u16 (v : Nat) : List Nat := [v % 256, v / 256 % 256]

/-- The four bytes of a `uint32_t`, little-endian. -/
def u32 (v : Nat) : List Nat :=
  [v % 256, v / 256 % 256, v / 65536 % 256, v / 16777216 % 256]

/-- Reading a `uint16_t` at byte offset `off` of an object. -/
def rd16 (b : List Nat) (off : Nat) : Nat := b.getD off 0 + 256 * b.getD (off + 1) 0

/-- Reading a `uint32_t` at byte offset `off` of an object. -/
def rd32 (b : List Nat) (off : Nat) : Nat :=
  b.getD off 0 + 256 * b.getD (off + 1) 0 + 65536 * b.getD (off + 2) 0 +
    16777216 * b.getD (off + 3) 0

/-- The call `memcpy(dst, src, n)` for `n` bytes available in both objects:
the first `n` bytes of `dst` become those of `src`, the rest of `dst` stays. -/
def memcpy (dst src : List Nat) (n : Nat) : List Nat := src.take n ++ dst.drop n

/-- The settings record `app_settings_t` of `app_app.h`. -/
structure app_settings_t where
  record_magic : Nat := 0
  address : Nat := 0
  network_address : Nat := 0
  network_channel : Nat := 0
  do_otap : Nat := 0
  is_sink : Nat := 0
  sink_address : Nat := 0
  deriving DecidableEq, Repr

/-- One entry of the call trace: a call into a collaborator outside the
repository (memory area driver, persistent store, stack state, update
pipeline `lib_otap`, beacon receiver and transmitter) or of one of the
persistence functions of the repository, with its arguments. -/
inductive Call where
  | mem_getAreaInfo
  | mem_startErase (sector_base number_of_sector : Nat)
  | mem_startWrite (dest : Nat) (data : List Nat) (amount : Nat)
  | mem_startRead (src amount : Nat)
  | persistent_read
  | persistent_write (settings : app_settings_t)
  | Otap_init
  | Otap_bufferBegin
  | Otap_bufferWrite (len offset : Nat)
  | Otap_bufferEnd (totalLen sequence : Nat)
  | AppSettings_store (settings : app_settings_t)
  | Otap_process
  | state_getStackState
  | otap_begin (len sequence : Nat)
  | otap_write (start num_bytes : Nat) (bytes : List Nat)
  | otap_setTargetScratchpadAndAction (seq crc : Nat)
  | otap_setToBeProcessed
  | beacon_rx_setBeaconReceivedCb
  | beacon_rx_startScanner
  | beacon_rx_stopScanner
  | beacon_tx_clearBeacons
  | beacon_tx_setBeaconInterval (interval : Nat)
  | beacon_tx_setBeaconPower (index power : Nat)
  | beacon_tx_setBeaconChannels (index : Nat)
  | beacon_tx_enableBeacons (enabled : Bool)
  | beacon_tx_setBeaconContents (index : Nat) (bytes : List Nat)
  deriving DecidableEq, Repr

/-! ## ble.h: frames, backlog and upload session -/

def BLE_TX_LIST_LEN : Nat := 1024
def BLE_OTAP_MAX_NUMBER_OF_PACKAGES : Nat := 4096
def BLE_ADV_DATA_TYPE_MANUFACTURER : Nat := 0xFF
def BLE_ADV_DATA_TYPE_SERVICE_UUID : Nat := 0x07
def BLE_COMPANY_ID : Nat := 0x09EF
def BLE_ADV_TOTAL_LEN : Nat := 27
def BLE_ADV_HEADER_LEN : Nat := 3

def ble_ADV_CMD_TYPE_RESPONSE : Nat := 0x80
def ble_ADV_CMD_RESEND_MESSAGE_REQUEST : Nat := 0x01
def ble_ADV_CMD_SCAN_REQUEST : Nat := 0x02
def ble_ADV_CMD_SCAN_RESPONSE : Nat := 0x82
def ble_ADV_CMD_OTAP_BEGIN_UPLOAD_REQUEST : Nat := 0x0A
def ble_ADV_CMD_OTAP_BEGIN_UPLOAD_RESPONSE : Nat := 0x8A
def ble_ADV_CMD_OTAP_UPLOAD_REQUEST : Nat := 0x0B
def ble_ADV_CMD_OTAP_UPLOAD_RESPONSE : Nat := 0x8B

/-- The frame length `BLE_ADV_HEADER_LEN + sizeof(ble_adv_cmd_resend_message_req_t)`. -/
def BLE_ADV_CMD_RESEND_MESSAGE_REQ_LEN : Nat := 5
/-- The frame length `BLE_ADV_HEADER_LEN + sizeof(ble_adv_cmd_scan_rsp_t)`. -/
def BLE_ADV_CMD_SCAN_RSP_LEN : Nat := 10
/-- The frame length `BLE_ADV_HEADER_LEN + sizeof(ble_adv_cmd_otap_begin_upload_rsp_t)`. -/
def BLE_ADV_CMD_OTAP_BEGIN_UPLOAD_RSP_LEN : Nat := 8
/-- The frame length `BLE_ADV_HEADER_LEN + sizeof(ble_adv_cmd_otap_upload_rsp_t)`. -/
def BLE_ADV_CMD_OTAP_UPLOAD_RSP_LEN : Nat := 7

def ble_STATUS_OTAP_OK : Nat := 0
def ble_STATUS_OTAP_UPLOAD : Nat := 1

/-- A `ble_adv_cmd_t` object as its bytes.  The struct and its payload union
are packed: `message_id` at offset 0, `command` at offset 2, the payload from
offset 3; the largest payload has 8 bytes, so the object has 11 bytes. -/
abbrev ble_adv_cmd_t := List Nat

/-- The member `message_id` of a command object. -/
def cmd_message_id (cmd : ble_adv_cmd_t) : Nat := rd16 cmd 0
/-- The member `command`. -/
def cmd_command (cmd : ble_adv_cmd_t) : Nat := cmd.getD 2 0
/-- The member `payload.scan_rsp.request_id`. -/
def scan_rsp_request_id (cmd : ble_adv_cmd_t) : Nat := rd16 cmd 3
/-- The member `payload.scan_rsp.token`. -/
def scan_rsp_token (cmd : ble_adv_cmd_t) : Nat := rd16 cmd 5
/-- The member `payload.scan_rsp.firmware_version_major`. -/
def scan_rsp_firmware_version_major (cmd : ble_adv_cmd_t) : Nat := cmd.getD 7 0
/-- The member `payload.scan_rsp.firmware_version_minor`. -/
def scan_rsp_firmware_version_minor (cmd : ble_adv_cmd_t) : Nat := cmd.getD 8 0
/-- The member `payload.scan_rsp.is_sink`. -/
def scan_rsp_is_sink (cmd : ble_adv_cmd_t) : Nat := cmd.getD 9 0
/-- The member `payload.otap_begin_upload_req.scratchpad_sequence_number`. -/
def begin_upload_req_sequence (cmd : ble_adv_cmd_t) : Nat := cmd.getD 5 0
/-- The member `payload.otap_begin_upload_req.scratchpad_length`. -/
def begin_upload_req_length (cmd : ble_adv_cmd_t) : Nat := rd32 cmd 6
/-- The member `payload.otap_begin_upload_req.package_length`. -/
def begin_upload_req_package_length (cmd : ble_adv_cmd_t) : Nat := cmd.getD 10 0
/-- The member `payload.resend_message_req.resend_message_id`. -/
def resend_req_message_id (cmd : ble_adv_cmd_t) : Nat := rd16 cmd 3
/-- The member `payload.otap_upload_rsp.request_id`. -/
def upload_rsp_request_id (cmd : ble_adv_cmd_t) : Nat := rd16 cmd 3
/-- The member `payload.otap_upload_rsp.response_code`. -/
def upload_rsp_response_code (cmd : ble_adv_cmd_t) : Nat := cmd.getD 5 0
/-- The member `payload.otap_upload_rsp.percentage`. -/
def upload_rsp_percentage (cmd : ble_adv_cmd_t) : Nat := cmd.getD 6 0

/-- The object built by the initialiser of `cmd_rsp` in the scan request
branch: header, then the members of `ble_adv_cmd_scan_rsp_t`, the remaining
byte of the union zero. -/
def mk_scan_rsp (message_id request_id token major minor is_sink : Nat) : ble_adv_cmd_t :=
  u16 message_id ++ [ble_ADV_CMD_SCAN_RESPONSE] ++ u16 request_id ++ u16 token ++
    [major % 256, minor % 256, is_sink % 256] ++ [0]

/-- The object built by the initialiser of `cmd_rsp` in the begin-upload
branch (`ble_adv_cmd_otap_begin_upload_rsp_t`). -/
def mk_begin_upload_rsp (message_id request_id start_message_id response_code : Nat) :
    ble_adv_cmd_t :=
  u16 message_id ++ [ble_ADV_CMD_OTAP_BEGIN_UPLOAD_RESPONSE] ++ u16 request_id ++
    u16 start_message_id ++ [response_code % 256] ++ [0, 0, 0]

/-- The object built by the initialisers of `cmd_rsp` in the upload branch
(`ble_adv_cmd_otap_upload_rsp_t`). -/
def mk_upload_rsp (message_id request_id response_code percentage : Nat) : ble_adv_cmd_t :=
  u16 message_id ++ [ble_ADV_CMD_OTAP_UPLOAD_RESPONSE] ++ u16 request_id ++
    [response_code % 256, percentage % 256] ++ [0, 0, 0, 0]

/-- The object built by the initialiser of `cmd_req`
(`ble_adv_cmd_resend_message_req_t`). -/
def mk_resend_req (message_id resend_message_id : Nat) : ble_adv_cmd_t :=
  u16 message_id ++ [ble_ADV_CMD_RESEND_MESSAGE_REQUEST] ++ u16 resend_message_id ++
    [0, 0, 0, 0, 0, 0]

/-- The enumeration `ble_slot_t`. -/
inductive ble_slot_t where
  | ble_SLOT_EMPTY
  | ble_SLOT_SEND
  | ble_SLOT_SENDING
  | ble_SLOT_SENDING_CONFIRMED
  deriving DecidableEq, Repr

open ble_slot_t

/-- A backlog slot, `ble_tx_list_item_t` (without the list link). -/
structure ble_tx_list_item_t where
  status : ble_slot_t := ble_SLOT_EMPTY
  payload : List Nat := List.replicate BLE_ADV_TOTAL_LEN 0
  payload_len : Nat := 0
  qos : Bool := false
  message_id : Nat := 0
  deriving DecidableEq, Repr

/-- The upload session, `ble_otap_t` (without the unused `state`). -/
structure ble_otap_t where
  scratchpad_seqeunce_number : Nat := 0
  scratchpad_length : Nat := 0
  adv_package_length : Nat := 0
  start_message_id : Nat := 0
  end_message_id : Nat := 0
  total_messages : Nat := 0
  messageReceived : List Nat := List.replicate (BLE_OTAP_MAX_NUMBER_OF_PACKAGES / 8) 0
  deriving DecidableEq, Repr

/-- The struct `Ble` (`Ble_context`).  Its pointers `app_settings_p`,
`sm_context_p` and `fsm_sm_context_p` are the members `app_settings`, `sm` and
`fsm_sm` of `World`; `ble_tx_items_head_p` is the pending list of slot indices,
front first. -/
structure Ble_context where
  initialized : Bool := false
  ble_tx_items_head_p : List Nat := []
  ble_tx_items : List ble_tx_list_item_t := List.replicate BLE_TX_LIST_LEN {}
  otap : ble_otap_t := {}
  last_received_message_id : Nat := 0
  message_id : Nat := 0
  keep_sending : Nat := 0
  ble_mac_address : List Nat := List.replicate 6 0
  connected_device_mac : List Nat := List.replicate 6 0
  connected_token : Nat := 0
  deriving DecidableEq, Repr

/-! ## otap.c: state of the persistence layer and of the storage driver -/

/-- The members of the SDK struct `app_lib_mem_area_flash_info_t` that
`otap.c` reads. -/
structure app_lib_mem_area_flash_info_t where
  write_alignment : Nat := 0
  erase_sector_size : Nat := 0
  byte_write_time : Nat := 0
  byte_write_call_time : Nat := 0
  sector_erase_time : Nat := 0
  deriving DecidableEq, Repr

/-- The members of the SDK struct `app_lib_mem_area_info_t` that `otap.c`
reads. -/
structure app_lib_mem_area_info_t where
  area_size : Nat := 0
  flash : app_lib_mem_area_flash_info_t := {}
  external_flash : Bool := false
  deriving DecidableEq, Repr

/-- The file scope variables of `otap.c`. -/
structure Otap_statics where
  m_header_size : Nat := 0
  m_initialized : Bool := false
  m_usable_memory_size : Nat := 0
  m_memory_area : app_lib_mem_area_info_t := {}
  m_buffer_block_write : List Nat := List.replicate 512 0
  m_test : List Nat := List.replicate 16 0
  deriving DecidableEq, Repr

/-- The memory area behind `lib_memory_area` and the high precision clock
behind `lib_time`.  `busy_until` is the time at which the operation in
progress ends (`none`: it never ends); `isBusy` holds while `now` is before
it. -/
structure Storage where
  now : Nat := 0
  busy_until : Option Nat := some 0
  mem : List Nat := []
  deriving DecidableEq, Repr

/-- Everything `ble.c`, `otap.c` and `app_settings.c` keep between calls,
with two records of what happened: `trace` (the calls of `Call`, oldest
first) and `accepted` (the frames that passed both duplicate checks of
`bleReceiveCb` and reached the command dispatch, oldest first). -/
structure World where
  ble : Ble_context := {}
  app_settings : app_settings_t := {}
  sm : Sm_context
  fsm_sm : Sm_context
  m_lastReceivedPackage : List Nat := List.replicate 40 0
  m_ble_rx_buffer : List Nat := List.replicate 40 0
  otap : Otap_statics := {}
  storage : Storage := {}
  persistent : Option app_settings_t := none
  /-- The static `sending_element` of `bleSendTask`: the slot in flight
  (`none` is `NULL`). -/
  sending_element : Option Nat := none
  /-- The static `beacon_sending` of `bleSendTask`. -/
  beacon_sending : Bool := false
  trace : List Call := []
  accepted : List (List Nat) := []
  deriving DecidableEq, Repr

/-- What the collaborators outside the repository answer.  An answer may
depend on how many calls were traced before (`World.trace.length`), so that any
sequence of answers can be described. -/
structure Env where
  /-- The value `getUniqueAddress()`. -/
  unique_address : Nat
  /-- The build constant `VER_MAJOR`. -/
  VER_MAJOR : Nat
  /-- The build constant `VER_MINOR`. -/
  VER_MINOR : Nat
  /-- The answer of `getAreaInfo`: the area description, or `none` for a result
  other than `APP_LIB_MEM_AREA_RES_OK`. -/
  area_info : Nat → Option app_lib_mem_area_info_t
  /-- Whether `startErase`, `startWrite` or `startRead` answers
  `APP_LIB_MEM_AREA_RES_OK`. -/
  start_ok : Nat → Bool
  /-- How long the started operation keeps the area busy (`none`: for ever). -/
  op_time : Nat → Option Nat
  /-- By how much the clock advances during one round of the busy-wait loop. -/
  poll_time : Nat
  /-- Whether `App_Persistent_write` answers `APP_PERSISTENT_RES_OK`. -/
  persistent_write_ok : Nat → Bool
  /-- The numeric values of the SDK enumerators `APP_PERSISTENT_RES_NO_AREA`
  (at 0), `..._UNINITIALIZED` (at 1), `..._FLASH_ERROR` (at 2), `..._ACCESS_TIMEOUT`
  (at 3) and `..._TOO_BIG` (at 4). -/
  persistent_res_value : Nat → Nat
  /-- Whether `getStackState()` answers `APP_LIB_STATE_STARTED`. -/
  stack_started : Nat → Bool
  /-- Whether `lib_otap->begin` answers `APP_RES_OK`. -/
  otap_begin_ok : Nat → Bool
  /-- The value `lib_otap->getMaxBlockNumBytes()`. -/
  otap_max_block_num_bytes : Nat
  /-- Whether `lib_otap->write` answers `APP_LIB_OTAP_WRITE_RES_OK` or
  `APP_LIB_OTAP_WRITE_RES_COMPLETED_OK`. -/
  otap_write_ok : Nat → Bool
  /-- The value `lib_otap->getSeq()`. -/
  otap_seq : Nat
  /-- The value `lib_otap->getCrc()`. -/
  otap_crc : Nat
  /-- The answer of `lib_otap->setTargetScratchpadAndAction`; 0 is
  `APP_RES_OK`. -/
  otap_set_target_res : Nat → Nat
  /-- Whether `lib_otap->setToBeProcessed` answers `APP_RES_OK`. -/
  otap_set_to_be_processed_ok : Nat → Bool
  /-- Whether `lib_beacon_tx->enableBeacons` answers `APP_RES_OK`. -/
  beacon_enable_ok : Nat → Bool

/-- The values returned by the functions of `otap.c`: `APP_RET_OK` of
`error.h`, enumerators of the SDK type `app_persistent_res_e`, the literal
`-1`, or a result code of `lib_otap` passed through. -/
inductive Otap_ret where
  | APP_RET_OK
  | APP_PERSISTENT_RES_NO_AREA
  | APP_PERSISTENT_RES_UNINITIALIZED
  | APP_PERSISTENT_RES_FLASH_ERROR
  | APP_PERSISTENT_RES_ACCESS_TIMEOUT
  | APP_PERSISTENT_RES_TOO_BIG
  | minus_one
  | lib_otap_res (code : Nat)
  deriving DecidableEq, Repr

open Otap_ret

/-- The `int` behind a return value, as the `uint8_t` it becomes when stored
in `response_code`. -/
def retByte (env : Env) : Otap_ret → Nat
  | APP_RET_OK => 0
  | APP_PERSISTENT_RES_NO_AREA => env.persistent_res_value 0 % 256
  | APP_PERSISTENT_RES_UNINITIALIZED => env.persistent_res_value 1 % 256
  | APP_PERSISTENT_RES_FLASH_ERROR => env.persistent_res_value 2 % 256
  | APP_PERSISTENT_RES_ACCESS_TIMEOUT => env.persistent_res_value 3 % 256
  | APP_PERSISTENT_RES_TOO_BIG => env.persistent_res_value 4 % 256
  | minus_one => 255
  | lib_otap_res code => code % 256

/-! ## otap.c: the functions -/

/-- Appending one entry to the call trace. -/
def World.log (w : World) (c : Call) : World := { w with trace := w.trace ++ [c] }

/-- Conversion of a 32-bit value to `int32_t`. -/
def toInt32 (v : Nat) : Int :=
  if v % 4294967296 < 2147483648 then (v % 4294967296 : Nat)
  else ((v % 4294967296 : Nat) : Int) - 4294967296

/-- The `do ... while` loop of `active_wait_for_end_of_operation`: one round
reads `isBusy`, lets `poll_time` pass and compares the clock with
`timeout_end`; the loop goes on while the area is busy and the timeout is not
reached.  The result is the final `busy` and the clock.  `fuel` bounds the
number of rounds; running out of it means the loop does not end. -/
def waitLoop (poll_time : Nat) (busy_until : Option Nat) (timeout_end : Int) :
    Nat → Nat → Except Fault (Bool × Nat)
  | 0, _ => .error Fault.hang
  | fuel + 1, now =>
    let busy := match busy_until with
      | none => true
      | some t => decide (now < t)
    let now1 := now + poll_time
    let timeout_reached := decide (timeout_end < (now1 : Int))
    if busy && !timeout_reached then waitLoop poll_time busy_until timeout_end fuel now1
    else .ok (busy, now1)

namespace Otap

/-- The function `active_wait_for_end_of_operation`: `true` when the area is
no longer busy at the end of the loop.  With a clock that advances, the loop
ends after at most `timeout_us + 2` rounds, the fuel given here. -/
def active_wait_for_end_of_operation (env : Env) (w : World) (timeout_us : Int) :
    Except Fault (Bool × World) :=
  let timeout_end : Int := (w.storage.now : Int) + timeout_us
  match waitLoop env.poll_time w.storage.busy_until timeout_end (timeout_us.toNat + 2)
      w.storage.now with
  | .error f => .error f
  | .ok (busy, now1) => .ok (!busy, { w with storage := { w.storage with now := now1 } })

/-- The bytes of `mem` after `data` was stored at address `dest`; a range that
does not lie inside the area leaves it as it is. -/
def store (mem : List Nat) (dest : Nat) (data : List Nat) : List Nat :=
  if dest + data.length ≤ mem.length then
    mem.take dest ++ data ++ mem.drop (dest + data.length)
  else mem

/-- The static function `write` of `otap.c` (`dest` is its parameter `to`).
`src` holds the bytes from the pointer `from` to the end of the object it
points into; the driver reads `amount` of them.  An accepted `startWrite` stores
the bytes and keeps the area busy for `op_time`. -/
def write (env : Env) (w : World) (dest : Nat) (src : List Nat) (amount : Nat) :
    Except Fault (Bool × World) :=
  if src.length < amount then .error Fault.out_of_bounds
  else
    let n := w.trace.length
    let w1 := w.log (Call.mem_startWrite dest (src.take amount) amount)
    if !env.start_ok n then .ok (false, w1)
    else
      let w2 : World := { w1 with storage :=
        { w1.storage with
          mem := store w1.storage.mem dest (src.take amount)
          busy_until := (env.op_time n).map (fun d => w1.storage.now + d) } }
      let timeout_us := toInt32
        (((w.otap.m_memory_area.flash.byte_write_time +
           w.otap.m_memory_area.flash.byte_write_call_time) * amount) * 2)
      active_wait_for_end_of_operation env w2 timeout_us

end Otap

/-- The function `Otap_init`. -/
def Otap_init (env : Env) (w : World) : Otap_ret × World :=
  let w0 := w.log Call.Otap_init
  if w0.otap.m_initialized then (APP_RET_OK, w0)
  else
    let n := w0.trace.length
    let w1 := w0.log Call.mem_getAreaInfo
    match env.area_info n with
    | none => (APP_PERSISTENT_RES_NO_AREA, w1)
    | some info =>
      let header_size :=
        if info.flash.write_alignment > 12 then info.flash.write_alignment else 12
      (APP_RET_OK, { w1 with otap :=
        { w1.otap with
          m_memory_area := info
          m_header_size := header_size
          m_usable_memory_size := (info.area_size + 4294967296 - header_size) % 4294967296
          m_initialized := true } })

/-- The function `Otap_bufferBegin`.  The division that computes `num_page`
precedes the check of `m_initialized`.  An accepted `startErase` sets the
erased sectors to `0xFF`. -/
def Otap_bufferBegin (env : Env) (w : World) : Except Fault (Otap_ret × World) :=
  let w0 := w.log Call.Otap_bufferBegin
  let erase_page_size := w0.otap.m_memory_area.flash.erase_sector_size
  if erase_page_size = 0 then .error Fault.div_by_zero
  else
    let num_page := w0.otap.m_usable_memory_size / erase_page_size
    if !w0.otap.m_initialized then .ok (APP_PERSISTENT_RES_UNINITIALIZED, w0)
    else
      let n := w0.trace.length
      let w1 := w0.log (Call.mem_startErase 0 num_page)
      if !env.start_ok n then .ok (APP_PERSISTENT_RES_FLASH_ERROR, w1)
      else
        let w2 : World := { w1 with storage :=
          { w1.storage with
            mem := Otap.store w1.storage.mem 0
              (List.replicate (min (num_page * erase_page_size) w1.storage.mem.length) 0xFF)
            busy_until := (env.op_time n).map (fun d => w1.storage.now + d) } }
        let timeout := ((w0.otap.m_memory_area.flash.sector_erase_time * num_page) * 2)
          % 4294967296
        match Otap.active_wait_for_end_of_operation env w2 (toInt32 timeout) with
        | .error f => .error f
        | .ok (false, w3) => .ok (APP_PERSISTENT_RES_ACCESS_TIMEOUT, w3)
        | .ok (true, w3) => .ok (APP_RET_OK, w3)

/-- The magic number `OTAP_MAGIC` of `otap.h`. -/
def OTAP_MAGIC : Nat := 0x2021

/-- The three `memcpy` calls of `Otap_bufferEnd` on `m_buffer_block_write`:
the magic (4 bytes), `totalLen` (4 bytes) and `sequence` (1 byte) at offsets 0,
4 and 8. -/
def headerBlock (block : List Nat) (totalLen sequence : Nat) : List Nat :=
  memcpy block (u32 OTAP_MAGIC ++ u32 totalLen ++ [sequence % 256]) 9

/-- The function `Otap_bufferEnd`: magic, length and sequence number go to
offsets 0, 4 and 8 of `m_buffer_block_write`, of which `m_header_size` bytes are
written to address 0. -/
def Otap_bufferEnd (env : Env) (w : World) (totalLen sequence : Nat) :
    Except Fault (Otap_ret × World) :=
  let w0 := w.log (Call.Otap_bufferEnd totalLen sequence)
  let buf := headerBlock w0.otap.m_buffer_block_write totalLen sequence
  let w1 : World := { w0 with otap := { w0.otap with m_buffer_block_write := buf } }
  match Otap.write env w1 0 buf w1.otap.m_header_size with
  | .error f => .error f
  | .ok (false, w2) => .ok (APP_PERSISTENT_RES_FLASH_ERROR, w2)
  | .ok (true, w2) => .ok (APP_RET_OK, w2)

/-- The function `Otap_bufferWrite`.  `data` holds the bytes from the pointer
`data` to the end of the object it points into. -/
def Otap_bufferWrite (env : Env) (w : World) (data : List Nat) (len offset : Nat) :
    Except Fault (Otap_ret × World) :=
  let w0 := w.log (Call.Otap_bufferWrite len offset)
  if !w0.otap.m_initialized then .ok (APP_PERSISTENT_RES_UNINITIALIZED, w0)
  else if len > w0.otap.m_usable_memory_size then .ok (APP_PERSISTENT_RES_TOO_BIG, w0)
  else
    match Otap.write env w0 ((offset + w0.otap.m_header_size) % 4294967296) data len with
    | .error f => .error f
    | .ok (false, w1) => .ok (APP_PERSISTENT_RES_FLASH_ERROR, w1)
    | .ok (true, w1) => .ok (APP_RET_OK, w1)

/-! ## app_settings.c -/

/-- The function `AppSettings_store`: nothing is written and `false` is
returned when the stored record can be read and equals `settings`; otherwise a
write is issued and `true` is returned, whatever the write answers.  The world
member `persistent` is the record `App_Persistent_read` delivers (`none`: the
read does not answer `APP_PERSISTENT_RES_OK`). -/
def AppSettings_store (env : Env) (w : World) (settings : app_settings_t) : Bool × World :=
  let w0 := (w.log (Call.AppSettings_store settings)).log Call.persistent_read
  if w0.persistent = some settings then (false, w0)
  else
    let n := w0.trace.length
    let w1 := w0.log (Call.persistent_write settings)
    if env.persistent_write_ok n then (true, { w1 with persistent := some settings })
    else (true, w1)

/-! ## ble.c -/

/-- The received advertisement, `app_lib_beacon_rx_received_t`: the bytes
`payload[0 .. length - 1]`. -/
structure app_lib_beacon_rx_received_t where
  payload : List Nat
  deriving DecidableEq, Repr

/-- The member `length` of a received advertisement. -/
def app_lib_beacon_rx_received_t.length (packet : app_lib_beacon_rx_received_t) : Nat :=
  packet.payload.length

/-- The function `getNextMessageId` for a non-NULL context: the new id and the
context that stores it. -/
def getNextMessageId (context : Ble_context) : Nat × Ble_context :=
  let message_id := if context.message_id = 0xffff then 0 else context.message_id
  let message_id := (message_id + 1) % 65536
  (message_id, { context with message_id := message_id })

/-- The function `getBufferFromCmd`: `buffer_len` bytes of `buffer` are cleared
and then overwritten with the first `buffer_len` bytes of the command object.
The result is the buffer. -/
def getBufferFromCmd (cmd : ble_adv_cmd_t) (buffer : List Nat) (buffer_len : Nat) :
    List Nat :=
  memcpy (memcpy buffer (List.replicate buffer_len 0) buffer_len) cmd buffer_len

/-- The function `getCmdFromBuffer`: `none` is the NULL result; otherwise the
buffer itself is viewed as a command object. -/
def getCmdFromBuffer (data : List Nat) (data_len : Nat) : Option ble_adv_cmd_t :=
  if data_len > BLE_ADV_TOTAL_LEN then none
  else if data_len ≤ BLE_ADV_HEADER_LEN then none
  else some data

/-- The loop of `bleSendCmd`: the lowest index of a slot with status
`ble_SLOT_EMPTY`. -/
def firstEmptyItem : List ble_tx_list_item_t → Option Nat
  | [] => none
  | item :: items =>
    if item.status = ble_SLOT_EMPTY then some 0 else (firstEmptyItem items).map (· + 1)

/-- The function `bleSendCmd`: the first empty slot takes the frame and is
pushed to the back of the pending list; with no empty slot nothing is stored.
(The call that starts `bleSendTask` in the scheduler is outside this
state.) -/
def bleSendCmd (context : Ble_context) (cmd : ble_adv_cmd_t) (cmd_len : Nat) (qos : Bool) :
    Ble_context :=
  match firstEmptyItem context.ble_tx_items with
  | none => context
  | some i =>
    let old := context.ble_tx_items.getD i {}
    let item : ble_tx_list_item_t :=
      { status := ble_SLOT_SEND
        payload_len := cmd_len
        qos := qos
        message_id := cmd_message_id cmd
        payload := getBufferFromCmd cmd old.payload cmd_len }
    { context with
      ble_tx_items := context.ble_tx_items.set i item
      ble_tx_items_head_p := context.ble_tx_items_head_p ++ [i] }

/-- The test `messageReceived[i / 8] & (1 << (i % 8))` as a truth value. -/
def bitSet (messageReceived : List Nat) (i : Nat) : Bool :=
  (messageReceived.getD (i / 8) 0 &&& (1 <<< (i % 8))) != 0

/-- The assignment `messageReceived[i / 8] |= 1 << (i % 8)`. -/
def markBit (messageReceived : List Nat) (i : Nat) : List Nat :=
  messageReceived.set (i / 8) (messageReceived.getD (i / 8) 0 ||| (1 <<< (i % 8)))

/-- The counting loop of `bleReceiveCb`: how many of the bits `0 .. total - 1`
are clear. -/
def missingMessages (messageReceived : List Nat) (total : Nat) : Nat :=
  ((List.range total).filter (fun i => !bitSet messageReceived i)).length

/-- The search loop of `bleReceiveCb`: the lowest `i` below `total` whose bit
is clear. -/
def firstMissing (messageReceived : List Nat) (total : Nat) : Option Nat :=
  (List.range total).find? (fun i => !bitSet messageReceived i)

/-- The first part of `bleReceiveCb`, up to the call of `getCmdFromBuffer`:
the two vendor layouts.  The result is the receive buffer after the copy and
`buffer_len`, or `none` when the packet matches neither layout. -/
def prefilter (m_ble_rx_buffer : List Nat) (packet : app_lib_beacon_rx_received_t) :
    Except Fault (Option (List Nat × Nat)) :=
  if packet.length > 10 ∧ packet.payload.getD 7 0 = BLE_ADV_DATA_TYPE_MANUFACTURER ∧
      packet.payload.getD 8 0 = BLE_COMPANY_ID % 256 ∧
      packet.payload.getD 9 0 = BLE_COMPANY_ID / 256 % 256 then
    if packet.length - 10 > m_ble_rx_buffer.length then .error Fault.out_of_bounds
    else .ok (some (memcpy m_ble_rx_buffer (packet.payload.drop 10) (packet.length - 10),
                    packet.length - 10))
  else if packet.length = 30 ∧ packet.payload.getD 13 0 = BLE_ADV_DATA_TYPE_SERVICE_UUID then
    .ok (some (memcpy m_ble_rx_buffer
                 ((List.range 16).map (fun i => packet.payload.getD (packet.length - 1 - i) 0)) 16,
               packet.length - 14))
  else .ok none

/-- The scan request branch of `bleReceiveCb`. -/
def handleScanRequest (env : Env) (w : World) (cmd_rx : ble_adv_cmd_t) : World :=
  let ble1 : Ble_context := { w.ble with connected_token := env.unique_address % 65536 }
  let next := getNextMessageId ble1
  let cmd_rsp := mk_scan_rsp next.1 (cmd_message_id cmd_rx) next.2.connected_token
    env.VER_MAJOR env.VER_MINOR w.app_settings.is_sink
  { w with
    ble := bleSendCmd next.2 cmd_rsp BLE_ADV_CMD_SCAN_RSP_LEN false
    sm := Sm_fireEvent w.sm ble_E_CONNECTING_START }

/-- The session members set by the begin-upload branch.  `end_message_id` and
`total_messages` are 16-bit objects: the sums are reduced modulo `2 ^ 16`. -/
def beginSession (old : ble_otap_t) (cmd_rx : ble_adv_cmd_t) : ble_otap_t :=
  let adv_package_length := begin_upload_req_package_length cmd_rx
  let scratchpad_length := begin_upload_req_length cmd_rx
  let start_message_id := 0x8000
  let end_message_id := (start_message_id + scratchpad_length / adv_package_length +
    (if scratchpad_length % adv_package_length ≠ 0 then 1 else 0) - 1) % 65536
  { scratchpad_seqeunce_number := begin_upload_req_sequence cmd_rx
    scratchpad_length := scratchpad_length
    adv_package_length := adv_package_length
    start_message_id := start_message_id
    end_message_id := end_message_id
    total_messages := (end_message_id + 65536 - start_message_id + 1) % 65536
    messageReceived := List.replicate old.messageReceived.length 0 }

/-- The begin-upload branch of `bleReceiveCb`. -/
def handleBeginUpload (env : Env) (w : World) (cmd_rx : ble_adv_cmd_t) : Except Fault World :=
  if begin_upload_req_package_length cmd_rx = 0 then .error Fault.div_by_zero
  else
    let w1 : World := { w with ble := { w.ble with otap := beginSession w.ble.otap cmd_rx } }
    let w2 := (Otap_init env w1).2
    match Otap_bufferBegin env w2 with
    | .error f => .error f
    | .ok (ret, w3) =>
      let next := getNextMessageId w3.ble
      let cmd_rsp := mk_begin_upload_rsp next.1 (cmd_message_id cmd_rx)
        next.2.otap.start_message_id (retByte env ret)
      .ok { w3 with ble := bleSendCmd next.2 cmd_rsp BLE_ADV_CMD_OTAP_BEGIN_UPLOAD_RSP_LEN false }

/-- The last response of an upload: `ble_STATUS_OTAP_OK` and 100 percent,
sent after `keep_sending` is cleared. -/
def sendDone (context : Ble_context) (cmd_rx : ble_adv_cmd_t) : Ble_context :=
  let next := getNextMessageId context
  let cmd_rsp := mk_upload_rsp next.1 (cmd_message_id cmd_rx) ble_STATUS_OTAP_OK 100
  bleSendCmd { next.2 with keep_sending := 0 } cmd_rsp BLE_ADV_CMD_OTAP_UPLOAD_RSP_LEN false

/-- The end of the upload branch once every bit is set: the header is
sealed, the last response is sent, the settings are flagged and stored and the
reboot event is fired at the main state machine. -/
def finishUpload (env : Env) (w : World) (cmd_rx : ble_adv_cmd_t) : Except Fault World :=
  match Otap_bufferEnd env w w.ble.otap.scratchpad_length
      w.ble.otap.scratchpad_seqeunce_number with
  | .error f => .error f
  | .ok (_, w1) =>
    let w2 : World := { w1 with
      ble := sendDone w1.ble cmd_rx
      app_settings := { w1.app_settings with do_otap := 1 } }
    let w3 := (AppSettings_store env w2 w2.app_settings).2
    .ok { w3 with fsm_sm := Sm_fireEvent w3.fsm_sm fsm_E_REBOOT }

/-- The resend request for fragment index `i`, sent from inside the search
loop, after which `bleReceiveCb` returns. -/
def requestResend (context : Ble_context) (i : Nat) : Ble_context :=
  let next := getNextMessageId context
  let cmd_req := mk_resend_req next.1 (next.2.otap.start_message_id + i)
  bleSendCmd { next.2 with keep_sending := cmd_message_id cmd_req } cmd_req
    BLE_ADV_CMD_RESEND_MESSAGE_REQ_LEN true

/-- The status response of the upload branch (`percentage` already
computed). -/
def sendProgress (context : Ble_context) (cmd_rx : ble_adv_cmd_t) (percentage : Nat) :
    Ble_context :=
  let next := getNextMessageId context
  let cmd_rsp := mk_upload_rsp next.1 (cmd_message_id cmd_rx) ble_STATUS_OTAP_UPLOAD
    percentage
  bleSendCmd next.2 cmd_rsp BLE_ADV_CMD_OTAP_UPLOAD_RSP_LEN false

/-- The value of `percentage` in the status response. -/
def progressPercentage (received : List Nat) (total_messages message_id : Nat)
    (lastMessageReceived : Bool) : Nat :=
  if lastMessageReceived then 90 + 10 / (missingMessages received total_messages + 1)
  else message_id * 90 / total_messages

/-- The context after the bitmap holds `received` and the status response
(if one is due: every tenth message id, or the last bit set) was sent. -/
def statusBle (context : Ble_context) (cmd_rx : ble_adv_cmd_t) (received : List Nat) :
    Ble_context :=
  let otap := context.otap
  let message_id := cmd_message_id cmd_rx - otap.start_message_id
  let lastMessageReceived := bitSet received (otap.total_messages - 1)
  let ble2 : Ble_context := { context with otap := { otap with messageReceived := received } }
  if cmd_message_id cmd_rx % 10 = 0 ∨ lastMessageReceived = true then
    sendProgress ble2 cmd_rx
      (progressPercentage received otap.total_messages message_id lastMessageReceived)
  else ble2

/-- The upload branch of `bleReceiveCb` from the test of the last bit on,
with `received` the bitmap after the write of the fragment: status response,
then resend request or completion. -/
def uploadStatus (env : Env) (w1 : World) (cmd_rx : ble_adv_cmd_t) (received : List Nat) :
    Except Fault World :=
  let otap := w1.ble.otap
  if otap.total_messages = 0 then .error Fault.negative_shift
  else if (otap.total_messages - 1) / 8 ≥ received.length then .error Fault.out_of_bounds
  else
    let ble3 := statusBle w1.ble cmd_rx received
    if bitSet received (otap.total_messages - 1) then
      match firstMissing received otap.total_messages with
      | some i => .ok { w1 with ble := requestResend ble3 i }
      | none => finishUpload env { w1 with ble := ble3 } cmd_rx
    else .ok { w1 with ble := ble3 }

/-- The upload branch of `bleReceiveCb` (the frame carries
`ble_ADV_CMD_OTAP_UPLOAD_REQUEST` and its id lies in the range of the
session): the fragment is written, its bit is marked when the write
succeeded, then `uploadStatus` follows. -/
def handleUpload (env : Env) (w : World) (cmd_rx : ble_adv_cmd_t) : Except Fault World :=
  let otap := w.ble.otap
  let message_id := cmd_message_id cmd_rx - otap.start_message_id
  match Otap_bufferWrite env w (cmd_rx.drop 3) otap.adv_package_length
      (message_id * otap.adv_package_length) with
  | .error f => .error f
  | .ok (ret, w1) =>
    if ret = APP_RET_OK then
      if message_id / 8 ≥ otap.messageReceived.length then .error Fault.out_of_bounds
      else uploadStatus env w1 cmd_rx (markBit otap.messageReceived message_id)
    else uploadStatus env w1 cmd_rx otap.messageReceived

/-- The command dispatch of `bleReceiveCb` for a frame that passed both
duplicate checks. -/
def handleCmd (env : Env) (w : World) (cmd_rx : ble_adv_cmd_t) : Except Fault World :=
  if cmd_command cmd_rx = ble_ADV_CMD_SCAN_REQUEST then .ok (handleScanRequest env w cmd_rx)
  else if cmd_command cmd_rx = ble_ADV_CMD_OTAP_BEGIN_UPLOAD_REQUEST then
    handleBeginUpload env w cmd_rx
  else if cmd_command cmd_rx = ble_ADV_CMD_OTAP_UPLOAD_REQUEST ∧
      w.ble.otap.start_message_id ≤ cmd_message_id cmd_rx ∧
      w.ble.otap.end_message_id ≥ cmd_message_id cmd_rx then
    handleUpload env w cmd_rx
  else .ok w

/-- The part of `bleReceiveCb` before the command dispatch: layout filter,
length check and the two duplicate checks.  The result is the state left
behind and, when the frame is accepted, the command object `cmd_rx` (a view of
`m_ble_rx_buffer`). -/
def receiveFilter (w : World) (packet : app_lib_beacon_rx_received_t) :
    Except Fault (World × Option ble_adv_cmd_t) :=
  match prefilter w.m_ble_rx_buffer packet with
  | .error f => .error f
  | .ok none => .ok (w, none)
  | .ok (some (rx, buffer_len)) =>
    let w1 : World := { w with m_ble_rx_buffer := rx }
    match getCmdFromBuffer rx buffer_len with
    | none => .ok (w1, none)
    | some cmd_rx =>
      if w1.m_lastReceivedPackage.take buffer_len = rx.take buffer_len then .ok (w1, none)
      else
        let w2 : World :=
          { w1 with m_lastReceivedPackage := memcpy w1.m_lastReceivedPackage rx buffer_len }
        if w2.ble.last_received_message_id = cmd_message_id cmd_rx ∧
            cmd_message_id cmd_rx > 1 then .ok (w2, none)
        else
          .ok ({ w2 with
                 ble := { w2.ble with last_received_message_id := cmd_message_id cmd_rx }
                 accepted := w2.accepted ++ [rx.take buffer_len] }, some cmd_rx)

/-- The callback `bleReceiveCb`. -/
def bleReceiveCb (env : Env) (w : World) (packet : app_lib_beacon_rx_received_t) :
    Except Fault World :=
  match receiveFilter w packet with
  | .error f => .error f
  | .ok (w1, none) => .ok w1
  | .ok (w1, some cmd_rx) => handleCmd env w1 cmd_rx

/-- Successive calls of `bleReceiveCb`, one per packet; the first fault
ends the run. -/
def receiveAll (env : Env) : World → List app_lib_beacon_rx_received_t → Except Fault World
  | w, [] => .ok w
  | w, p :: ps =>
    match bleReceiveCb env w p with
    | .error f => .error f
    | .ok w1 => receiveAll env w1 ps

/-- The event matrix `m_event_matrix` of `ble.c`; the function pointers are
`initialize` (1), `scanningStart` (2), `scanningStop` (3) and the guard
`isSink` (1). -/
def ble_event_matrix : List sm_event_matrix_t :=
  [ { state := sm_S_BOOT, event := sm_E_INIT, guard := none, next_state := sm_S_IDLE,
      entry_function := some 1, exit_function := none },
    { state := sm_S_IDLE, event := ble_E_SCANNING_START, guard := some 1,
      next_state := ble_S_SCANNING, entry_function := some 2, exit_function := some 3 } ]

/-- The event matrix `m_event_matrix` of `fsm.c`; the function pointers are
`initialize` (1) and `reboot` (2). -/
def fsm_event_matrix : List sm_event_matrix_t :=
  [ { state := sm_S_BOOT, event := sm_E_INIT, guard := none, next_state := sm_S_IDLE,
      entry_function := some 1, exit_function := none },
    { state := sm_S_ANY_STATE, event := fsm_E_REBOOT, guard := none,
      next_state := sm_S_NO_NEW_STATE, entry_function := some 2, exit_function := none } ]

def sm_EVENT_QUEUE_LEN_FSM : Nat := 10
def sm_EVENT_QUEUE_LEN_BLE : Nat := 10

/-- The state after `Fsm_createStatic` (which calls `Ble_createStatic`) on
zero-initialised contexts and file scope variables. -/
def Ble_createStatic (app_settings : app_settings_t) (storage : Storage) : World :=
  { app_settings := app_settings
    sm := Sm_createStatic ble_event_matrix sm_EVENT_QUEUE_LEN_BLE
    fsm_sm := Sm_createStatic fsm_event_matrix sm_EVENT_QUEUE_LEN_FSM
    storage := storage }

/-! ## otap.c: reading back and handing the image to the update pipeline -/

namespace Otap

/-- The `amount` bytes of `mem` from address `src` on; `none` for a range that
does not lie inside the area. -/
def load (mem : List Nat) (src amount : Nat) : Option (List Nat) :=
  if src + amount ≤ mem.length then some ((mem.drop src).take amount) else none

/-- The static function `read` of `otap.c` (`src` is its parameter `from`).
`buf` is the object behind the pointer `to`; the result holds that object after
the call.  An accepted `startRead` delivers the bytes and keeps the area busy
for `op_time`. -/
def read (env : Env) (w : World) (buf : List Nat) (src amount : Nat) :
    Except Fault (Bool × List Nat × World) :=
  if buf.length < amount then .error Fault.out_of_bounds
  else
    let n := w.trace.length
    let w1 := w.log (Call.mem_startRead src amount)
    if !env.start_ok n then .ok (false, buf, w1)
    else
      let buf1 := match load w1.storage.mem src amount with
        | some bytes => memcpy buf bytes amount
        | none => buf
      let w2 : World := { w1 with storage :=
        { w1.storage with
          busy_until := (env.op_time n).map (fun d => w1.storage.now + d) } }
      let timeout_us : Int := if w.otap.m_memory_area.external_flash then 100000 else 0
      match active_wait_for_end_of_operation env w2 timeout_us with
      | .error f => .error f
      | .ok (done, w3) => .ok (done, buf1, w3)

/-- The first part of `Otap_process`, up to and including the call of
`lib_otap->begin`: the header is read into `m_buffer_block_write` (the result
of `read` is not looked at), then magic, length and stack state are checked.
The result `some r` says that `Otap_process` returns `r` here, `none` that it
goes on. -/
def processHeader (env : Env) (w : World) : Except Fault (Option Otap_ret × World) :=
  let w0 := w.log Call.Otap_process
  if !w0.otap.m_initialized then .ok (some APP_PERSISTENT_RES_UNINITIALIZED, w0)
  else
    match read env w0 w0.otap.m_buffer_block_write 0 w0.otap.m_header_size with
    | .error f => .error f
    | .ok (_, buf, w1) =>
      let w2 : World := { w1 with otap := { w1.otap with m_buffer_block_write := buf } }
      if buf.take 4 ≠ u32 OTAP_MAGIC then .ok (some minus_one, w2)
      else
        let len := rd32 buf 4
        if len % 4 ≠ 0 ∨ len < 96 then .ok (some minus_one, w2)
        else
          let sequence := buf.getD 8 0
          let n := w2.trace.length
          let w3 := w2.log Call.state_getStackState
          if env.stack_started n then .ok (some minus_one, w3)
          else
            let m := w3.trace.length
            let w4 := w3.log (Call.otap_begin len sequence)
            if !env.otap_begin_ok m then .ok (some APP_PERSISTENT_RES_FLASH_ERROR, w4)
            else .ok (none, w4)

/-- The constant `BLOCK_SIZE` of `otap.c`. -/
def BLOCK_SIZE : Nat := 512

/-- The `for` loop of `Otap_process` from the value `i` of its counter (a
32-bit `size_t`): a block is read (the result of `read` is not looked at) and
handed to `lib_otap->write`.  The result is `false` when a write was refused.
`fuel` bounds the number of rounds. -/
def streamLoop (env : Env) (len block_size : Nat) : Nat → Nat → World →
    Except Fault (Bool × World)
  | 0, _, _ => .error Fault.hang
  | fuel + 1, i, w =>
    if i < len then
      match read env w w.otap.m_buffer_block_write ((w.otap.m_header_size + i) % 4294967296)
          block_size with
      | .error f => .error f
      | .ok (_, buf, w1) =>
        let w2 : World := { w1 with otap := { w1.otap with m_buffer_block_write := buf } }
        let num_bytes := if len - i > block_size then block_size else len - i
        let n := w2.trace.length
        let w3 := w2.log (Call.otap_write i num_bytes (buf.take num_bytes))
        if !env.otap_write_ok n then .ok (false, w3)
        else streamLoop env len block_size fuel ((i + block_size) % 4294967296) w3
    else .ok (true, w)

/-- The second part of `Otap_process`, after `lib_otap->begin` was accepted;
`len` is the length found in the header.  The counter of the loop takes at most
`2 ^ 32` values: after `2 ^ 32 + 1` rounds it has come back to a value it had
before, which is where the fuel given here ends. -/
def processStream (env : Env) (w : World) (len : Nat) : Except Fault (Otap_ret × World) :=
  match read env w w.otap.m_test ((w.otap.m_header_size + len + 4294967296 - 16) % 4294967296)
      16 with
  | .error f => .error f
  | .ok (_, test, w1) =>
    let w2 : World := { w1 with otap := { w1.otap with m_test := test } }
    let block_size :=
      if BLOCK_SIZE > env.otap_max_block_num_bytes then env.otap_max_block_num_bytes
      else BLOCK_SIZE
    match streamLoop env len block_size (4294967296 + 1) 0 w2 with
    | .error f => .error f
    | .ok (false, w3) => .ok (minus_one, w3)
    | .ok (true, w3) =>
      let n := w3.trace.length
      let w4 := w3.log (Call.otap_setTargetScratchpadAndAction env.otap_seq env.otap_crc)
      if env.otap_set_target_res n ≠ 0 then .ok (lib_otap_res (env.otap_set_target_res n), w4)
      else
        let m := w4.trace.length
        let w5 := w4.log Call.otap_setToBeProcessed
        if !env.otap_set_to_be_processed_ok m then .ok (minus_one, w5)
        else .ok (APP_RET_OK, w5)

end Otap

/-- The function `Otap_process`.  After `processHeader` the local `len` is the
32-bit value at offset 4 of `m_buffer_block_write`. -/
def Otap_process (env : Env) (w : World) : Except Fault (Otap_ret × World) :=
  match Otap.processHeader env w with
  | .error f => .error f
  | .ok (some r, w1) => .ok (r, w1)
  | .ok (none, w1) => Otap.processStream env w1 (rd32 w1.otap.m_buffer_block_write 4)

/-! ## ble.c: return value of `bleSendCmd`, the send task -/

/-- The value `APP_RET_ERROR_INTERNAL` of `error.h` (`APP_RET_OK` is 0). -/
def APP_RET_ERROR_INTERNAL : Nat := 1

/-- The whole of `bleSendCmd`: the slot search of `bleSendCmd` above, then the
call that starts `bleSendTask` in the scheduler, whose answer
(`add_task_ok`: it is `APP_SCHEDULER_RES_OK`) alone decides the value
returned. -/
def bleSendCmd_call (context : Ble_context) (cmd : ble_adv_cmd_t) (cmd_len : Nat) (qos : Bool)
    (add_task_ok : Bool) : Nat × Ble_context :=
  let context1 := bleSendCmd context cmd cmd_len qos
  if !add_task_ok then (APP_RET_ERROR_INTERNAL, context1) else (0, context1)

def BLE_HEADER_PDU_TYPE : Nat := 0x42

/-- The function `generateBleTxHeader` for a buffer that holds the header:
the 11 bytes of the packed `ble_tx_header_t`. -/
def generateBleTxHeader (context : Ble_context) (ad_type payload_len : Nat) : List Nat :=
  [BLE_HEADER_PDU_TYPE] ++ (List.range 6).map (fun i => context.ble_mac_address.getD i 0) ++
    [(payload_len + 3) % 256, ad_type % 256] ++ u16 BLE_COMPANY_ID

/-- The function `configureLibBeaconTx`. -/
def configureLibBeaconTx (w : World) : World :=
  (((w.log Call.beacon_tx_clearBeacons).log (Call.beacon_tx_setBeaconInterval 100)).log
    (Call.beacon_tx_setBeaconPower 0 8)).log (Call.beacon_tx_setBeaconChannels 0)

/-- The test at the head of `bleSendTask`: an element is in flight, its `qos`
is set and `keep_sending` equals its message id. -/
def sendHeld (w : World) : Bool :=
  match w.sending_element with
  | none => false
  | some i =>
    (w.ble.ble_tx_items.getD i {}).qos &&
      decide (w.ble.keep_sending = (w.ble.ble_tx_items.getD i {}).message_id)

/-- The second statement of `bleSendTask`: the slot in flight is freed. -/
def freeSending (w : World) : World :=
  match w.sending_element with
  | none => w
  | some i =>
    { w with
      ble := { w.ble with
        ble_tx_items :=
          w.ble.ble_tx_items.set i
            { w.ble.ble_tx_items.getD i {} with status := ble_SLOT_EMPTY } }
      sending_element := none }

/-- The end of `bleSendTask`: the transmitter gets the frame, the element
is in flight. -/
def armBeacon (w : World) (element : Nat) (contents : List Nat) : World :=
  let w1 := w.log (Call.beacon_tx_setBeaconContents 0 contents)
  { w1 with
    ble := { w1.ble with
      ble_tx_items :=
        w1.ble.ble_tx_items.set element
          { w1.ble.ble_tx_items.getD element {} with status := ble_SLOT_SENDING } }
    sending_element := some element }

/-- The task `bleSendTask`: the value returned to the scheduler and the
state.  `list_size` is a `uint8_t`: the size of the pending list modulo 256.  The
branch for `header_len == 0` cannot be taken (the buffer has room for the
header) and is left out. -/
def bleSendTask (env : Env) (w : World) : Except Fault (Nat × World) :=
  if sendHeld w then .ok (500, w)
  else
    let w1 := freeSending w
    let list_size := w1.ble.ble_tx_items_head_p.length % 256
    if list_size = 0 then
      let n := w1.trace.length
      let w2 := w1.log (Call.beacon_tx_enableBeacons false)
      if !env.beacon_enable_ok n then .ok (500, w2)
      else .ok (APP_SCHEDULER_STOP_TASK, { w2 with beacon_sending := false })
    else
      let element := w1.ble.ble_tx_items_head_p.headD 0
      let rest := w1.ble.ble_tx_items_head_p.tail
      let item := w1.ble.ble_tx_items.getD element {}
      let w2 : World := { w1 with ble := { w1.ble with ble_tx_items_head_p := rest } }
      if item.payload.length < item.payload_len ∨ BLE_ADV_TOTAL_LEN < item.payload_len then
        .error Fault.out_of_bounds
      else
        let contents :=
          generateBleTxHeader w2.ble BLE_ADV_DATA_TYPE_MANUFACTURER item.payload_len ++
            item.payload.take item.payload_len
        if !w2.beacon_sending then
          let w3 := configureLibBeaconTx w2
          let n := w3.trace.length
          let w4 := w3.log (Call.beacon_tx_enableBeacons true)
          if !env.beacon_enable_ok n then
            .ok (250, { w4 with ble := { w4.ble with ble_tx_items_head_p := element :: rest } })
          else .ok (2000, { armBeacon w4 element contents with beacon_sending := true })
        else .ok (250, armBeacon w2 element contents)

/-! ## ble.c: actions and guard of the state machine -/

/-- The function `setBlePrivateStaticAddress`. -/
def setBlePrivateStaticAddress (env : Env) (context : Ble_context) : Ble_context :=
  { context with
    ble_mac_address :=
      memcpy context.ble_mac_address
        [0x13, env.unique_address % 256, env.unique_address / 256 % 256,
          env.unique_address / 65536 % 256, env.unique_address / 16777216 % 256, 0x14] 6 }

/-- The entry action `initialize` of `ble.c`. -/
def initializeBle (env : Env) (w : World) : World :=
  if w.ble.initialized then w
  else
    let w1 := w.log Call.beacon_rx_setBeaconReceivedCb
    { w1 with ble := { setBlePrivateStaticAddress env w1.ble with initialized := true } }

/-- The entry action `scanningStart`. -/
def scanningStart (w : World) : World :=
  let w1 := w.log Call.beacon_rx_startScanner
  { w1 with ble :=
    { w1.ble with
      connected_device_mac := memcpy w1.ble.connected_device_mac (List.replicate 6 0) 6 } }

/-- The exit action `scanningStop`. -/
def scanningStop (w : World) : World := w.log Call.beacon_rx_stopScanner

/-- The guard `isSink`: the `uint8_t` member `is_sink` as a `bool`. -/
def isSink (w : World) : Bool := w.app_settings.is_sink != 0

/-- The bodies behind the function pointers of `ble_event_matrix`. -/
def ble_code (env : Env) : Code World :=
  { guard := fun g w => if g = 1 then isSink w else false
    action := fun a w =>
      if a = 1 then initializeBle env w
      else if a = 2 then scanningStart w
      else if a = 3 then scanningStop w
      else w }

/-- One run of the dispatch task of the BLE state machine: `Sm_handleEvents`
on `sm_context_p` with the module context. -/
def Ble_handleEvents (env : Env) (w : World) : World :=
  let r := Sm_handleEvents (ble_code env) w.sm w
  { r.world with sm := r.sm }

/-! ## ble.h: members of the begin-upload response -/

/-- The member `payload.otap_begin_upload_rsp.request_id`. -/
def begin_upload_rsp_request_id (cmd : ble_adv_cmd_t) : Nat := rd16 cmd 3
/-- The member `payload.otap_begin_upload_rsp.start_message_id`. -/
def begin_upload_rsp_start_message_id (cmd : ble_adv_cmd_t) : Nat := rd16 cmd 5
/-- The member `payload.otap_begin_upload_rsp.response_code`. -/
def begin_upload_rsp_response_code (cmd : ble_adv_cmd_t) : Nat := cmd.getD 7 0

/-- Successive calls of `getNextMessageId`, `k` of them: the context after
the last one. -/
def allocateIds : Nat → Ble_context → Ble_context
  | 0, context => context
  | k + 1, context => allocateIds k (getNextMessageId context).2
/-! ## Concrete instances used to instantiate the theorems -/

/-- A two row table with overlapping rows, used to instantiate the theorems. -/
def sampleMatrix : List sm_event_matrix_t :=
  [ { state := sm_S_IDLE, event := ble_E_SCANNING_START, guard := some 1,
      next_state := ble_S_SCANNING, entry_function := some 10, exit_function := some 11 },
    { state := sm_S_ANY_STATE, event := ble_E_SCANNING_START, guard := none,
      next_state := sm_S_NO_NEW_STATE, entry_function := some 20, exit_function := none } ]

/-- Bodies for `sampleMatrix`: every guard holds, action `a` adds `a` to a
counter. -/
def sampleCode : Code Nat :=
  { guard := fun _ _ => true, action := fun a w => w + a }

/-- A machine in `sm_S_IDLE` over `sampleMatrix` with one queued event in slot
1 of 3 and exit action 5 armed. -/
def sampleSm (e : sm_event_e) : Sm_context :=
  { current_state := sm_S_IDLE
    event_queue := [sm_E_NONE, e, sm_E_NONE]
    event_queue_head := [1]
    event_matrix := sampleMatrix
    exit_action := some 5 }


/-- A packet in the manufacturer layout around a frame: six address bytes,
the length byte, `0xFF`, the company id and the frame. -/
def mkPacket (frame : List Nat) : app_lib_beacon_rx_received_t :=
  { payload := [0x13, 1, 2, 3, 4, 0x14, frame.length + 3, 0xFF, 0xEF, 0x09] ++ frame }

/-- A begin-upload request frame. -/
def beginUploadFrame (message_id token sequence length package_length : Nat) : List Nat :=
  u16 message_id ++ [ble_ADV_CMD_OTAP_BEGIN_UPLOAD_REQUEST] ++ u16 token ++ [sequence % 256] ++
    u32 length ++ [package_length % 256]

/-- An upload request frame for fragment `index` of a session that starts at
`0x8000`, with `n` payload bytes. -/
def fragmentFrame (index n : Nat) : List Nat :=
  u16 (0x8000 + index) ++ [ble_ADV_CMD_OTAP_UPLOAD_REQUEST] ++ List.replicate n (index % 256)

/-- A storage area of 8 KiB with 4 KiB sectors whose operations are always
accepted and end at once; the stack is stopped, update pipeline and beacon
transmitter accept every call. -/
def sampleEnv : Env :=
  { unique_address := 0x12345678
    VER_MAJOR := 1
    VER_MINOR := 2
    area_info := fun _ =>
      some { area_size := 8192
             flash := { write_alignment := 4, erase_sector_size := 4096, byte_write_time := 10,
                        byte_write_call_time := 5, sector_erase_time := 1000 }
             external_flash := false }
    start_ok := fun _ => true
    op_time := fun _ => some 0
    poll_time := 1
    persistent_write_ok := fun _ => true
    persistent_res_value := fun n => n + 1
    stack_started := fun _ => false
    otap_begin_ok := fun _ => true
    otap_max_block_num_bytes := 1024
    otap_write_ok := fun _ => true
    otap_seq := 5
    otap_crc := 0xBEEF
    otap_set_target_res := fun _ => 0
    otap_set_to_be_processed_ok := fun _ => true
    beacon_enable_ok := fun _ => true }

/-- The state after start-up of a sink node with an erased 8 KiB area. -/
def sampleWorld : World :=
  Ble_createStatic { is_sink := 1 } { mem := List.replicate 8192 0xFF }

/-! ## Auxiliary notions for the statements -/

/-- Two states agree on what the duplicate checks of `bleReceiveCb` consult
and record: the retained frame, the receive buffer and the list of accepted
frames. -/
def SameRx (w w1 : World) : Prop :=
  w1.m_lastReceivedPackage = w.m_lastReceivedPackage ∧
  w1.m_ble_rx_buffer = w.m_ble_rx_buffer ∧
  w1.accepted = w.accepted

/-- The state of a run that ended without fault (`d` otherwise). -/
def okOr (r : Except Fault World) (d : World) : World :=
  match r with
  | .ok w => w
  | .error _ => d

/-- A scan request frame. -/
def scanRequestFrame (message_id app_version hardware : Nat) : List Nat :=
  u16 message_id ++ [ble_ADV_CMD_SCAN_REQUEST, app_version % 256, hardware % 256]

/-- The result of `receiveFilter` when it ends without fault (the unchanged
state and no frame otherwise). -/
def filtered (w : World) (packet : app_lib_beacon_rx_received_t) :
    World × Option ble_adv_cmd_t :=
  match receiveFilter w packet with
  | .ok r => r
  | .error _ => (w, none)

/-- The calls traced between two states: what `w1.trace` has after the
entries of `w.trace`. -/
def newCalls (w w1 : World) : List Call := w1.trace.drop w.trace.length

/-- Every bit `0 .. total_messages - 1` of the bitmap of a session is set. -/
def allReceived (o : ble_otap_t) : Prop :=
  ∀ i, i < o.total_messages → bitSet o.messageReceived i = true

/-- The run of the scenario: a begin-upload request for 1000 bytes in
fragments of 23 bytes (44 fragments), then the fragments with the indices
`ids`, in that order. -/
def uploadRun (ids : List Nat) : Except Fault World :=
  receiveAll sampleEnv sampleWorld
    (mkPacket (beginUploadFrame 5 0x5678 7 1000 23) ::
      ids.map (fun i => mkPacket (fragmentFrame i 23)))

/-- The state of the scenario after fragments 0 to 42. -/
def afterFragments0to42 : World := okOr (uploadRun (List.range 43)) sampleWorld

/-- The state after a begin-upload request for 69 bytes in fragments of 23
bytes (3 fragments), no fragment delivered yet. -/
def afterBegin69 : World :=
  okOr (bleReceiveCb sampleEnv sampleWorld (mkPacket (beginUploadFrame 5 0x5678 7 69 23)))
    sampleWorld

/-- The frames with command `ble_ADV_CMD_RESEND_MESSAGE_REQUEST` held by the
backlog (slots that are not empty), in slot order, each cut to its length. -/
def resendRequests (w : World) : List (List Nat) :=
  (w.ble.ble_tx_items.filter (fun item =>
    item.status != ble_SLOT_EMPTY &&
      cmd_command item.payload == ble_ADV_CMD_RESEND_MESSAGE_REQUEST)).map
    (fun item => item.payload.take item.payload_len)

/-! ## Auxiliary notions for the statements on storage, send task and scanner -/

/-- The value of `timeout_us` in `write` for `amount` bytes: the product is
formed in 32 bits and converted to `int32_t`. -/
def writeTimeout (area : app_lib_mem_area_info_t) (amount : Nat) : Int :=
  toInt32 (((area.flash.byte_write_time + area.flash.byte_write_call_time) * amount) * 2)

/-- The operation started by call number `n` ends, and it does so not later
than one of the instants at which the busy-wait loop reads `isBusy` before the
timeout `timeout_us` has passed: the `k`-th reading takes place `k * poll_time`
after the start, the first one at the start itself. -/
def clearsWithin (env : Env) (n : Nat) (timeout_us : Int) : Prop :=
  ∃ d k, env.op_time n = some d ∧ d ≤ k * env.poll_time ∧
    (k = 0 ∨ ((k * env.poll_time : Nat) : Int) ≤ timeout_us)

/-- Whether a traced call is one into the update pipeline (`begin`, `write`,
`setTargetScratchpadAndAction`, `setToBeProcessed`). -/
def Call.isPipeline : Call → Bool
  | .otap_begin _ _ => true
  | .otap_write _ _ _ => true
  | .otap_setTargetScratchpadAndAction _ _ => true
  | .otap_setToBeProcessed => true
  | _ => false

/-- The calls into the update pipeline among `calls`, in order. -/
def pipelineCalls (calls : List Call) : List Call := calls.filter Call.isPipeline

/-- The state after a run of the send task that ended without fault (`d`
otherwise). -/
def taskOr (r : Except Fault (Nat × World)) (d : World) : World :=
  match r with
  | .ok x => x.2
  | .error _ => d

/-- A state in which a resend request is in flight: after the begin-upload
request of `afterBegin69` the send task runs once (the begin-upload response
goes out), the last fragment (index 2) arrives, so that a status response and
the resend request for fragment 0 are queued, and the send task runs twice
(first the status response, then the resend request goes out). -/
def holdWorld : World :=
  let w2 := taskOr (bleSendTask sampleEnv afterBegin69) afterBegin69
  let w3 := okOr (bleReceiveCb sampleEnv w2 (mkPacket (fragmentFrame 2 23))) w2
  let w4 := taskOr (bleSendTask sampleEnv w3) w3
  taskOr (bleSendTask sampleEnv w4) w4

/-- The state `holdWorld` after a second begin-upload request (message id 9,
sequence number 8) was received. -/
def holdWorldAfterBegin : World :=
  okOr (bleReceiveCb sampleEnv holdWorld (mkPacket (beginUploadFrame 9 0x5678 8 69 23)))
    holdWorld

/-- What can happen to the BLE state machine: an event is fired at it, or its
dispatch task runs once. -/
inductive Ble_op where
  | fire (event : sm_event_e)
  | dispatch
  deriving DecidableEq, Repr

/-- One step of a run of the BLE state machine. -/
def Ble_step (env : Env) (w : World) : Ble_op → World
  | .fire event => { w with sm := Sm_fireEvent w.sm event }
  | .dispatch => Ble_handleEvents env w

/-- A run of the BLE state machine: the steps `ops` in order. -/
def Ble_run (env : Env) (w : World) (ops : List Ble_op) : World :=
  ops.foldl (Ble_step env) w

/-- The scanner was started: `startScanner` is among the traced calls. -/
def scannerStarted (w : World) : Prop := Call.beacon_rx_startScanner ∈ w.trace

/-- What holds of a node that is no sink in every state of a run from boot:
the table is the one of `ble.c`, the machine is in `sm_S_BOOT` or `sm_S_IDLE`, no
exit action is armed and the scanner was not started. -/
def NonSinkInv (w : World) : Prop :=
  w.app_settings.is_sink = 0 ∧ w.sm.event_matrix = ble_event_matrix ∧
  (w.sm.current_state = sm_S_BOOT ∨ w.sm.current_state = sm_S_IDLE) ∧
  w.sm.exit_action = none ∧ ¬ scannerStarted w

/-- The state after `Otap_init` and `Otap_bufferEnd 96 5` on `sampleWorld` (the
header of an image of 96 bytes with sequence number 5 is sealed). -/
def sealedWorld : World :=
  match Otap_bufferEnd sampleEnv (Otap_init sampleEnv sampleWorld).2 96 5 with
  | .ok r => r.2
  | .error _ => sampleWorld

/-- The state `sealedWorld` with `m_buffer_block_write` cleared: the storage
holds the header, the buffer does not. -/
def sealedWorldCleared : World :=
  { sealedWorld with
    otap := { sealedWorld.otap with m_buffer_block_write := List.replicate 512 0 } }

/-! ## Further concrete instances -/

/-- The sample collaborators with a storage area of 256 bytes in sectors of
64 bytes. -/
def smallEnv : Env :=
  { sampleEnv with
    area_info := fun _ =>
      some { area_size := 256
             flash := { write_alignment := 4, erase_sector_size := 64, byte_write_time := 10,
                        byte_write_call_time := 5, sector_erase_time := 1000 }
             external_flash := false } }

/-- The state after start-up, `Otap_init` and `Otap_bufferEnd 96 5` on an erased
area of 256 bytes, with `m_buffer_block_write` cleared afterwards: the storage
holds the header of an image of 96 bytes with sequence number 5, the buffer
does not. -/
def smallSealedCleared : World :=
  match Otap_bufferEnd smallEnv
      (Otap_init smallEnv
        (Ble_createStatic { is_sink := 1 } { mem := List.replicate 256 0xFF })).2 96 5 with
  | .ok r => { r.2 with otap := { r.2.otap with m_buffer_block_write := List.replicate 512 0 } }
  | .error _ => sampleWorld

/-- The collaborators of `smallEnv` with a storage driver that accepts only the
call traced as number 5 (in `smallSealedCleared`: the header read of
`Otap_process`) and refuses every other `startRead`, `startWrite` and
`startErase`. -/
def readRefusedEnv : Env := { smallEnv with start_ok := fun n => n == 5 }

/-- The sample collaborators with a persistent store that refuses every
write. -/
def writeRefusedEnv : Env := { sampleEnv with persistent_write_ok := fun _ => false }

/-- The sample collaborators with a storage area whose write alignment is 8. -/
def align8Env : Env :=
  { sampleEnv with
    area_info := fun _ =>
      some { area_size := 8192
             flash := { write_alignment := 8, erase_sector_size := 4096, byte_write_time := 10,
                        byte_write_call_time := 5, sector_erase_time := 1000 }
             external_flash := false } }

/-- The state `afterBegin69` after the last fragment (index 2, message id
`0x8002`) was received. -/
def afterLast69 : World :=
  okOr (bleReceiveCb sampleEnv afterBegin69 (mkPacket (fragmentFrame 2 23))) afterBegin69

/-- The state `afterLast69` after fragment 1 (message id `0x8001`) was
received. -/
def afterLastThenOne69 : World :=
  okOr (bleReceiveCb sampleEnv afterLast69 (mkPacket (fragmentFrame 1 23))) afterLast69

/-- The frames held by the backlog (slots that are not empty), in slot
order, each cut to its length. -/
def backlogFrames (w : World) : List (List Nat) :=
  (w.ble.ble_tx_items.filter (fun item => item.status != ble_SLOT_EMPTY)).map
    (fun item => item.payload.take item.payload_len)

/-! ## Auxiliary notions for the statements on the receive path and the hand-over -/

/-- How often the body of `initialize` ran: the number of calls of
`setBeaconReceivedCb` among the traced calls (its first statement, made
nowhere else). -/
def initCount (w : World) : Nat := w.trace.count Call.beacon_rx_setBeaconReceivedCb

/-- The fault a computation ended with (`none`: it returned). -/
def faultOf {α : Type} (r : Except Fault α) : Option Fault :=
  match r with
  | .ok _ => none
  | .error f => some f

/-- What holds of the BLE state machine in every state of a run from boot: the
table is the one of `ble.c`; the machine is in `sm_S_BOOT` or `sm_S_IDLE` with no
exit action armed, or in `ble_S_SCANNING` with `scanningStop` armed; the body of
`initialize` ran once if `initialized` is set and never otherwise. -/
def InitInv (w : World) : Prop :=
  w.sm.event_matrix = ble_event_matrix ∧
  ((w.sm.current_state = sm_S_BOOT ∧ w.sm.exit_action = none) ∨
   (w.sm.current_state = sm_S_IDLE ∧ w.sm.exit_action = none) ∨
   (w.sm.current_state = ble_S_SCANNING ∧ w.sm.exit_action = some 3)) ∧
  initCount w = (if w.ble.initialized then 1 else 0)

/-- The sample state after a scan request with message id `message_id`,
application version 1 and hardware 1 was received. -/
def afterScan (message_id : Nat) : World :=
  okOr (bleReceiveCb sampleEnv sampleWorld (mkPacket (scanRequestFrame message_id 1 1)))
    sampleWorld

/-- A traced call without the bytes handed over: `lib_otap->write` keeps its
start offset and its length. -/
def Call.shape : Call → Call
  | .otap_write start num_bytes _ => .otap_write start num_bytes []
  | c => c

/-- The blocks of the specification for an image of `len` bytes and block size
`b`: offset and length of block `k`, for `k` below `ceil (len / b)`. -/
def specBlocks (len b : Nat) : List (Nat × Nat) :=
  (List.range ((len + b - 1) / b)).map (fun k => (k * b, min b (len - k * b)))

/-- The value of `block_size` in `Otap_process`. -/
def blockSize (env : Env) : Nat :=
  if Otap.BLOCK_SIZE > env.otap_max_block_num_bytes then env.otap_max_block_num_bytes
  else Otap.BLOCK_SIZE

/-- The collaborators of `smallEnv` with an update pipeline that takes blocks
of at most 40 bytes. -/
def block40Env : Env := { smallEnv with otap_max_block_num_bytes := 40 }

/-- The state after start-up, `Otap_init` and `Otap_bufferEnd 0xFFFFFFFC 5` on an
erased area of 256 bytes: the storage holds a header with the length
`0xFFFFFFFC` (a multiple of 4 above 96) and the sequence number 5. -/
def wrapWorld : World :=
  match Otap_bufferEnd smallEnv
      (Otap_init smallEnv
        (Ble_createStatic { is_sink := 1 } { mem := List.replicate 256 0xFF })).2 0xFFFFFFFC 5 with
  | .ok r => r.2
  | .error _ => sampleWorld

/-- An upload request frame with message id 0 and 23 payload bytes, in the
manufacturer layout. -/
def strayFragment : app_lib_beacon_rx_received_t :=
  mkPacket (u16 0 ++ [ble_ADV_CMD_OTAP_UPLOAD_REQUEST] ++ List.replicate 23 0)

/-- The sample state after a begin-upload request for 5000 bytes in fragments
of 1 byte (5000 fragments). -/
def afterBegin5000 : World :=
  okOr (bleReceiveCb sampleEnv sampleWorld (mkPacket (beginUploadFrame 5 0x5678 7 5000 1)))
    sampleWorld

/-- The state after start-up on an erased area of 256 bytes (`smallEnv`), a
begin-upload request for 69 bytes in fragments of 23 bytes (3 fragments) and
the fragments 0 and 1. -/
def afterTwoOf69 : World :=
  okOr (receiveAll smallEnv
    (Ble_createStatic { is_sink := 1 } { mem := List.replicate 256 0xFF })
    [mkPacket (beginUploadFrame 5 0x5678 7 69 23), mkPacket (fragmentFrame 0 23),
     mkPacket (fragmentFrame 1 23)]) sampleWorld

/-- The collaborators of `smallEnv` with a storage driver that refuses the call
traced as number 11 (in `afterTwoOf69` followed by fragment 2: the write of the
header) and accepts every other one. -/
def headerRefusedEnv : Env := { smallEnv with start_ok := fun n => n != 11 }

/-- The state after start-up and `Otap_init` with `smallEnv` on an area of 256
bytes that holds zeros (it is not erased). -/
def smallDirtyWorld : World :=
  (Otap_init smallEnv (Ble_createStatic { is_sink := 1 } { mem := List.replicate 256 0 })).2

/-- The sample collaborators with a storage driver that knows no area:
`getAreaInfo` fails, so that `Otap_init` returns `APP_PERSISTENT_RES_NO_AREA`. -/
def noAreaEnv : Env := { sampleEnv with area_info := fun _ => none }
/-! ## Properties of the state machine engine -/

theorem firstFreeSlot_append_replicate (done : List sm_event_e) (m : Nat)
    (hdone : ∀ e ∈ done, e ≠ sm_E_NONE) :
    firstFreeSlot (done ++ List.replicate m sm_E_NONE) =
      if m = 0 then none else some done.length := by
  induction done with
  | nil =>
    cases m with
    | zero => simp [firstFreeSlot]
    | succ k => simp [firstFreeSlot, List.replicate_succ]
  | cons d ds ih =>
    have hd : d ≠ sm_E_NONE := hdone d (List.mem_cons_self _ _)
    have hds : ∀ e ∈ ds, e ≠ sm_E_NONE := fun e he => hdone e (List.mem_cons_of_mem _ he)
    have h := ih hds
    by_cases hm : m = 0
    · simp [hm] at h
      simp [firstFreeSlot, hd, hm, h]
    · simp [hm] at h
      simp [firstFreeSlot, hd, hm, h]

theorem Sm_fireEvent_append_replicate (sm : Sm_context) (done : List sm_event_e) (m : Nat)
    (e : sm_event_e) (hq : sm.event_queue = done ++ List.replicate (m + 1) sm_E_NONE)
    (hdone : ∀ x ∈ done, x ≠ sm_E_NONE) :
    Sm_fireEvent sm e =
      { sm with
        event_queue := (done ++ [e]) ++ List.replicate m sm_E_NONE
        event_queue_head := sm.event_queue_head ++ [done.length] } := by
  have hf := firstFreeSlot_append_replicate done (m + 1) hdone
  simp only [Nat.succ_ne_zero, if_false] at hf
  unfold Sm_fireEvent
  rw [hq, hf]
  simp [List.replicate_succ]

theorem Sm_fireEvent_full (sm : Sm_context) (e : sm_event_e)
    (hfull : ∀ x ∈ sm.event_queue, x ≠ sm_E_NONE) : Sm_fireEvent sm e = sm := by
  have hf := firstFreeSlot_append_replicate sm.event_queue 0 hfull
  simp only [List.replicate_zero, List.append_nil, if_true] at hf
  unfold Sm_fireEvent
  rw [hf]

theorem fireAll_append_replicate (es : List sm_event_e) :
    ∀ (sm : Sm_context) (done : List sm_event_e) (m : Nat),
      sm.event_queue = done ++ List.replicate m sm_E_NONE →
      (∀ x ∈ done, x ≠ sm_E_NONE) → (∀ x ∈ es, x ≠ sm_E_NONE) → es.length ≤ m →
      fireAll sm es =
        { sm with
          event_queue := (done ++ es) ++ List.replicate (m - es.length) sm_E_NONE
          event_queue_head := sm.event_queue_head ++ List.range' done.length es.length } := by
  induction es with
  | nil =>
    intro sm done m hq _ _ _
    simp [fireAll, ← hq]
  | cons e es ih =>
    intro sm done m hq hdone hes hlen
    have he : e ≠ sm_E_NONE := hes e (List.mem_cons_self _ _)
    have hes2 : ∀ x ∈ es, x ≠ sm_E_NONE := fun x hx => hes x (List.mem_cons_of_mem _ hx)
    obtain ⟨k, rfl⟩ : ∃ k, m = k + 1 := by
      cases m with
      | zero => simp at hlen
      | succ k => exact ⟨k, rfl⟩
    have hstep := Sm_fireEvent_append_replicate sm done k e hq hdone
    have hdone2 : ∀ x ∈ done ++ [e], x ≠ sm_E_NONE := by
      intro x hx
      rcases List.mem_append.mp hx with h | h
      · exact hdone x h
      · simp at h; exact h ▸ he
    have hlen2 : es.length ≤ k := by simpa using hlen
    have := ih (Sm_fireEvent sm e) (done ++ [e]) k (by rw [hstep]) hdone2 hes2 hlen2
    show fireAll (Sm_fireEvent sm e) es = _
    rw [this, hstep]
    simp [List.range'_succ, Nat.add_comm]

theorem rowMatches_iff {W : Type} (code : Code W) (w : W) (cur : sm_state_e)
    (ev : sm_event_e) (row : sm_event_matrix_t) :
    rowMatches code w cur ev row = true ↔
      (row.event = ev ∧ (row.state = cur ∨ row.state = sm_S_ANY_STATE) ∧
        (row.guard = none ∨ ∃ g, row.guard = some g ∧ code.guard g w = true)) := by
  unfold rowMatches
  cases hg : row.guard with
  | none =>
    simp only [Bool.and_true, Bool.and_eq_true, Bool.or_eq_true, beq_iff_eq, true_or, and_true]
    constructor
    · rintro ⟨h1, h2⟩
      exact ⟨h1.symm, h2.imp Eq.symm id⟩
    · rintro ⟨h1, h2⟩
      exact ⟨h1.symm, h2.imp Eq.symm id⟩
  | some g =>
    simp only [Bool.and_eq_true, Bool.or_eq_true, beq_iff_eq, false_or, Option.some.injEq,
      exists_eq_left', reduceCtorEq]
    constructor
    · rintro ⟨⟨h1, h2⟩, h3⟩
      exact ⟨h1.symm, h2.imp Eq.symm id, h3⟩
    · rintro ⟨h1, h2, h3⟩
      exact ⟨⟨h1.symm, h2.imp Eq.symm id⟩, h3⟩

theorem findTransition_none {W : Type} (code : Code W) (w : W) (cur : sm_state_e)
    (ev : sm_event_e) (rows : List sm_event_matrix_t)
    (h : ∀ row ∈ rows, rowMatches code w cur ev row = false) :
    findTransition code w cur ev rows = none := by
  induction rows with
  | nil => rfl
  | cons r rs ih =>
    have hr := h r (List.mem_cons_self _ _)
    have hrs := ih (fun row hrow => h row (List.mem_cons_of_mem _ hrow))
    simp [findTransition, hr, hrs]

theorem findTransition_first {W : Type} (code : Code W) (w : W) (cur : sm_state_e)
    (ev : sm_event_e) :
    ∀ (rows : List sm_event_matrix_t) (i : Nat) (row : sm_event_matrix_t),
      rows.get? i = some row → rowMatches code w cur ev row = true →
      (∀ j r, j < i → rows.get? j = some r → rowMatches code w cur ev r = false) →
      findTransition code w cur ev rows = some i := by
  intro rows
  induction rows with
  | nil => intro i row h; simp at h
  | cons r rs ih =>
    intro i row hget hm hbefore
    cases i with
    | zero =>
      simp at hget
      subst hget
      simp [findTransition, hm]
    | succ k =>
      have hr : rowMatches code w cur ev r = false :=
        hbefore 0 r (Nat.succ_pos k) (by simp)
      have hk := ih k row (by simpa using hget) hm
        (fun j x hj hx => hbefore (j + 1) x (Nat.succ_lt_succ hj) (by simpa using hx))
      simp [findTransition, hr, hk]

theorem Sm_handleEvents_queue {W : Type} (code : Code W) (sm : Sm_context) (w : W)
    (slot : Nat) (rest : List Nat) (hq : sm.event_queue_head = slot :: rest) :
    (Sm_handleEvents code sm w).sm.event_queue = sm.event_queue.set slot sm_E_NONE ∧
    (Sm_handleEvents code sm w).sm.event_queue_head = rest ∧
    (Sm_handleEvents code sm w).dequeued = some (sm.event_queue.getD slot sm_E_NONE) := by
  unfold Sm_handleEvents
  rw [hq]
  dsimp only
  split
  · split <;> simp [takeTransition]
  · simp

theorem dispatchN_pending {W : Type} (code : Code W) :
    ∀ (l : List Nat) (sm : Sm_context) (w : W), sm.event_queue_head = l → l.Nodup →
      (dispatchN code l.length sm w).2.2 = (pendingEvents sm).map some ∧
      (dispatchN code l.length sm w).1.event_queue_head = [] := by
  intro l
  induction l with
  | nil =>
    intro sm w hq _
    simp [dispatchN, pendingEvents, hq]
  | cons slot rest ih =>
    intro sm w hq hnd
    obtain ⟨h1, h2, h3⟩ := Sm_handleEvents_queue code sm w slot rest hq
    have hnd2 : rest.Nodup := (List.nodup_cons.mp hnd).2
    have hnot : slot ∉ rest := (List.nodup_cons.mp hnd).1
    obtain ⟨ih1, ih2⟩ := ih (Sm_handleEvents code sm w).sm (Sm_handleEvents code sm w).world h2 hnd2
    simp only [List.length_cons, dispatchN]
    refine ⟨?_, ih2⟩
    rw [ih1, h3]
    simp only [pendingEvents, hq, h1, h2, List.map_cons, List.map_map]
    congr 1
    apply List.map_congr_left
    intro i hi
    have hne : slot ≠ i := fun h => hnot (h ▸ hi)
    simp [List.getD_eq_getElem?_getD, List.getElem?_set, hne]

theorem map_getD_range_append (es rest : List sm_event_e) :
    (List.range' 0 es.length).map (fun i => (es ++ rest).getD i sm_E_NONE) = es := by
  apply List.ext_getElem
  · simp
  · intro n h1 h2
    simp [List.getD_eq_getElem?_getD, List.getElem?_append_left h2, h2]

theorem fireAll_free_queue (sm : Sm_context) (es : List sm_event_e)
    (hfree : ∀ x ∈ sm.event_queue, x = sm_E_NONE)
    (hlen : es.length ≤ sm.event_queue.length) (hes : ∀ x ∈ es, x ≠ sm_E_NONE) :
    fireAll sm es =
      { sm with
        event_queue := es ++ List.replicate (sm.event_queue.length - es.length) sm_E_NONE
        event_queue_head := sm.event_queue_head ++ List.range' 0 es.length } := by
  have hq : sm.event_queue = [] ++ List.replicate sm.event_queue.length sm_E_NONE := by
    simpa using List.eq_replicate_iff.mpr ⟨rfl, hfree⟩
  have := fireAll_append_replicate es sm [] sm.event_queue.length hq (by simp) hes hlen
  simpa using this

/-! ### Dispatch and queueing -/

/-- C1: when the oldest queued event matches no table row (no row has that
event, a state equal to the current state or `sm_S_ANY_STATE`, and a guard that
is NULL or returns true), `Sm_handleEvents` leaves `current_state`, the armed
`exit_action` and the module state unchanged, calls no action, removes the
event from the pending list and frees its slot. -/
theorem C1_unmatched_event_dropped {W : Type} (code : Code W) (sm : Sm_context) (w : W)
    (slot : Nat) (rest : List Nat)
    (hq : sm.event_queue_head = slot :: rest)
    (hslot : slot < sm.event_queue.length)
    (hno : ∀ row ∈ sm.event_matrix,
      ¬ (row.event = sm.event_queue.getD slot sm_E_NONE ∧
         (row.state = sm.current_state ∨ row.state = sm_S_ANY_STATE) ∧
         (row.guard = none ∨ ∃ g, row.guard = some g ∧ code.guard g w = true))) :
    (Sm_handleEvents code sm w).sm.current_state = sm.current_state ∧
    (Sm_handleEvents code sm w).sm.exit_action = sm.exit_action ∧
    (Sm_handleEvents code sm w).invoked = [] ∧
    (Sm_handleEvents code sm w).world = w ∧
    (Sm_handleEvents code sm w).dequeued = some (sm.event_queue.getD slot sm_E_NONE) ∧
    (Sm_handleEvents code sm w).sm.event_queue_head = rest ∧
    (Sm_handleEvents code sm w).sm.event_queue = sm.event_queue.set slot sm_E_NONE ∧
    (Sm_handleEvents code sm w).sm.event_queue.get? slot = some sm_E_NONE ∧
    (Sm_handleEvents code sm w).sm.event_matrix = sm.event_matrix := by
  have hnone : findTransition code w sm.current_state (sm.event_queue.getD slot sm_E_NONE)
      sm.event_matrix = none := by
    apply findTransition_none
    intro row hrow
    have := hno row hrow
    rw [← rowMatches_iff] at this
    simpa using this
  have hget : (sm.event_queue.set slot sm_E_NONE).get? slot = some sm_E_NONE := by
    simp [List.getElem?_set, hslot]
  unfold Sm_handleEvents
  rw [hq]
  dsimp only
  rw [hnone]
  exact ⟨rfl, rfl, rfl, rfl, rfl, rfl, rfl, hget, rfl⟩

/-- C1 at a concrete machine: `sm_E_IDLE` is queued and no row of the table
has that event. -/
theorem C1_unmatched_event_dropped_witness :
    (Sm_handleEvents sampleCode (sampleSm sm_E_IDLE) 0).sm.current_state = sm_S_IDLE ∧
    (Sm_handleEvents sampleCode (sampleSm sm_E_IDLE) 0).sm.exit_action = some 5 ∧
    (Sm_handleEvents sampleCode (sampleSm sm_E_IDLE) 0).invoked = [] ∧
    (Sm_handleEvents sampleCode (sampleSm sm_E_IDLE) 0).world = 0 ∧
    (Sm_handleEvents sampleCode (sampleSm sm_E_IDLE) 0).dequeued = some sm_E_IDLE ∧
    (Sm_handleEvents sampleCode (sampleSm sm_E_IDLE) 0).sm.event_queue_head = [] ∧
    (Sm_handleEvents sampleCode (sampleSm sm_E_IDLE) 0).sm.event_queue =
      [sm_E_NONE, sm_E_NONE, sm_E_NONE] ∧
    (Sm_handleEvents sampleCode (sampleSm sm_E_IDLE) 0).sm.event_queue.get? 1 =
      some sm_E_NONE ∧
    (Sm_handleEvents sampleCode (sampleSm sm_E_IDLE) 0).sm.event_matrix = sampleMatrix :=
  C1_unmatched_event_dropped sampleCode (sampleSm sm_E_IDLE) 0 1 [] rfl (by decide)
    (by simp [sampleSm, sampleMatrix])

/-- C2: when row `i` is the first row in table order whose event is the
dequeued event, whose state is the current state or `sm_S_ANY_STATE` and whose
guard is NULL or returns true, `Sm_handleEvents` calls the armed exit action
(if any) and then row `i`'s entry action (if any) and nothing else, applies row
`i`'s `next_state` (unless it is `sm_S_NO_NEW_STATE`) and arms row `i`'s
`exit_function`; no later row contributes anything. -/
theorem C2_first_match_wins {W : Type} (code : Code W) (sm : Sm_context) (w : W)
    (slot : Nat) (rest : List Nat) (i : Nat) (row : sm_event_matrix_t)
    (hq : sm.event_queue_head = slot :: rest)
    (hrow : sm.event_matrix.get? i = some row)
    (hmatch : row.event = sm.event_queue.getD slot sm_E_NONE ∧
         (row.state = sm.current_state ∨ row.state = sm_S_ANY_STATE) ∧
         (row.guard = none ∨ ∃ g, row.guard = some g ∧ code.guard g w = true))
    (hfirst : ∀ j r, j < i → sm.event_matrix.get? j = some r →
      ¬ (r.event = sm.event_queue.getD slot sm_E_NONE ∧
         (r.state = sm.current_state ∨ r.state = sm_S_ANY_STATE) ∧
         (r.guard = none ∨ ∃ g, r.guard = some g ∧ code.guard g w = true))) :
    (Sm_handleEvents code sm w).invoked = sm.exit_action.toList ++ row.entry_function.toList ∧
    (Sm_handleEvents code sm w).world =
      callIfSet code row.entry_function (callIfSet code sm.exit_action w) ∧
    (Sm_handleEvents code sm w).sm.current_state =
      (if row.next_state = sm_S_NO_NEW_STATE then sm.current_state else row.next_state) ∧
    (Sm_handleEvents code sm w).sm.exit_action = row.exit_function ∧
    (Sm_handleEvents code sm w).dequeued = some (sm.event_queue.getD slot sm_E_NONE) ∧
    (Sm_handleEvents code sm w).sm.event_queue_head = rest ∧
    (Sm_handleEvents code sm w).sm.event_queue = sm.event_queue.set slot sm_E_NONE ∧
    (Sm_handleEvents code sm w).sm.event_matrix = sm.event_matrix := by
  have hsome : findTransition code w sm.current_state (sm.event_queue.getD slot sm_E_NONE)
      sm.event_matrix = some i := by
    apply findTransition_first code w _ _ sm.event_matrix i row hrow
    · exact (rowMatches_iff code w _ _ row).mpr hmatch
    · intro j r hj hr
      have := hfirst j r hj hr
      rw [← rowMatches_iff] at this
      simpa using this
  unfold Sm_handleEvents
  rw [hq]
  dsimp only
  rw [hsome]
  dsimp only
  rw [hrow]
  refine ⟨rfl, rfl, ?_, rfl, rfl, rfl, rfl, rfl⟩
  by_cases h : row.next_state = sm_S_NO_NEW_STATE <;> simp [takeTransition, h]

/-- C2 at a concrete machine: both rows of `sampleMatrix` match
`ble_E_SCANNING_START` in `sm_S_IDLE`; only row 0 acts (armed exit action 5,
then entry action 10, never entry action 20). -/
theorem C2_first_match_wins_witness :
    (Sm_handleEvents sampleCode (sampleSm ble_E_SCANNING_START) 0).invoked = [5, 10] ∧
    (Sm_handleEvents sampleCode (sampleSm ble_E_SCANNING_START) 0).world = 15 ∧
    (Sm_handleEvents sampleCode (sampleSm ble_E_SCANNING_START) 0).sm.current_state =
      ble_S_SCANNING ∧
    (Sm_handleEvents sampleCode (sampleSm ble_E_SCANNING_START) 0).sm.exit_action = some 11 ∧
    (Sm_handleEvents sampleCode (sampleSm ble_E_SCANNING_START) 0).dequeued =
      some ble_E_SCANNING_START ∧
    (Sm_handleEvents sampleCode (sampleSm ble_E_SCANNING_START) 0).sm.event_queue_head = [] ∧
    (Sm_handleEvents sampleCode (sampleSm ble_E_SCANNING_START) 0).sm.event_queue =
      [sm_E_NONE, sm_E_NONE, sm_E_NONE] ∧
    (Sm_handleEvents sampleCode (sampleSm ble_E_SCANNING_START) 0).sm.event_matrix =
      sampleMatrix :=
  C2_first_match_wins sampleCode (sampleSm ble_E_SCANNING_START) 0 1 [] 0
    { state := sm_S_IDLE, event := ble_E_SCANNING_START, guard := some 1,
      next_state := ble_S_SCANNING, entry_function := some 10, exit_function := some 11 }
    rfl rfl (by simp [sampleSm, sampleCode]) (by simp)

/-- C3 fails as stated when the fired event is `sm_E_NONE`, the value that
marks a free slot: with capacity 2, firing `sm_E_NONE` and then `sm_E_INIT`
puts both into slot 0, so the pending events are not the fired ones; with
capacity 1, after firing `sm_E_NONE` the queue is nominally full, yet one more
`Sm_fireEvent` still changes it. -/
theorem C3_counterexample :
    pendingEvents (fireAll (Sm_createStatic [] 2) [sm_E_NONE, sm_E_INIT]) ≠
      [sm_E_NONE, sm_E_INIT] ∧
    Sm_fireEvent (fireAll (Sm_createStatic [] 1) [sm_E_NONE]) sm_E_INIT ≠
      fireAll (Sm_createStatic [] 1) [sm_E_NONE] := by
  decide

/-- C3 (amended): on a machine created by `Sm_createStatic` with a queue of
capacity `N`, firing `N` events other than `sm_E_NONE` drops none of them (slot
`k` holds the `k`-th event and the pending list holds exactly those `N` events
in firing order); any further `Sm_fireEvent` leaves the whole state machine
context, every slot and the pending list included, unchanged. -/
theorem C3_fire_up_to_capacity (event_matrix : List sm_event_matrix_t)
    (es : List sm_event_e) (extra : sm_event_e) (hes : ∀ x ∈ es, x ≠ sm_E_NONE) :
    pendingEvents (fireAll (Sm_createStatic event_matrix es.length) es) = es ∧
    (fireAll (Sm_createStatic event_matrix es.length) es).event_queue = es ∧
    Sm_fireEvent (fireAll (Sm_createStatic event_matrix es.length) es) extra =
      fireAll (Sm_createStatic event_matrix es.length) es := by
  have h := fireAll_free_queue (Sm_createStatic event_matrix es.length) es
    (by simp [Sm_createStatic]) (by simp [Sm_createStatic]) hes
  have hq : (fireAll (Sm_createStatic event_matrix es.length) es).event_queue = es := by
    rw [h]; simp [Sm_createStatic]
  refine ⟨?_, hq, ?_⟩
  · rw [h]
    simp only [pendingEvents, Sm_createStatic, List.nil_append]
    exact map_getD_range_append es _
  · apply Sm_fireEvent_full
    rw [hq]
    exact hes

/-- C3 (amended) at capacity 3. -/
theorem C3_fire_up_to_capacity_witness :
    pendingEvents (fireAll (Sm_createStatic sampleMatrix 3)
        [sm_E_INIT, ble_E_SCANNING_START, sm_E_INIT]) =
      [sm_E_INIT, ble_E_SCANNING_START, sm_E_INIT] ∧
    (fireAll (Sm_createStatic sampleMatrix 3)
        [sm_E_INIT, ble_E_SCANNING_START, sm_E_INIT]).event_queue =
      [sm_E_INIT, ble_E_SCANNING_START, sm_E_INIT] ∧
    Sm_fireEvent (fireAll (Sm_createStatic sampleMatrix 3)
        [sm_E_INIT, ble_E_SCANNING_START, sm_E_INIT]) fsm_E_REBOOT =
      fireAll (Sm_createStatic sampleMatrix 3) [sm_E_INIT, ble_E_SCANNING_START, sm_E_INIT] :=
  C3_fire_up_to_capacity sampleMatrix [sm_E_INIT, ble_E_SCANNING_START, sm_E_INIT]
    fsm_E_REBOOT (by decide)

/-- C4 fails as stated when `sm_E_NONE` is among the fired events: firing
`sm_E_NONE` then `sm_E_INIT` on an empty queue of capacity 2 makes the two
following calls of `Sm_handleEvents` consume `sm_E_INIT` first. -/
theorem C4_counterexample :
    (dispatchN sampleCode 2
        (fireAll (Sm_createStatic sampleMatrix 2) [sm_E_NONE, sm_E_INIT]) 0).2.2 ≠
      [some sm_E_NONE, some sm_E_INIT] := by
  decide

/-- C4 (amended): events other than `sm_E_NONE` are dispatched in firing
order.  On a queue with no pending event and every slot free, after firing
`e1..ek` (`k` at most the capacity), `k` successive calls of `Sm_handleEvents`
take exactly `e1`, ..., `ek` from the queue, one per call and in that order, and
leave the pending list empty. -/
theorem C4_fifo_dispatch {W : Type} (code : Code W) (sm : Sm_context) (w : W)
    (es : List sm_event_e)
    (hempty : sm.event_queue_head = [])
    (hfree : ∀ x ∈ sm.event_queue, x = sm_E_NONE)
    (hlen : es.length ≤ sm.event_queue.length)
    (hes : ∀ x ∈ es, x ≠ sm_E_NONE) :
    (dispatchN code es.length (fireAll sm es) w).2.2 = es.map some ∧
    (dispatchN code es.length (fireAll sm es) w).1.event_queue_head = [] := by
  have h := fireAll_free_queue sm es hfree hlen hes
  have hhead : (fireAll sm es).event_queue_head = List.range' 0 es.length := by
    rw [h, hempty]; rfl
  have hpend : pendingEvents (fireAll sm es) = es := by
    rw [h]
    simp only [pendingEvents, hempty, List.nil_append]
    exact map_getD_range_append es _
  have := dispatchN_pending code (List.range' 0 es.length) (fireAll sm es) w hhead
    (List.nodup_range' 0 es.length)
  simpa [hpend] using this

/-- C4 (amended) at a concrete queue of capacity 3 with two events. -/
theorem C4_fifo_dispatch_witness :
    (dispatchN sampleCode 2
        (fireAll (Sm_createStatic sampleMatrix 3) [ble_E_SCANNING_START, sm_E_INIT]) 0).2.2 =
      [some ble_E_SCANNING_START, some sm_E_INIT] ∧
    (dispatchN sampleCode 2
        (fireAll (Sm_createStatic sampleMatrix 3) [ble_E_SCANNING_START, sm_E_INIT])
        0).1.event_queue_head = [] :=
  C4_fifo_dispatch sampleCode (Sm_createStatic sampleMatrix 3) 0
    [ble_E_SCANNING_START, sm_E_INIT] rfl (by decide) (by decide) (by decide)

/-! ## Properties of the beacon codec and the upload controller -/

theorem rd16_u16 (v : Nat) (rest : List Nat) : rd16 (u16 v ++ rest) 0 = v % 65536 := by
  simp [rd16, u16]
  omega

theorem ceil_div_eq (L F : Nat) (hF : F ≠ 0) :
    L / F + (if L % F ≠ 0 then 1 else 0) = (L + F - 1) / F := by
  have hpos : 0 < F := Nat.pos_of_ne_zero hF
  have hsplit : L + F - 1 = (L % F + F - 1) + F * (L / F) := by
    have := Nat.mod_add_div L F
    omega
  rw [hsplit, Nat.add_mul_div_left _ _ hpos]
  have hlt : L % F < F := Nat.mod_lt _ hpos
  by_cases h0 : L % F = 0
  · have : (L % F + F - 1) / F = 0 := by
      apply Nat.div_eq_of_lt
      omega
    rw [this]
    simp [h0]
  · have : (L % F + F - 1) / F = 1 := by
      apply Nat.div_eq_of_lt_le
      · omega
      · omega
    rw [this]
    simp [h0]
    omega

/-- C10: a scan response built from any message id, request id, token,
firmware version and sink flag is serialised by `getBufferFromCmd` (length
`BLE_ADV_CMD_SCAN_RSP_LEN` = 10) to the packed little-endian bytes
`[id lo, id hi, 0x82, request lo, request hi, token lo, token hi, major, minor,
is_sink]`, and `getCmdFromBuffer` applied to those bytes returns a command whose
message id, command code, request id, token, version fields and `is_sink` are
the original ones. -/
theorem C10_scan_rsp_round_trip (message_id request_id token major minor is_sink : Nat)
    (buffer : List Nat)
    (hid : message_id < 65536) (hreq : request_id < 65536) (htok : token < 65536)
    (hmaj : major < 256) (hmin : minor < 256) (hsink : is_sink < 256) :
    BLE_ADV_CMD_SCAN_RSP_LEN = 10 ∧
    (getBufferFromCmd (mk_scan_rsp message_id request_id token major minor is_sink) buffer
        BLE_ADV_CMD_SCAN_RSP_LEN).take 10 =
      [message_id % 256, message_id / 256, 0x82, request_id % 256, request_id / 256,
       token % 256, token / 256, major, minor, is_sink] ∧
    ∃ cmd, getCmdFromBuffer
        (getBufferFromCmd (mk_scan_rsp message_id request_id token major minor is_sink) buffer
          BLE_ADV_CMD_SCAN_RSP_LEN) BLE_ADV_CMD_SCAN_RSP_LEN = some cmd ∧
      cmd_message_id cmd = message_id ∧
      cmd_command cmd = ble_ADV_CMD_SCAN_RESPONSE ∧
      scan_rsp_request_id cmd = request_id ∧
      scan_rsp_token cmd = token ∧
      scan_rsp_firmware_version_major cmd = major ∧
      scan_rsp_firmware_version_minor cmd = minor ∧
      scan_rsp_is_sink cmd = is_sink := by
  have h1 : message_id / 256 % 256 = message_id / 256 := Nat.mod_eq_of_lt (by omega)
  have h2 : request_id / 256 % 256 = request_id / 256 := Nat.mod_eq_of_lt (by omega)
  have h3 : token / 256 % 256 = token / 256 := Nat.mod_eq_of_lt (by omega)
  have h4 : major % 256 = major := Nat.mod_eq_of_lt hmaj
  have h5 : minor % 256 = minor := Nat.mod_eq_of_lt hmin
  have h6 : is_sink % 256 = is_sink := Nat.mod_eq_of_lt hsink
  refine ⟨rfl, ?_, ?_⟩
  · simp [getBufferFromCmd, memcpy, mk_scan_rsp, u16, BLE_ADV_CMD_SCAN_RSP_LEN,
      ble_ADV_CMD_SCAN_RESPONSE, h1, h2, h3, h4, h5, h6]
  · refine ⟨getBufferFromCmd (mk_scan_rsp message_id request_id token major minor is_sink)
      buffer BLE_ADV_CMD_SCAN_RSP_LEN, ?_, ?_⟩
    · simp [getCmdFromBuffer, BLE_ADV_CMD_SCAN_RSP_LEN, BLE_ADV_TOTAL_LEN, BLE_ADV_HEADER_LEN]
    · simp [getBufferFromCmd, memcpy, mk_scan_rsp, u16, BLE_ADV_CMD_SCAN_RSP_LEN,
        ble_ADV_CMD_SCAN_RESPONSE, cmd_message_id, cmd_command, scan_rsp_request_id,
        scan_rsp_token, scan_rsp_firmware_version_major, scan_rsp_firmware_version_minor,
        scan_rsp_is_sink, rd16, h1, h2, h3, h4, h5, h6]
      omega

/-- C10 at a concrete scan response. -/
theorem C10_scan_rsp_round_trip_witness :
    BLE_ADV_CMD_SCAN_RSP_LEN = 10 ∧
    (getBufferFromCmd (mk_scan_rsp 0x0102 0x0304 0x5678 1 2 1) (List.replicate 27 0xAA)
        BLE_ADV_CMD_SCAN_RSP_LEN).take 10 =
      [0x0102 % 256, 0x0102 / 256, 0x82, 0x0304 % 256, 0x0304 / 256,
       0x5678 % 256, 0x5678 / 256, 1, 2, 1] ∧
    ∃ cmd, getCmdFromBuffer
        (getBufferFromCmd (mk_scan_rsp 0x0102 0x0304 0x5678 1 2 1) (List.replicate 27 0xAA)
          BLE_ADV_CMD_SCAN_RSP_LEN) BLE_ADV_CMD_SCAN_RSP_LEN = some cmd ∧
      cmd_message_id cmd = 0x0102 ∧
      cmd_command cmd = ble_ADV_CMD_SCAN_RESPONSE ∧
      scan_rsp_request_id cmd = 0x0304 ∧
      scan_rsp_token cmd = 0x5678 ∧
      scan_rsp_firmware_version_major cmd = 1 ∧
      scan_rsp_firmware_version_minor cmd = 2 ∧
      scan_rsp_is_sink cmd = 1 :=
  C10_scan_rsp_round_trip 0x0102 0x0304 0x5678 1 2 1 (List.replicate 27 0xAA)
    (by decide) (by decide) (by decide) (by decide) (by decide) (by decide)

/-! ### What the persistence functions leave untouched -/

theorem active_wait_frame (env : Env) (w w1 : World) (t : Int) (b : Bool)
    (h : Otap.active_wait_for_end_of_operation env w t = .ok (b, w1)) :
    ∃ now1, w1 = { w with storage := { w.storage with now := now1 } } := by
  unfold Otap.active_wait_for_end_of_operation at h
  dsimp only at h
  split at h
  · cases h
  · rename_i busy now1 _
    simp only [Except.ok.injEq, Prod.mk.injEq] at h
    exact ⟨now1, h.2.symm⟩

theorem write_frame (env : Env) (w w1 : World) (dest : Nat) (src : List Nat) (amount : Nat)
    (b : Bool) (h : Otap.write env w dest src amount = .ok (b, w1)) :
    ∃ st, w1 = { w with
      storage := st
      trace := w.trace ++ [Call.mem_startWrite dest (src.take amount) amount] } := by
  unfold Otap.write at h
  split at h
  · cases h
  · dsimp only at h
    split at h
    · simp only [Except.ok.injEq, Prod.mk.injEq] at h
      exact ⟨w.storage, by rw [← h.2]; rfl⟩
    · obtain ⟨now1, hw⟩ := active_wait_frame _ _ _ _ _ h
      exact ⟨_, by rw [hw]; rfl⟩

theorem Otap_bufferWrite_frame (env : Env) (w w1 : World) (data : List Nat) (len offset : Nat)
    (r : Otap_ret) (h : Otap_bufferWrite env w data len offset = .ok (r, w1)) :
    ∃ st t, w1 = { w with
        storage := st
        trace := w.trace ++ Call.Otap_bufferWrite len offset :: t } ∧
      (t = [] ∨ ∃ d, t = [Call.mem_startWrite d (data.take len) len]) := by
  unfold Otap_bufferWrite at h
  dsimp only at h
  split at h
  · simp only [Except.ok.injEq, Prod.mk.injEq] at h
    exact ⟨w.storage, [], by rw [← h.2]; rfl, Or.inl rfl⟩
  · split at h
    · simp only [Except.ok.injEq, Prod.mk.injEq] at h
      exact ⟨w.storage, [], by rw [← h.2]; rfl, Or.inl rfl⟩
    · have key : ∀ (b : Bool) (w2 : World),
          Otap.write env (w.log (Call.Otap_bufferWrite len offset))
            ((offset + (w.log (Call.Otap_bufferWrite len offset)).otap.m_header_size) %
              4294967296) data len = .ok (b, w2) →
          ∃ st t, w2 = { w with
              storage := st
              trace := w.trace ++ Call.Otap_bufferWrite len offset :: t } ∧
            (t = [] ∨ ∃ d, t = [Call.mem_startWrite d (data.take len) len]) := by
        intro b w2 hw
        obtain ⟨st, hst⟩ := write_frame _ _ _ _ _ _ _ hw
        refine ⟨st, [Call.mem_startWrite ((offset + w.otap.m_header_size) % 4294967296)
          (data.take len) len], ?_, Or.inr ⟨_, rfl⟩⟩
        rw [hst]
        simp [World.log]
      split at h
      · cases h
      · rename_i w2 hw
        simp only [Except.ok.injEq, Prod.mk.injEq] at h
        rw [← h.2]
        exact key _ _ hw
      · rename_i w2 hw
        simp only [Except.ok.injEq, Prod.mk.injEq] at h
        rw [← h.2]
        exact key _ _ hw

theorem Otap_bufferEnd_frame (env : Env) (w w1 : World) (totalLen sequence : Nat)
    (r : Otap_ret) (h : Otap_bufferEnd env w totalLen sequence = .ok (r, w1)) :
    ∃ st, w1 = { w with
        storage := st
        otap := { w.otap with
          m_buffer_block_write := headerBlock w.otap.m_buffer_block_write totalLen sequence }
        trace := w.trace ++
          [Call.Otap_bufferEnd totalLen sequence,
           Call.mem_startWrite 0
             ((headerBlock w.otap.m_buffer_block_write totalLen sequence).take
               w.otap.m_header_size) w.otap.m_header_size] } := by
  unfold Otap_bufferEnd at h
  dsimp only at h
  split at h
  · cases h
  · rename_i w2 hw
    obtain ⟨st, hst⟩ := write_frame _ _ _ _ _ _ _ hw
    simp only [Except.ok.injEq, Prod.mk.injEq] at h
    refine ⟨st, ?_⟩
    rw [← h.2, hst]
    simp [World.log]
  · rename_i w2 hw
    obtain ⟨st, hst⟩ := write_frame _ _ _ _ _ _ _ hw
    simp only [Except.ok.injEq, Prod.mk.injEq] at h
    refine ⟨st, ?_⟩
    rw [← h.2, hst]
    simp [World.log]

theorem Otap_init_frame (env : Env) (w : World) :
    (Otap_init env w).2 = { w with
      otap := (Otap_init env w).2.otap
      trace := w.trace ++
        (Call.Otap_init :: (if w.otap.m_initialized then [] else [Call.mem_getAreaInfo])) } := by
  unfold Otap_init
  dsimp only
  split
  · rename_i hi
    have hi2 : w.otap.m_initialized = true := hi
    simp [World.log, hi2]
  · rename_i hi
    have hi2 : w.otap.m_initialized = false := by
      have : ¬ w.otap.m_initialized = true := hi
      simpa using this
    split <;> simp [World.log, hi2]

theorem Otap_bufferBegin_frame (env : Env) (w w1 : World) (r : Otap_ret)
    (h : Otap_bufferBegin env w = .ok (r, w1)) :
    ∃ st t, w1 = { w with storage := st, trace := w.trace ++ Call.Otap_bufferBegin :: t } ∧
      (t = [] ∨ t = [Call.mem_startErase 0
        (w.otap.m_usable_memory_size / w.otap.m_memory_area.flash.erase_sector_size)]) := by
  unfold Otap_bufferBegin at h
  dsimp only at h
  split at h
  · cases h
  · split at h
    · simp only [Except.ok.injEq, Prod.mk.injEq] at h
      exact ⟨w.storage, [], by rw [← h.2]; rfl, Or.inl rfl⟩
    · split at h
      · simp only [Except.ok.injEq, Prod.mk.injEq] at h
        refine ⟨w.storage, _, ?_, Or.inr rfl⟩
        rw [← h.2]; simp [World.log]
      · split at h
        · cases h
        · rename_i w3 hw
          obtain ⟨now1, hn⟩ := active_wait_frame _ _ _ _ _ hw
          simp only [Except.ok.injEq, Prod.mk.injEq] at h
          refine ⟨w3.storage, _, ?_, Or.inr rfl⟩
          rw [← h.2, hn]; simp [World.log]
        · rename_i w3 hw
          obtain ⟨now1, hn⟩ := active_wait_frame _ _ _ _ _ hw
          simp only [Except.ok.injEq, Prod.mk.injEq] at h
          refine ⟨w3.storage, _, ?_, Or.inr rfl⟩
          rw [← h.2, hn]; simp [World.log]

theorem AppSettings_store_frame (env : Env) (w : World) (s : app_settings_t) :
    ∃ p t, (AppSettings_store env w s).2 = { w with
      persistent := p
      trace := w.trace ++ Call.AppSettings_store s :: Call.persistent_read :: t } ∧
      (t = [] ∨ t = [Call.persistent_write s]) := by
  unfold AppSettings_store
  dsimp only
  split
  · exact ⟨w.persistent, [], by simp [World.log], Or.inl rfl⟩
  · split
    · exact ⟨some s, [Call.persistent_write s], by simp [World.log], Or.inr rfl⟩
    · exact ⟨w.persistent, [Call.persistent_write s], by simp [World.log], Or.inr rfl⟩

/-! ### The command handlers never touch the duplicate filter -/

theorem SameRx.rfl (w : World) : SameRx w w := ⟨Eq.refl _, Eq.refl _, Eq.refl _⟩

theorem SameRx.trans {a b c : World} (h1 : SameRx a b) (h2 : SameRx b c) : SameRx a c :=
  ⟨h2.1.trans h1.1, h2.2.1.trans h1.2.1, h2.2.2.trans h1.2.2⟩

theorem Otap_init_sameRx (env : Env) (w : World) : SameRx w (Otap_init env w).2 := by
  rw [Otap_init_frame]
  exact ⟨Eq.refl _, Eq.refl _, Eq.refl _⟩

theorem AppSettings_store_sameRx (env : Env) (w : World) (s : app_settings_t) :
    SameRx w (AppSettings_store env w s).2 := by
  obtain ⟨p, t, hp, _⟩ := AppSettings_store_frame env w s
  rw [hp]
  exact ⟨Eq.refl _, Eq.refl _, Eq.refl _⟩

theorem finishUpload_sameRx (env : Env) (w w1 : World) (cmd : ble_adv_cmd_t)
    (h : finishUpload env w cmd = .ok w1) : SameRx w w1 := by
  unfold finishUpload at h
  split at h
  · cases h
  · rename_i r w2 hend
    obtain ⟨st, hst⟩ := Otap_bufferEnd_frame _ _ _ _ _ _ hend
    have h2 : SameRx w w2 := by rw [hst]; exact ⟨Eq.refl _, Eq.refl _, Eq.refl _⟩
    dsimp only at h
    simp only [Except.ok.injEq] at h
    rw [← h]
    refine h2.trans (SameRx.trans (b := { w2 with
      ble := sendDone w2.ble cmd
      app_settings := { w2.app_settings with do_otap := 1 } })
      ⟨Eq.refl _, Eq.refl _, Eq.refl _⟩ ?_)
    have := AppSettings_store_sameRx env { w2 with
      ble := sendDone w2.ble cmd
      app_settings := { w2.app_settings with do_otap := 1 } }
      { w2.app_settings with do_otap := 1 }
    exact ⟨this.1, this.2.1, this.2.2⟩

theorem uploadStatus_sameRx (env : Env) (w w1 : World) (cmd : ble_adv_cmd_t)
    (received : List Nat) (h : uploadStatus env w cmd received = .ok w1) : SameRx w w1 := by
  unfold uploadStatus at h
  dsimp only at h
  by_cases h0 : w.ble.otap.total_messages = 0
  · rw [if_pos h0] at h; cases h
  · rw [if_neg h0] at h
    by_cases h1 : (w.ble.otap.total_messages - 1) / 8 ≥ received.length
    · rw [if_pos h1] at h; cases h
    · rw [if_neg h1] at h
      cases hl : bitSet received (w.ble.otap.total_messages - 1)
      · simp only [hl, Bool.false_eq_true, if_false, Except.ok.injEq] at h
        rw [← h]
        exact ⟨Eq.refl _, Eq.refl _, Eq.refl _⟩
      · simp only [hl, if_true] at h
        cases hf : firstMissing received w.ble.otap.total_messages
        · simp only [hf] at h
          have hf2 := finishUpload_sameRx _ _ _ _ h
          exact ⟨hf2.1, hf2.2.1, hf2.2.2⟩
        · simp only [hf, Except.ok.injEq] at h
          rw [← h]
          exact ⟨Eq.refl _, Eq.refl _, Eq.refl _⟩

theorem handleUpload_sameRx (env : Env) (w w1 : World) (cmd : ble_adv_cmd_t)
    (h : handleUpload env w cmd = .ok w1) : SameRx w w1 := by
  unfold handleUpload at h
  dsimp only at h
  split at h
  · cases h
  · rename_i ret w2 hbw
    obtain ⟨st, t, hw2, _⟩ := Otap_bufferWrite_frame _ _ _ _ _ _ _ hbw
    have h2 : SameRx w w2 := by rw [hw2]; exact ⟨Eq.refl _, Eq.refl _, Eq.refl _⟩
    by_cases hr : ret = APP_RET_OK
    · rw [if_pos hr] at h
      by_cases hb : (cmd_message_id cmd - w.ble.otap.start_message_id) / 8 ≥
          w.ble.otap.messageReceived.length
      · rw [if_pos hb] at h; cases h
      · rw [if_neg hb] at h
        exact h2.trans (uploadStatus_sameRx _ _ _ _ _ h)
    · rw [if_neg hr] at h
      exact h2.trans (uploadStatus_sameRx _ _ _ _ _ h)

theorem handleBeginUpload_sameRx (env : Env) (w w1 : World) (cmd : ble_adv_cmd_t)
    (h : handleBeginUpload env w cmd = .ok w1) : SameRx w w1 := by
  unfold handleBeginUpload at h
  split at h
  · cases h
  · dsimp only at h
    split at h
    · cases h
    · rename_i ret w3 hbb
      obtain ⟨st, t, hw3, _⟩ := Otap_bufferBegin_frame _ _ _ _ hbb
      simp only [Except.ok.injEq] at h
      rw [← h]
      have h1 := Otap_init_sameRx env { w with ble := { w.ble with otap := beginSession w.ble.otap cmd } }
      have h3 : SameRx (Otap_init env
          { w with ble := { w.ble with otap := beginSession w.ble.otap cmd } }).2 w3 := by
        rw [hw3]; exact ⟨Eq.refl _, Eq.refl _, Eq.refl _⟩
      have h13 := h1.trans h3
      exact ⟨h13.1, h13.2.1, h13.2.2⟩

theorem handleCmd_sameRx (env : Env) (w w1 : World) (cmd : ble_adv_cmd_t)
    (h : handleCmd env w cmd = .ok w1) : SameRx w w1 := by
  unfold handleCmd at h
  split at h
  · simp only [Except.ok.injEq] at h
    rw [← h]
    exact ⟨Eq.refl _, Eq.refl _, Eq.refl _⟩
  · split at h
    · exact handleBeginUpload_sameRx _ _ _ _ h
    · split at h
      · exact handleUpload_sameRx _ _ _ _ h
      · simp only [Except.ok.injEq] at h
        rw [← h]
        exact SameRx.rfl w

/-! ### Duplicate suppression -/

theorem eq_ok_okOr (r : Except Fault World) (d : World) (h : r.isOk = true) :
    r = .ok (okOr r d) := by
  cases r with
  | error e => simp [Except.isOk, Except.toBool] at h
  | ok w => rfl

theorem receiveFilter_eq (w : World) (p : app_lib_beacon_rx_received_t)
    (h : (filtered w p).2.isSome = true) :
    receiveFilter w p = .ok ((filtered w p).1, some ((filtered w p).2.getD [])) := by
  unfold filtered at h ⊢
  cases hr : receiveFilter w p with
  | error e => rw [hr] at h; simp at h
  | ok r =>
    rw [hr] at h
    obtain ⟨w0, o⟩ := r
    cases o with
    | none => simp at h
    | some c => rfl

theorem memcpy_take (dst src : List Nat) (n : Nat) (h : n ≤ src.length) :
    (memcpy dst src n).take n = src.take n := by
  unfold memcpy
  exact List.take_left' (by simp [h])

theorem memcpy_drop (dst src : List Nat) (n : Nat) (h : n ≤ src.length) :
    (memcpy dst src n).drop n = dst.drop n := by
  unfold memcpy
  exact List.drop_left' (by simp [h])

theorem memcpy_idem (dst src : List Nat) (n : Nat) (h : n ≤ src.length) :
    memcpy (memcpy dst src n) src n = memcpy dst src n := by
  show src.take n ++ (memcpy dst src n).drop n = src.take n ++ dst.drop n
  rw [memcpy_drop dst src n h]

theorem memcpy_length_ge (dst src : List Nat) (n : Nat) (h : n ≤ src.length) :
    n ≤ (memcpy dst src n).length := by
  unfold memcpy
  simp
  omega

theorem memcpy_length (dst src : List Nat) (n : Nat) (h : n ≤ src.length)
    (h2 : n ≤ dst.length) : (memcpy dst src n).length = dst.length := by
  unfold memcpy
  simp
  omega

theorem prefilter_idem (rx rx1 : List Nat) (p : app_lib_beacon_rx_received_t) (n : Nat)
    (h : prefilter rx p = .ok (some (rx1, n))) :
    prefilter rx1 p = .ok (some (rx1, n)) ∧ n ≤ rx1.length := by
  unfold prefilter at h ⊢
  by_cases hA : p.length > 10 ∧ p.payload.getD 7 0 = BLE_ADV_DATA_TYPE_MANUFACTURER ∧
      p.payload.getD 8 0 = BLE_COMPANY_ID % 256 ∧ p.payload.getD 9 0 = BLE_COMPANY_ID / 256 % 256
  · rw [if_pos hA] at h ⊢
    by_cases hlen : p.length - 10 > rx.length
    · rw [if_pos hlen] at h; cases h
    · rw [if_neg hlen] at h
      simp only [Except.ok.injEq, Option.some.injEq, Prod.mk.injEq] at h
      obtain ⟨h1, h2⟩ := h
      have hsrc : p.length - 10 ≤ (p.payload.drop 10).length := by
        simp [app_lib_beacon_rx_received_t.length]
      have hl : rx1.length = rx.length := by
        rw [← h1]; exact memcpy_length _ _ _ hsrc (by omega)
      have hlen1 : ¬ p.length - 10 > rx1.length := by omega
      rw [if_neg hlen1]
      refine ⟨?_, by omega⟩
      rw [← h2, ← h1, memcpy_idem _ _ _ hsrc]
  · rw [if_neg hA] at h ⊢
    by_cases hB : p.length = 30 ∧ p.payload.getD 13 0 = BLE_ADV_DATA_TYPE_SERVICE_UUID
    · rw [if_pos hB] at h ⊢
      simp only [Except.ok.injEq, Option.some.injEq, Prod.mk.injEq] at h
      obtain ⟨h1, h2⟩ := h
      have hsrc : 16 ≤ ((List.range 16).map
          (fun i => p.payload.getD (p.length - 1 - i) 0)).length := by simp
      have hn : n = 16 := by omega
      refine ⟨?_, ?_⟩
      · rw [← h2, ← h1, memcpy_idem _ _ _ hsrc]
      · rw [hn, ← h1]; exact memcpy_length_ge _ _ _ hsrc
    · rw [if_neg hB] at h; cases h

theorem receiveFilter_second (w w0 w1 : World) (p : app_lib_beacon_rx_received_t)
    (o : Option ble_adv_cmd_t) (h : receiveFilter w p = .ok (w0, o)) (hs : SameRx w0 w1) :
    receiveFilter w1 p = .ok (w1, none) := by
  obtain ⟨hs1, hs2, _⟩ := hs
  unfold receiveFilter at h
  cases hp : prefilter w.m_ble_rx_buffer p with
  | error f => rw [hp] at h; cases h
  | ok r =>
    rw [hp] at h
    cases r with
    | none =>
      simp only [Except.ok.injEq, Prod.mk.injEq] at h
      have hrx : w1.m_ble_rx_buffer = w.m_ble_rx_buffer := by rw [hs2, ← h.1]
      unfold receiveFilter
      rw [hrx, hp]
    | some q =>
      obtain ⟨rx, n⟩ := q
      obtain ⟨hidem, hn⟩ := prefilter_idem _ _ _ _ hp
      dsimp only at h
      have key : w0.m_ble_rx_buffer = rx ∧
          (getCmdFromBuffer rx n = none ∨
            w0.m_lastReceivedPackage.take n = rx.take n) := by
        cases hc : getCmdFromBuffer rx n with
        | none =>
          rw [hc] at h
          simp only [Except.ok.injEq, Prod.mk.injEq] at h
          exact ⟨by rw [← h.1], Or.inl rfl⟩
        | some cmd =>
          rw [hc] at h
          dsimp only at h
          by_cases hm : w.m_lastReceivedPackage.take n = rx.take n
          · rw [if_pos hm] at h
            simp only [Except.ok.injEq, Prod.mk.injEq] at h
            exact ⟨by rw [← h.1], Or.inr (by rw [← h.1]; exact hm)⟩
          · rw [if_neg hm] at h
            by_cases hid : w.ble.last_received_message_id = cmd_message_id cmd ∧
                cmd_message_id cmd > 1
            · rw [if_pos hid] at h
              simp only [Except.ok.injEq, Prod.mk.injEq] at h
              exact ⟨by rw [← h.1], Or.inr (by rw [← h.1]; exact memcpy_take _ _ _ hn)⟩
            · rw [if_neg hid] at h
              simp only [Except.ok.injEq, Prod.mk.injEq] at h
              exact ⟨by rw [← h.1], Or.inr (by rw [← h.1]; exact memcpy_take _ _ _ hn)⟩
      obtain ⟨hrx0, hdup⟩ := key
      have hrx : w1.m_ble_rx_buffer = rx := by rw [hs2, hrx0]
      have heta : ({ w1 with m_ble_rx_buffer := rx } : World) = w1 := by
        rw [← hrx]
      unfold receiveFilter
      rw [hrx, hidem]
      dsimp only
      rw [heta]
      rcases hdup with hnone | htake
      · rw [hnone]
      · cases hc : getCmdFromBuffer rx n with
        | none => rfl
        | some cmd =>
          dsimp only
          rw [if_pos (by rw [hs1]; exact htake)]

theorem receiveFilter_accepted (w w0 : World) (p : app_lib_beacon_rx_received_t)
    (o : Option ble_adv_cmd_t) (h : receiveFilter w p = .ok (w0, o)) :
    (o = none → w0.accepted = w.accepted) ∧
    (o ≠ none → w0.accepted.length = w.accepted.length + 1) := by
  unfold receiveFilter at h
  cases hp : prefilter w.m_ble_rx_buffer p with
  | error f => rw [hp] at h; cases h
  | ok r =>
    rw [hp] at h
    cases r with
    | none =>
      simp only [Except.ok.injEq, Prod.mk.injEq] at h
      rw [← h.1, ← h.2]
      simp
    | some q =>
      obtain ⟨rx, n⟩ := q
      dsimp only at h
      cases hc : getCmdFromBuffer rx n with
      | none =>
        rw [hc] at h
        simp only [Except.ok.injEq, Prod.mk.injEq] at h
        rw [← h.1, ← h.2]
        simp
      | some cmd =>
        rw [hc] at h
        dsimp only at h
        by_cases hm : w.m_lastReceivedPackage.take n = rx.take n
        · rw [if_pos hm] at h
          simp only [Except.ok.injEq, Prod.mk.injEq] at h
          rw [← h.1, ← h.2]
          simp
        · rw [if_neg hm] at h
          by_cases hid : w.ble.last_received_message_id = cmd_message_id cmd ∧
              cmd_message_id cmd > 1
          · rw [if_pos hid] at h
            simp only [Except.ok.injEq, Prod.mk.injEq] at h
            rw [← h.1, ← h.2]
            simp
          · rw [if_neg hid] at h
            simp only [Except.ok.injEq, Prod.mk.injEq] at h
            rw [← h.1, ← h.2]
            simp

/-- C5 fails as stated: a packet that passes the layout filter and the
length check (frame of 5 bytes) need not be accepted even once.  After a scan
request with message id 5, a different frame that reuses message id 5 is
delivered twice: the first delivery is dropped by the message-id check, the
second by the byte comparison, so none of the two is accepted (one frame
accepted before, one after). -/
theorem C5_counterexample :
    (prefilter sampleWorld.m_ble_rx_buffer (mkPacket (scanRequestFrame 5 9 9))).toOption.map
      (fun r => r.map (fun q => (q.2, (getCmdFromBuffer q.1 q.2).isSome))) =
      some (some (5, true)) ∧
    (receiveAll sampleEnv sampleWorld
        [mkPacket (scanRequestFrame 5 1 0)]).toOption.map (fun w => w.accepted.length) =
      some 1 ∧
    (receiveFilter
        (okOr (receiveAll sampleEnv sampleWorld [mkPacket (scanRequestFrame 5 1 0)]) sampleWorld)
        (mkPacket (scanRequestFrame 5 9 9))).toOption.map (fun r => r.2) = some none ∧
    (receiveAll sampleEnv sampleWorld
        [mkPacket (scanRequestFrame 5 1 0), mkPacket (scanRequestFrame 5 9 9),
         mkPacket (scanRequestFrame 5 9 9)]).toOption.map (fun w => w.accepted.length) =
      some 1 := by
  decide

/-- C5 (amended): of two deliveries in a row of the same packet bytes at most
one is accepted.  Whatever the first delivery did, the second one is dropped by
the duplicate filter and changes nothing at all (no session state, no backlog
slot, no event queue); the first delivery adds exactly one accepted frame when
it passes both duplicate checks and none otherwise. -/
theorem C5_second_delivery_discarded (env : Env) (w w1 : World)
    (packet : app_lib_beacon_rx_received_t)
    (h : bleReceiveCb env w packet = .ok w1) :
    bleReceiveCb env w1 packet = .ok w1 ∧
    receiveFilter w1 packet = .ok (w1, none) ∧
    ((∃ w0 cmd_rx, receiveFilter w packet = .ok (w0, some cmd_rx)) →
      w1.accepted.length = w.accepted.length + 1) ∧
    ((∃ w0, receiveFilter w packet = .ok (w0, none)) → w1.accepted = w.accepted) := by
  unfold bleReceiveCb at h
  cases hf : receiveFilter w packet with
  | error f => rw [hf] at h; cases h
  | ok r =>
    obtain ⟨w0, o⟩ := r
    rw [hf] at h
    have hacc := receiveFilter_accepted w w0 packet o hf
    have hsame : SameRx w0 w1 := by
      cases o with
      | none =>
        simp only [Except.ok.injEq] at h
        rw [← h]; exact SameRx.rfl w0
      | some cmd => exact handleCmd_sameRx env w0 w1 cmd h
    have hsecond := receiveFilter_second w w0 w1 packet o hf hsame
    refine ⟨?_, hsecond, ?_, ?_⟩
    · unfold bleReceiveCb
      rw [hsecond]
    · rintro ⟨w0', cmd_rx, hx⟩
      simp only [Except.ok.injEq, Prod.mk.injEq] at hx
      rw [hsame.2.2, hacc.2 (by rw [hx.2]; simp)]
    · rintro ⟨w0', hx⟩
      simp only [Except.ok.injEq, Prod.mk.injEq] at hx
      rw [hsame.2.2, hacc.1 hx.2]

/-- C5 (amended) at a scan request delivered twice to a freshly started
node. -/
theorem C5_second_delivery_discarded_witness :
    bleReceiveCb sampleEnv
        (okOr (bleReceiveCb sampleEnv sampleWorld (mkPacket (scanRequestFrame 5 1 0)))
          sampleWorld)
        (mkPacket (scanRequestFrame 5 1 0)) =
      .ok (okOr (bleReceiveCb sampleEnv sampleWorld (mkPacket (scanRequestFrame 5 1 0)))
        sampleWorld) ∧
    receiveFilter
        (okOr (bleReceiveCb sampleEnv sampleWorld (mkPacket (scanRequestFrame 5 1 0)))
          sampleWorld)
        (mkPacket (scanRequestFrame 5 1 0)) =
      .ok (okOr (bleReceiveCb sampleEnv sampleWorld (mkPacket (scanRequestFrame 5 1 0)))
        sampleWorld, none) ∧
    ((∃ w0 cmd_rx, receiveFilter sampleWorld (mkPacket (scanRequestFrame 5 1 0)) =
        .ok (w0, some cmd_rx)) →
      (okOr (bleReceiveCb sampleEnv sampleWorld (mkPacket (scanRequestFrame 5 1 0)))
        sampleWorld).accepted.length = sampleWorld.accepted.length + 1) ∧
    ((∃ w0, receiveFilter sampleWorld (mkPacket (scanRequestFrame 5 1 0)) = .ok (w0, none)) →
      (okOr (bleReceiveCb sampleEnv sampleWorld (mkPacket (scanRequestFrame 5 1 0)))
        sampleWorld).accepted = sampleWorld.accepted) :=
  C5_second_delivery_discarded sampleEnv sampleWorld _ (mkPacket (scanRequestFrame 5 1 0))
    (eq_ok_okOr _ _ (by decide))

/-! ### What sending a frame leaves untouched -/

theorem bleSendCmd_fields (c : Ble_context) (cmd : ble_adv_cmd_t) (n : Nat) (q : Bool) :
    (bleSendCmd c cmd n q).otap = c.otap ∧
    (bleSendCmd c cmd n q).keep_sending = c.keep_sending ∧
    (bleSendCmd c cmd n q).message_id = c.message_id ∧
    (bleSendCmd c cmd n q).last_received_message_id = c.last_received_message_id := by
  unfold bleSendCmd
  split <;> exact ⟨rfl, rfl, rfl, rfl⟩

theorem sendProgress_fields (c : Ble_context) (cmd : ble_adv_cmd_t) (p : Nat) :
    (sendProgress c cmd p).otap = c.otap ∧
    (sendProgress c cmd p).keep_sending = c.keep_sending := by
  unfold sendProgress
  dsimp only
  exact ⟨(bleSendCmd_fields _ _ _ _).1, (bleSendCmd_fields _ _ _ _).2.1⟩

theorem requestResend_fields (c : Ble_context) (i : Nat) :
    (requestResend c i).otap = c.otap ∧
    (requestResend c i).keep_sending =
      cmd_message_id (mk_resend_req (getNextMessageId c).1 (c.otap.start_message_id + i)) := by
  unfold requestResend
  dsimp only
  exact ⟨(bleSendCmd_fields _ _ _ _).1, (bleSendCmd_fields _ _ _ _).2.1⟩

theorem sendDone_fields (c : Ble_context) (cmd : ble_adv_cmd_t) :
    (sendDone c cmd).otap = c.otap ∧ (sendDone c cmd).keep_sending = 0 := by
  unfold sendDone
  dsimp only
  exact ⟨(bleSendCmd_fields _ _ _ _).1, (bleSendCmd_fields _ _ _ _).2.1⟩

theorem handleBeginUpload_session (env : Env) (w w1 : World) (cmd : ble_adv_cmd_t)
    (h : handleBeginUpload env w cmd = .ok w1) :
    begin_upload_req_package_length cmd ≠ 0 ∧ w1.ble.otap = beginSession w.ble.otap cmd := by
  unfold handleBeginUpload at h
  by_cases hF : begin_upload_req_package_length cmd = 0
  · rw [if_pos hF] at h; cases h
  · rw [if_neg hF] at h
    refine ⟨hF, ?_⟩
    dsimp only at h
    split at h
    · cases h
    · rename_i ret w3 hbb
      obtain ⟨st, t, hw3, _⟩ := Otap_bufferBegin_frame _ _ _ _ hbb
      simp only [Except.ok.injEq] at h
      rw [← h]
      show (bleSendCmd _ _ _ _).otap = _
      rw [(bleSendCmd_fields _ _ _ _).1]
      show w3.ble.otap = _
      rw [hw3, Otap_init_frame]

/-- In a session set up by the begin-upload branch, fragment ids in range
exist only when the ids fit the band: then `end_message_id` is
`start_message_id + total_messages - 1` and no id exceeds `0xFFFF`. -/
theorem beginSession_range (old : ble_otap_t) (cmd : ble_adv_cmd_t)
    (h : (beginSession old cmd).start_message_id ≤ (beginSession old cmd).end_message_id) :
    (beginSession old cmd).start_message_id + (beginSession old cmd).total_messages ≤ 65536 ∧
    (beginSession old cmd).end_message_id + 1 =
      (beginSession old cmd).start_message_id + (beginSession old cmd).total_messages ∧
    1 ≤ (beginSession old cmd).total_messages := by
  simp only [beginSession] at h ⊢
  omega

/-- C6 fails as stated: the session members are 16-bit objects.  For the
begin-upload request with `L = 65536` and `F = 1` (`ceil (L / F) = 65536`) the
stored `total_messages` is 0 and `end_message_id` is `0x7FFF`. -/
theorem C6_counterexample :
    (bleReceiveCb sampleEnv sampleWorld
        (mkPacket (beginUploadFrame 5 0x5678 7 65536 1))).toOption.map
      (fun w => (w.ble.otap.total_messages, w.ble.otap.end_message_id)) = some (0, 0x7FFF) ∧
    (0 : Nat) ≠ (65536 + 1 - 1) / 1 := by
  decide

/-- C6 (amended): for every accepted begin-upload request with declared
length `L` and fragment size `F` that is handled without fault (in particular
`F` is not 0), the session has `start_message_id = 0x8000`, `total_messages =
ceil (L / F) mod 2 ^ 16` and `end_message_id = (0x8000 + ceil (L / F) - 1) mod
2 ^ 16`; whenever `ceil (L / F)` is at most `0x8000` (the fragment ids fit the band
`0x8000 .. 0xFFFF`) these are `ceil (L / F)` and `0x8000 + ceil (L / F) - 1`
themselves. -/
theorem C6_total_messages (env : Env) (w w0 w1 : World) (packet : app_lib_beacon_rx_received_t)
    (cmd_rx : ble_adv_cmd_t)
    (hacc : receiveFilter w packet = .ok (w0, some cmd_rx))
    (hcmd : cmd_command cmd_rx = ble_ADV_CMD_OTAP_BEGIN_UPLOAD_REQUEST)
    (h : bleReceiveCb env w packet = .ok w1) :
    begin_upload_req_package_length cmd_rx ≠ 0 ∧
    w1.ble.otap.scratchpad_length = begin_upload_req_length cmd_rx ∧
    w1.ble.otap.adv_package_length = begin_upload_req_package_length cmd_rx ∧
    w1.ble.otap.start_message_id = 0x8000 ∧
    w1.ble.otap.total_messages =
      ((begin_upload_req_length cmd_rx + begin_upload_req_package_length cmd_rx - 1) /
        begin_upload_req_package_length cmd_rx) % 65536 ∧
    w1.ble.otap.end_message_id =
      (0x8000 + (begin_upload_req_length cmd_rx + begin_upload_req_package_length cmd_rx - 1) /
        begin_upload_req_package_length cmd_rx - 1) % 65536 ∧
    ((begin_upload_req_length cmd_rx + begin_upload_req_package_length cmd_rx - 1) /
        begin_upload_req_package_length cmd_rx ≤ 0x8000 →
      w1.ble.otap.total_messages =
        (begin_upload_req_length cmd_rx + begin_upload_req_package_length cmd_rx - 1) /
          begin_upload_req_package_length cmd_rx ∧
      w1.ble.otap.end_message_id =
        0x8000 + (begin_upload_req_length cmd_rx + begin_upload_req_package_length cmd_rx - 1) /
          begin_upload_req_package_length cmd_rx - 1) := by
  unfold bleReceiveCb at h
  rw [hacc] at h
  dsimp only at h
  unfold handleCmd at h
  have hne : cmd_command cmd_rx ≠ ble_ADV_CMD_SCAN_REQUEST := by
    rw [hcmd]; decide
  rw [if_neg hne, if_pos hcmd] at h
  obtain ⟨hF, hs⟩ := handleBeginUpload_session env w0 w1 cmd_rx h
  have hceil := ceil_div_eq (begin_upload_req_length cmd_rx)
    (begin_upload_req_package_length cmd_rx) hF
  rw [hs]
  simp only [beginSession]
  generalize begin_upload_req_length cmd_rx = L at *
  generalize begin_upload_req_package_length cmd_rx = F at *
  have hend : 0x8000 + L / F + (if L % F ≠ 0 then 1 else 0) - 1 = 0x8000 + (L + F - 1) / F - 1 := by
    rw [← hceil]; omega
  rw [hend]
  generalize (L + F - 1) / F = c
  refine ⟨hF, ?_, ?_, ?_, ?_, ?_, ?_⟩
  · trivial
  · trivial
  · trivial
  · omega
  · trivial
  · intro hc
    constructor <;> omega

/-- C6 (amended) at `L = 1000`, `F = 23`: the accepted begin-upload request
leaves `total_messages = 44` and `end_message_id = 0x8000 + 43`. -/
theorem C6_total_messages_witness :
    (okOr (bleReceiveCb sampleEnv sampleWorld (mkPacket (beginUploadFrame 5 0x5678 7 1000 23)))
      sampleWorld).ble.otap.total_messages = 44 ∧
    (okOr (bleReceiveCb sampleEnv sampleWorld (mkPacket (beginUploadFrame 5 0x5678 7 1000 23)))
      sampleWorld).ble.otap.end_message_id = 0x8000 + 43 :=
  have h := C6_total_messages sampleEnv sampleWorld
    (filtered sampleWorld (mkPacket (beginUploadFrame 5 0x5678 7 1000 23))).1
    (okOr (bleReceiveCb sampleEnv sampleWorld (mkPacket (beginUploadFrame 5 0x5678 7 1000 23)))
      sampleWorld)
    (mkPacket (beginUploadFrame 5 0x5678 7 1000 23))
    ((filtered sampleWorld (mkPacket (beginUploadFrame 5 0x5678 7 1000 23))).2.getD [])
    (receiveFilter_eq _ _ (by decide)) (by decide) (eq_ok_okOr _ _ (by decide))
  ⟨h.2.2.2.2.1.trans (by decide), h.2.2.2.2.2.1.trans (by decide)⟩

/-! ### The fragment bitmap -/

theorem firstMissing_none_iff (bm : List Nat) (n : Nat) :
    firstMissing bm n = none ↔ ∀ i, i < n → bitSet bm i = true := by
  unfold firstMissing
  rw [List.find?_range_eq_none]
  simp

theorem firstMissing_some_iff (bm : List Nat) (n i : Nat) :
    firstMissing bm n = some i ↔
      i < n ∧ bitSet bm i = false ∧ ∀ j, j < i → bitSet bm j = true := by
  unfold firstMissing
  rw [List.find?_range_eq_some]
  simp
  tauto

theorem bitSet_eq_testBit (bm : List Nat) (i : Nat) :
    bitSet bm i = (bm.getD (i / 8) 0).testBit (i % 8) := by
  unfold bitSet
  rw [Nat.one_shiftLeft, Nat.and_two_pow]
  cases h : (bm.getD (i / 8) 0).testBit (i % 8)
  · simp
  · simp

theorem bitSet_markBit (bm : List Nat) (i j : Nat) (hi : i / 8 < bm.length) :
    bitSet (markBit bm i) j = (bitSet bm j || decide (j = i)) := by
  rw [bitSet_eq_testBit, bitSet_eq_testBit]
  unfold markBit
  by_cases hq : j / 8 = i / 8
  · rw [hq]
    have hget : ((bm.set (i / 8) (bm.getD (i / 8) 0 ||| 1 <<< (i % 8))).getD (i / 8) 0) =
        bm.getD (i / 8) 0 ||| 1 <<< (i % 8) := by
      simp [List.getD_eq_getElem?_getD, List.getElem?_set, hi]
    rw [hget, Nat.testBit_or, Nat.one_shiftLeft, Nat.testBit_two_pow]
    congr 1
    have : (i % 8 = j % 8) ↔ (j = i) := by omega
    simp only [this]
  · have hget : ((bm.set (i / 8) (bm.getD (i / 8) 0 ||| 1 <<< (i % 8))).getD (j / 8) 0) =
        bm.getD (j / 8) 0 := by
      simp [List.getD_eq_getElem?_getD, List.getElem?_set, Ne.symm hq]
    rw [hget]
    have : ¬ j = i := fun h => hq (by rw [h])
    simp [this]

theorem markBit_length (bm : List Nat) (i : Nat) : (markBit bm i).length = bm.length := by
  simp [markBit]

/-! ### The upload branch, case by case -/

theorem receiveFilter_frame (w w0 : World) (p : app_lib_beacon_rx_received_t)
    (cmd : ble_adv_cmd_t) (h : receiveFilter w p = .ok (w0, some cmd)) :
    w0 = { w with
      m_ble_rx_buffer := w0.m_ble_rx_buffer
      m_lastReceivedPackage := w0.m_lastReceivedPackage
      accepted := w0.accepted
      ble := { w.ble with last_received_message_id := cmd_message_id cmd } } := by
  unfold receiveFilter at h
  cases hp : prefilter w.m_ble_rx_buffer p with
  | error f => rw [hp] at h; cases h
  | ok r =>
    rw [hp] at h
    cases r with
    | none => simp at h
    | some q =>
      obtain ⟨rx, n⟩ := q
      dsimp only at h
      cases hc : getCmdFromBuffer rx n with
      | none => rw [hc] at h; simp at h
      | some c =>
        rw [hc] at h
        dsimp only at h
        by_cases hm : w.m_lastReceivedPackage.take n = rx.take n
        · rw [if_pos hm] at h; simp at h
        · rw [if_neg hm] at h
          by_cases hid : w.ble.last_received_message_id = cmd_message_id c ∧
              cmd_message_id c > 1
          · rw [if_pos hid] at h; simp at h
          · rw [if_neg hid] at h
            simp only [Except.ok.injEq, Prod.mk.injEq, Option.some.injEq] at h
            obtain ⟨h1, h2⟩ := h
            rw [← h1, ← h2]

theorem finishUpload_spec (env : Env) (w w1 : World) (cmd : ble_adv_cmd_t)
    (h : finishUpload env w cmd = .ok w1) :
    ∃ st p t, w1 = { w with
      storage := st
      persistent := p
      otap :=
        { w.otap with
          m_buffer_block_write :=
            headerBlock w.otap.m_buffer_block_write w.ble.otap.scratchpad_length
              w.ble.otap.scratchpad_seqeunce_number }
      trace :=
        w.trace ++
          [Call.Otap_bufferEnd w.ble.otap.scratchpad_length
             w.ble.otap.scratchpad_seqeunce_number,
           Call.mem_startWrite 0
             ((headerBlock w.otap.m_buffer_block_write w.ble.otap.scratchpad_length
               w.ble.otap.scratchpad_seqeunce_number).take w.otap.m_header_size)
             w.otap.m_header_size] ++
          Call.AppSettings_store { w.app_settings with do_otap := 1 } ::
            Call.persistent_read :: t
      ble := sendDone w.ble cmd
      app_settings := { w.app_settings with do_otap := 1 }
      fsm_sm := Sm_fireEvent w.fsm_sm fsm_E_REBOOT } := by
  unfold finishUpload at h
  split at h
  · cases h
  · rename_i r w2 hend
    obtain ⟨st, hst⟩ := Otap_bufferEnd_frame _ _ _ _ _ _ hend
    dsimp only at h
    simp only [Except.ok.injEq] at h
    obtain ⟨p, t, hp, _⟩ := AppSettings_store_frame env
      { w2 with
        ble := sendDone w2.ble cmd
        app_settings := { w2.app_settings with do_otap := 1 } }
      { w2.app_settings with do_otap := 1 }
    refine ⟨st, p, t, ?_⟩
    rw [← h]
    dsimp only at hp
    rw [hp, hst]

theorem statusBle_fields (c : Ble_context) (cmd : ble_adv_cmd_t) (received : List Nat) :
    (statusBle c cmd received).otap = { c.otap with messageReceived := received } ∧
    (statusBle c cmd received).keep_sending = c.keep_sending := by
  unfold statusBle
  dsimp only
  split
  · exact ⟨(sendProgress_fields _ _ _).1, (sendProgress_fields _ _ _).2⟩
  · exact ⟨rfl, rfl⟩

theorem uploadStatus_cases (env : Env) (wB w1 : World) (cmd : ble_adv_cmd_t)
    (received : List Nat) (h : uploadStatus env wB cmd received = .ok w1) :
    wB.ble.otap.total_messages ≠ 0 ∧
    (wB.ble.otap.total_messages - 1) / 8 < received.length ∧
    ((bitSet received (wB.ble.otap.total_messages - 1) = false ∧
        w1 = { wB with ble := statusBle wB.ble cmd received }) ∨
     (bitSet received (wB.ble.otap.total_messages - 1) = true ∧
        ∃ i, firstMissing received wB.ble.otap.total_messages = some i ∧
          w1 = { wB with ble := requestResend (statusBle wB.ble cmd received) i }) ∨
     (bitSet received (wB.ble.otap.total_messages - 1) = true ∧
        firstMissing received wB.ble.otap.total_messages = none ∧
        finishUpload env { wB with ble := statusBle wB.ble cmd received } cmd = .ok w1)) := by
  unfold uploadStatus at h
  dsimp only at h
  by_cases h0 : wB.ble.otap.total_messages = 0
  · rw [if_pos h0] at h; cases h
  · rw [if_neg h0] at h
    by_cases h1 : (wB.ble.otap.total_messages - 1) / 8 ≥ received.length
    · rw [if_pos h1] at h; cases h
    · rw [if_neg h1] at h
      refine ⟨h0, by omega, ?_⟩
      cases hl : bitSet received (wB.ble.otap.total_messages - 1)
      · simp only [hl, Bool.false_eq_true, if_false, Except.ok.injEq] at h
        exact Or.inl ⟨rfl, h.symm⟩
      · simp only [hl, if_true] at h
        cases hf : firstMissing received wB.ble.otap.total_messages
        · simp only [hf] at h
          exact Or.inr (Or.inr ⟨rfl, rfl, h⟩)
        · rename_i i
          simp only [hf, Except.ok.injEq] at h
          exact Or.inr (Or.inl ⟨rfl, i, rfl, h.symm⟩)

theorem handleUpload_spec (env : Env) (w w1 : World) (cmd : ble_adv_cmd_t)
    (h : handleUpload env w cmd = .ok w1) :
    ∃ ret wB received,
      Otap_bufferWrite env w (cmd.drop 3) w.ble.otap.adv_package_length
        ((cmd_message_id cmd - w.ble.otap.start_message_id) * w.ble.otap.adv_package_length) =
        .ok (ret, wB) ∧
      ((ret = APP_RET_OK ∧
          (cmd_message_id cmd - w.ble.otap.start_message_id) / 8 <
            w.ble.otap.messageReceived.length ∧
          received = markBit w.ble.otap.messageReceived
            (cmd_message_id cmd - w.ble.otap.start_message_id)) ∨
       (ret ≠ APP_RET_OK ∧ received = w.ble.otap.messageReceived)) ∧
      uploadStatus env wB cmd received = .ok w1 := by
  unfold handleUpload at h
  dsimp only at h
  split at h
  · cases h
  · rename_i ret wB hbw
    by_cases hr : ret = APP_RET_OK
    · rw [if_pos hr] at h
      by_cases hb : (cmd_message_id cmd - w.ble.otap.start_message_id) / 8 ≥
          w.ble.otap.messageReceived.length
      · rw [if_pos hb] at h; cases h
      · rw [if_neg hb] at h
        exact ⟨ret, wB, _, hbw, Or.inl ⟨hr, by omega, rfl⟩, h⟩
    · rw [if_neg hr] at h
      exact ⟨ret, wB, _, hbw, Or.inr ⟨hr, rfl⟩, h⟩

theorem bleReceiveCb_upload (env : Env) (w w0 w1 : World)
    (packet : app_lib_beacon_rx_received_t) (cmd_rx : ble_adv_cmd_t)
    (hacc : receiveFilter w packet = .ok (w0, some cmd_rx))
    (hcmd : cmd_command cmd_rx = ble_ADV_CMD_OTAP_UPLOAD_REQUEST)
    (hlo : w.ble.otap.start_message_id ≤ cmd_message_id cmd_rx)
    (hhi : cmd_message_id cmd_rx ≤ w.ble.otap.end_message_id)
    (h : bleReceiveCb env w packet = .ok w1) :
    handleUpload env w0 cmd_rx = .ok w1 := by
  have hw0 := receiveFilter_frame w w0 packet cmd_rx hacc
  have hotap : w0.ble.otap = w.ble.otap := by rw [hw0]
  unfold bleReceiveCb at h
  rw [hacc] at h
  dsimp only at h
  unfold handleCmd at h
  have hne1 : cmd_command cmd_rx ≠ ble_ADV_CMD_SCAN_REQUEST := by rw [hcmd]; decide
  have hne2 : cmd_command cmd_rx ≠ ble_ADV_CMD_OTAP_BEGIN_UPLOAD_REQUEST := by
    rw [hcmd]; decide
  rw [if_neg hne1, if_neg hne2, if_pos ⟨hcmd, by rw [hotap]; exact hlo, by rw [hotap]; exact hhi⟩]
    at h
  exact h

/-- What an in-range upload fragment does, in terms of the bitmap `received`
it leaves: the three outcomes of the upload branch. -/
theorem upload_outcomes (env : Env) (w w0 w1 : World)
    (packet : app_lib_beacon_rx_received_t) (cmd_rx : ble_adv_cmd_t)
    (hacc : receiveFilter w packet = .ok (w0, some cmd_rx))
    (hcmd : cmd_command cmd_rx = ble_ADV_CMD_OTAP_UPLOAD_REQUEST)
    (hlo : w.ble.otap.start_message_id ≤ cmd_message_id cmd_rx)
    (hhi : cmd_message_id cmd_rx ≤ w.ble.otap.end_message_id)
    (h : bleReceiveCb env w packet = .ok w1) :
    ∃ ret wB received t,
      Otap_bufferWrite env w0 (cmd_rx.drop 3) w.ble.otap.adv_package_length
        ((cmd_message_id cmd_rx - w.ble.otap.start_message_id) *
          w.ble.otap.adv_package_length) = .ok (ret, wB) ∧
      wB.ble = w0.ble ∧ wB.app_settings = w.app_settings ∧ wB.fsm_sm = w.fsm_sm ∧
      wB.sm = w.sm ∧ wB.persistent = w.persistent ∧
      wB.trace = w.trace ++ Call.Otap_bufferWrite w.ble.otap.adv_package_length
        ((cmd_message_id cmd_rx - w.ble.otap.start_message_id) *
          w.ble.otap.adv_package_length) :: t ∧
      (t = [] ∨ ∃ d, t = [Call.mem_startWrite d
        ((cmd_rx.drop 3).take w.ble.otap.adv_package_length) w.ble.otap.adv_package_length]) ∧
      ((ret = APP_RET_OK ∧
          (cmd_message_id cmd_rx - w.ble.otap.start_message_id) / 8 <
            w.ble.otap.messageReceived.length ∧
          received = markBit w.ble.otap.messageReceived
            (cmd_message_id cmd_rx - w.ble.otap.start_message_id)) ∨
       (ret ≠ APP_RET_OK ∧ received = w.ble.otap.messageReceived)) ∧
      w.ble.otap.total_messages ≠ 0 ∧
      (w.ble.otap.total_messages - 1) / 8 < received.length ∧
      w1.ble.otap = { w.ble.otap with messageReceived := received } ∧
      ((bitSet received (w.ble.otap.total_messages - 1) = false ∧
          w1 = { wB with ble := statusBle w0.ble cmd_rx received }) ∨
       (bitSet received (w.ble.otap.total_messages - 1) = true ∧
          ∃ i, firstMissing received w.ble.otap.total_messages = some i ∧
            w1 = { wB with ble := requestResend (statusBle w0.ble cmd_rx received) i }) ∨
       (bitSet received (w.ble.otap.total_messages - 1) = true ∧
          firstMissing received w.ble.otap.total_messages = none ∧
          finishUpload env { wB with ble := statusBle w0.ble cmd_rx received } cmd_rx =
            .ok w1)) := by
  have hup := bleReceiveCb_upload env w w0 w1 packet cmd_rx hacc hcmd hlo hhi h
  have hw0 := receiveFilter_frame w w0 packet cmd_rx hacc
  have hotap : w0.ble.otap = w.ble.otap := by rw [hw0]
  have htrace : w0.trace = w.trace := by rw [hw0]
  obtain ⟨ret, wB, received, hbw, hrec, hus⟩ := handleUpload_spec env w0 w1 cmd_rx hup
  rw [hotap] at hbw hrec
  obtain ⟨st, t, hwB, ht⟩ := Otap_bufferWrite_frame _ _ _ _ _ _ _ hbw
  have hble : wB.ble = w0.ble := by rw [hwB]
  obtain ⟨h0, h1, hcases⟩ := uploadStatus_cases env wB w1 cmd_rx received hus
  rw [hble, hotap] at h0 h1 hcases
  refine ⟨ret, wB, received, t, hbw, hble, ?_, ?_, ?_, ?_, ?_, ht, hrec, h0, h1, ?_, hcases⟩
  · rw [hwB, hw0]
  · rw [hwB, hw0]
  · rw [hwB, hw0]
  · rw [hwB, hw0]
  · rw [hwB, htrace]
  · rcases hcases with ⟨_, hw1⟩ | ⟨_, i, _, hw1⟩ | ⟨_, _, hfin⟩
    · rw [hw1]
      show (statusBle w0.ble cmd_rx received).otap = _
      rw [(statusBle_fields _ _ _).1, hotap]
    · rw [hw1]
      show (requestResend (statusBle w0.ble cmd_rx received) i).otap = _
      rw [(requestResend_fields _ _).1, (statusBle_fields _ _ _).1, hotap]
    · obtain ⟨st2, p, t2, hw1⟩ := finishUpload_spec _ _ _ _ hfin
      rw [hw1]
      show (sendDone (statusBle w0.ble cmd_rx received) cmd_rx).otap = _
      rw [(sendDone_fields _ _).1, (statusBle_fields _ _ _).1, hotap]

/-- C7: for every accepted in-range upload fragment, in whatever state of
the session it arrives (hence for every order of delivery), the upload is
finalised on that fragment if and only if all `total_messages` bitmap bits are
set once the fragment is processed.  Finalisation is: `Otap_bufferEnd` called
with the declared length and sequence number, `do_otap` set to 1 and the
settings handed to `AppSettings_store`, `fsm_E_REBOOT` fired at the main state
machine, `keep_sending` cleared and the response `ble_STATUS_OTAP_OK` / 100
handed to `bleSendCmd`.  While a bit is unset `Otap_bufferEnd` is not called and
settings, stored record and main state machine stay as they are.  A fragment
whose write returned `APP_RET_OK` has its own bit set, and no other bit
changes. -/
theorem C7_finalisation_iff_all_bits (env : Env) (w w0 w1 : World)
    (packet : app_lib_beacon_rx_received_t) (cmd_rx : ble_adv_cmd_t)
    (hacc : receiveFilter w packet = .ok (w0, some cmd_rx))
    (hcmd : cmd_command cmd_rx = ble_ADV_CMD_OTAP_UPLOAD_REQUEST)
    (hlo : w.ble.otap.start_message_id ≤ cmd_message_id cmd_rx)
    (hhi : cmd_message_id cmd_rx ≤ w.ble.otap.end_message_id)
    (h : bleReceiveCb env w packet = .ok w1) :
    w1.ble.otap.total_messages = w.ble.otap.total_messages ∧
    (∀ j, bitSet w1.ble.otap.messageReceived j = true ↔
      (bitSet w.ble.otap.messageReceived j = true ∨
        (j = cmd_message_id cmd_rx - w.ble.otap.start_message_id ∧
          ∃ wB, Otap_bufferWrite env w0 (cmd_rx.drop 3) w.ble.otap.adv_package_length
            ((cmd_message_id cmd_rx - w.ble.otap.start_message_id) *
              w.ble.otap.adv_package_length) = .ok (APP_RET_OK, wB)))) ∧
    ((∃ L s, Call.Otap_bufferEnd L s ∈ newCalls w w1) ↔ allReceived w1.ble.otap) ∧
    (allReceived w1.ble.otap →
      Call.Otap_bufferEnd w.ble.otap.scratchpad_length
        w.ble.otap.scratchpad_seqeunce_number ∈ newCalls w w1 ∧
      w1.app_settings = { w.app_settings with do_otap := 1 } ∧
      Call.AppSettings_store w1.app_settings ∈ newCalls w w1 ∧
      w1.fsm_sm = Sm_fireEvent w.fsm_sm fsm_E_REBOOT ∧
      w1.ble.keep_sending = 0 ∧
      ∃ c, w1.ble = sendDone c cmd_rx) ∧
    (¬ allReceived w1.ble.otap →
      w1.app_settings = w.app_settings ∧ w1.fsm_sm = w.fsm_sm ∧
      w1.persistent = w.persistent ∧
      ∀ s, Call.AppSettings_store s ∉ newCalls w w1) := by
  obtain ⟨ret, wB, received, t, hbw, hble, happ, hfsm, hsm, hpers, htr, ht, hrec, h0, h1,
    hotap1, hcases⟩ := upload_outcomes env w w0 w1 packet cmd_rx hacc hcmd hlo hhi h
  have hall : allReceived w1.ble.otap ↔
      ∀ i, i < w.ble.otap.total_messages → bitSet received i = true := by
    unfold allReceived
    rw [hotap1]
  have hbits : ∀ j, bitSet received j = true ↔
      (bitSet w.ble.otap.messageReceived j = true ∨
        (j = cmd_message_id cmd_rx - w.ble.otap.start_message_id ∧
          ∃ wB, Otap_bufferWrite env w0 (cmd_rx.drop 3) w.ble.otap.adv_package_length
            ((cmd_message_id cmd_rx - w.ble.otap.start_message_id) *
              w.ble.otap.adv_package_length) = .ok (APP_RET_OK, wB))) := by
    intro j
    rcases hrec with ⟨hok, hidx, hr⟩ | ⟨hnok, hr⟩
    · rw [hr, bitSet_markBit _ _ _ hidx]
      simp only [Bool.or_eq_true, decide_eq_true_eq]
      constructor
      · rintro (hj | hj)
        · exact Or.inl hj
        · exact Or.inr ⟨hj, wB, by rw [← hok]; exact hbw⟩
      · rintro (hj | ⟨hj, _⟩)
        · exact Or.inl hj
        · exact Or.inr hj
    · rw [hr]
      constructor
      · exact Or.inl
      · rintro (hj | ⟨_, wB2, hw2⟩)
        · exact hj
        · rw [hbw] at hw2
          simp only [Except.ok.injEq, Prod.mk.injEq] at hw2
          exact absurd hw2.1 hnok
  have hnoEnd : ∀ L s, Call.Otap_bufferEnd L s ∉
      Call.Otap_bufferWrite w.ble.otap.adv_package_length
        ((cmd_message_id cmd_rx - w.ble.otap.start_message_id) *
          w.ble.otap.adv_package_length) :: t := by
    intro L s
    rcases ht with ht | ⟨d, ht⟩ <;> simp [ht]
  have hnoStore : ∀ s, Call.AppSettings_store s ∉
      Call.Otap_bufferWrite w.ble.otap.adv_package_length
        ((cmd_message_id cmd_rx - w.ble.otap.start_message_id) *
          w.ble.otap.adv_package_length) :: t := by
    intro s
    rcases ht with ht | ⟨d, ht⟩ <;> simp [ht]
  have htot : w1.ble.otap.total_messages = w.ble.otap.total_messages := by rw [hotap1]
  refine ⟨htot, fun j => by rw [hotap1]; exact hbits j, ?_⟩
  rcases hcases with ⟨hlast, hw1⟩ | ⟨_, i, hfm, hw1⟩ | ⟨_, hfm, hfin⟩
  · have hnot : ¬ allReceived w1.ble.otap := by
      rw [hall]
      intro hx
      have := hx (w.ble.otap.total_messages - 1) (by omega)
      rw [hlast] at this
      cases this
    have hnew : newCalls w w1 = Call.Otap_bufferWrite w.ble.otap.adv_package_length
        ((cmd_message_id cmd_rx - w.ble.otap.start_message_id) *
          w.ble.otap.adv_package_length) :: t := by
      unfold newCalls
      rw [hw1]
      show wB.trace.drop _ = _
      rw [htr, List.drop_left]
    refine ⟨⟨?_, fun hx => absurd hx hnot⟩, fun hx => absurd hx hnot, fun _ => ?_⟩
    · rintro ⟨L, s, hm⟩
      rw [hnew] at hm
      exact absurd hm (hnoEnd L s)
    · rw [hnew]
      refine ⟨?_, ?_, ?_, hnoStore⟩
      · rw [hw1]; exact happ
      · rw [hw1]; exact hfsm
      · rw [hw1]; exact hpers
  · have hnot : ¬ allReceived w1.ble.otap := by
      rw [hall]
      intro hx
      obtain ⟨hi, hbit, _⟩ := (firstMissing_some_iff _ _ _).mp hfm
      have := hx i hi
      rw [hbit] at this
      cases this
    have hnew : newCalls w w1 = Call.Otap_bufferWrite w.ble.otap.adv_package_length
        ((cmd_message_id cmd_rx - w.ble.otap.start_message_id) *
          w.ble.otap.adv_package_length) :: t := by
      unfold newCalls
      rw [hw1]
      show wB.trace.drop _ = _
      rw [htr, List.drop_left]
    refine ⟨⟨?_, fun hx => absurd hx hnot⟩, fun hx => absurd hx hnot, fun _ => ?_⟩
    · rintro ⟨L, s, hm⟩
      rw [hnew] at hm
      exact absurd hm (hnoEnd L s)
    · rw [hnew]
      refine ⟨?_, ?_, ?_, hnoStore⟩
      · rw [hw1]; exact happ
      · rw [hw1]; exact hfsm
      · rw [hw1]; exact hpers
  · have hyes : allReceived w1.ble.otap := by
      rw [hall]
      exact (firstMissing_none_iff _ _).mp hfm
    obtain ⟨st2, p, t2, hw1⟩ := finishUpload_spec _ _ _ _ hfin
    have hso : (statusBle w0.ble cmd_rx received).otap.scratchpad_length =
        w.ble.otap.scratchpad_length ∧
        (statusBle w0.ble cmd_rx received).otap.scratchpad_seqeunce_number =
        w.ble.otap.scratchpad_seqeunce_number := by
      have hw0 := receiveFilter_frame w w0 packet cmd_rx hacc
      have hotap : w0.ble.otap = w.ble.otap := by rw [hw0]
      rw [(statusBle_fields _ _ _).1, hotap]
      exact ⟨rfl, rfl⟩
    dsimp only at hw1
    rw [hso.1, hso.2, htr, happ, hfsm] at hw1
    have hnew : newCalls w w1 =
        (Call.Otap_bufferWrite w.ble.otap.adv_package_length
          ((cmd_message_id cmd_rx - w.ble.otap.start_message_id) *
            w.ble.otap.adv_package_length) :: t) ++
        [Call.Otap_bufferEnd w.ble.otap.scratchpad_length
           w.ble.otap.scratchpad_seqeunce_number,
         Call.mem_startWrite 0
           ((headerBlock wB.otap.m_buffer_block_write w.ble.otap.scratchpad_length
             w.ble.otap.scratchpad_seqeunce_number).take wB.otap.m_header_size)
           wB.otap.m_header_size] ++
        Call.AppSettings_store { w.app_settings with do_otap := 1 } ::
          Call.persistent_read :: t2 := by
      unfold newCalls
      rw [hw1]
      dsimp only
      rw [List.append_assoc, List.append_assoc, List.drop_left]
      simp
    have happ1 : w1.app_settings = { w.app_settings with do_otap := 1 } := by rw [hw1]
    have hend : Call.Otap_bufferEnd w.ble.otap.scratchpad_length
        w.ble.otap.scratchpad_seqeunce_number ∈ newCalls w w1 := by
      rw [hnew]; simp
    refine ⟨⟨fun _ => hyes, fun _ => ⟨_, _, hend⟩⟩, fun _ => ⟨hend, happ1, ?_, ?_, ?_, ?_⟩,
      fun hx => absurd hyes hx⟩
    · rw [hnew, happ1]; simp
    · rw [hw1]
    · rw [hw1]; exact (sendDone_fields _ _).2
    · exact ⟨_, by rw [hw1]⟩

theorem getNextMessageId_lt (c : Ble_context) : (getNextMessageId c).1 < 65536 := by
  unfold getNextMessageId
  exact Nat.mod_lt _ (by decide)

theorem mk_resend_req_fields (m r : Nat) :
    cmd_message_id (mk_resend_req m r) = m % 65536 ∧
    cmd_command (mk_resend_req m r) = ble_ADV_CMD_RESEND_MESSAGE_REQUEST ∧
    resend_req_message_id (mk_resend_req m r) = r % 65536 ∧
    (mk_resend_req m r).take BLE_ADV_CMD_RESEND_MESSAGE_REQ_LEN =
      [m % 256, m / 256 % 256, 0x01, r % 256, r / 256 % 256] := by
  refine ⟨?_, ?_, ?_, ?_⟩
  · simp [cmd_message_id, mk_resend_req, rd16, u16]; omega
  · simp [cmd_command, mk_resend_req, u16]
  · simp [resend_req_message_id, mk_resend_req, rd16, u16]; omega
  · simp [mk_resend_req, u16, BLE_ADV_CMD_RESEND_MESSAGE_REQ_LEN,
      ble_ADV_CMD_RESEND_MESSAGE_REQUEST]

theorem firstEmptyItem_lt (items : List ble_tx_list_item_t) (k : Nat)
    (h : firstEmptyItem items = some k) : k < items.length := by
  induction items generalizing k with
  | nil => simp [firstEmptyItem] at h
  | cons it rest ih =>
    unfold firstEmptyItem at h
    by_cases he : it.status = ble_SLOT_EMPTY
    · rw [if_pos he] at h
      simp only [Option.some.injEq] at h
      rw [← h]; simp
    · rw [if_neg he] at h
      cases hr : firstEmptyItem rest with
      | none => rw [hr] at h; simp at h
      | some j =>
        rw [hr] at h
        simp only [Option.map_some', Option.some.injEq] at h
        have := ih j hr
        rw [← h]; simp; omega

theorem bleSendCmd_stored (c : Ble_context) (cmd : ble_adv_cmd_t) (n : Nat) (q : Bool)
    (k : Nat) (h : firstEmptyItem c.ble_tx_items = some k) :
    (bleSendCmd c cmd n q).ble_tx_items.get? k =
      some { status := ble_SLOT_SEND
             payload_len := n
             qos := q
             message_id := cmd_message_id cmd
             payload := getBufferFromCmd cmd (c.ble_tx_items.getD k {}).payload n } ∧
    (bleSendCmd c cmd n q).ble_tx_items_head_p = c.ble_tx_items_head_p ++ [k] := by
  have hk := firstEmptyItem_lt _ _ h
  unfold bleSendCmd
  rw [h]
  simp [List.getElem?_set, hk]

/-- C9: when an accepted in-range upload fragment has been processed and
the bit of the last-indexed fragment is set while some bit is unset, the call
has sent the status response and then exactly one resend request: command
`0x01`, `resend_message_id = start_message_id + i` for the smallest unset index
`i`, handed to `bleSendCmd` with `qos = true` after `keep_sending` was set to the
request's own message id (with an empty backlog slot `k` the request is stored
in it and linked at the back of the pending list).  Nothing of the completion
takes place: `Otap_bufferEnd` and `AppSettings_store` are not called, settings
and main state machine are unchanged. -/
theorem C9_resend_lowest_missing (env : Env) (w w0 w1 : World)
    (packet : app_lib_beacon_rx_received_t) (cmd_rx : ble_adv_cmd_t)
    (hacc : receiveFilter w packet = .ok (w0, some cmd_rx))
    (hcmd : cmd_command cmd_rx = ble_ADV_CMD_OTAP_UPLOAD_REQUEST)
    (hlo : w.ble.otap.start_message_id ≤ cmd_message_id cmd_rx)
    (hhi : cmd_message_id cmd_rx ≤ w.ble.otap.end_message_id)
    (h : bleReceiveCb env w packet = .ok w1)
    (hlast : bitSet w1.ble.otap.messageReceived (w1.ble.otap.total_messages - 1) = true)
    (hmiss : ¬ allReceived w1.ble.otap) :
    ∃ i c,
      (i < w1.ble.otap.total_messages ∧ bitSet w1.ble.otap.messageReceived i = false ∧
        ∀ j, j < i → bitSet w1.ble.otap.messageReceived j = true) ∧
      c = sendProgress
        { w.ble with
          last_received_message_id := cmd_message_id cmd_rx
          otap := w1.ble.otap }
        cmd_rx
        (90 + 10 / (missingMessages w1.ble.otap.messageReceived w1.ble.otap.total_messages + 1)) ∧
      w1.ble = bleSendCmd { (getNextMessageId c).2 with keep_sending := (getNextMessageId c).1 }
        (mk_resend_req (getNextMessageId c).1 (w.ble.otap.start_message_id + i))
        BLE_ADV_CMD_RESEND_MESSAGE_REQ_LEN true ∧
      cmd_command (mk_resend_req (getNextMessageId c).1 (w.ble.otap.start_message_id + i)) =
        ble_ADV_CMD_RESEND_MESSAGE_REQUEST ∧
      cmd_message_id (mk_resend_req (getNextMessageId c).1 (w.ble.otap.start_message_id + i)) =
        (getNextMessageId c).1 ∧
      resend_req_message_id
          (mk_resend_req (getNextMessageId c).1 (w.ble.otap.start_message_id + i)) =
        (w.ble.otap.start_message_id + i) % 65536 ∧
      (w.ble.otap.start_message_id + w.ble.otap.total_messages ≤ 65536 →
        resend_req_message_id
            (mk_resend_req (getNextMessageId c).1 (w.ble.otap.start_message_id + i)) =
          w.ble.otap.start_message_id + i) ∧
      w1.ble.keep_sending = (getNextMessageId c).1 ∧
      (∀ k, firstEmptyItem c.ble_tx_items = some k →
        w1.ble.ble_tx_items.get? k =
          some { status := ble_SLOT_SEND
                 payload_len := BLE_ADV_CMD_RESEND_MESSAGE_REQ_LEN
                 qos := true
                 message_id := (getNextMessageId c).1
                 payload := getBufferFromCmd
                   (mk_resend_req (getNextMessageId c).1 (w.ble.otap.start_message_id + i))
                   (c.ble_tx_items.getD k {}).payload BLE_ADV_CMD_RESEND_MESSAGE_REQ_LEN } ∧
        w1.ble.ble_tx_items_head_p = c.ble_tx_items_head_p ++ [k]) ∧
      (∀ L s, Call.Otap_bufferEnd L s ∉ newCalls w w1) ∧
      (∀ s, Call.AppSettings_store s ∉ newCalls w w1) ∧
      w1.app_settings = w.app_settings ∧ w1.fsm_sm = w.fsm_sm ∧ w1.sm = w.sm := by
  obtain ⟨ret, wB, received, t, hbw, hble, happ, hfsm, hsm, hpers, htr, ht, hrec, h0, h1,
    hotap1, hcases⟩ := upload_outcomes env w w0 w1 packet cmd_rx hacc hcmd hlo hhi h
  have hw0 := receiveFilter_frame w w0 packet cmd_rx hacc
  have hrcv : w1.ble.otap.messageReceived = received := by rw [hotap1]
  have htot : w1.ble.otap.total_messages = w.ble.otap.total_messages := by rw [hotap1]
  rw [hrcv, htot] at hlast
  have hall : allReceived w1.ble.otap ↔
      ∀ i, i < w.ble.otap.total_messages → bitSet received i = true := by
    unfold allReceived
    rw [hotap1]
  rcases hcases with ⟨hl, _⟩ | ⟨_, i, hfm, hw1⟩ | ⟨_, hfm, _⟩
  · rw [hl] at hlast; cases hlast
  · obtain ⟨hi, hbit, hbelow⟩ := (firstMissing_some_iff _ _ _).mp hfm
    have hstat : statusBle w0.ble cmd_rx received = sendProgress
        { w.ble with
          last_received_message_id := cmd_message_id cmd_rx
          otap := w1.ble.otap }
        cmd_rx
        (90 + 10 / (missingMessages w1.ble.otap.messageReceived
          w1.ble.otap.total_messages + 1)) := by
      have hotap : w0.ble.otap = w.ble.otap := by rw [hw0]
      unfold statusBle
      dsimp only
      rw [hotap, hlast, hrcv, htot, hotap1]
      simp only [or_true, if_true, progressPercentage]
      rw [hw0]
    have hnew : newCalls w w1 = Call.Otap_bufferWrite w.ble.otap.adv_package_length
        ((cmd_message_id cmd_rx - w.ble.otap.start_message_id) *
          w.ble.otap.adv_package_length) :: t := by
      unfold newCalls
      rw [hw1]
      show wB.trace.drop _ = _
      rw [htr, List.drop_left]
    have hstart : (statusBle w0.ble cmd_rx received).otap.start_message_id =
        w.ble.otap.start_message_id := by
      have hotap : w0.ble.otap = w.ble.otap := by rw [hw0]
      rw [(statusBle_fields _ _ _).1, hotap]
    have hble1 : w1.ble = requestResend (statusBle w0.ble cmd_rx received) i := by rw [hw1]
    have hmid := getNextMessageId_lt (statusBle w0.ble cmd_rx received)
    have hf := mk_resend_req_fields (getNextMessageId (statusBle w0.ble cmd_rx received)).1
      (w.ble.otap.start_message_id + i)
    have hsendEq : requestResend (statusBle w0.ble cmd_rx received) i =
        bleSendCmd { (getNextMessageId (statusBle w0.ble cmd_rx received)).2 with
            keep_sending := (getNextMessageId (statusBle w0.ble cmd_rx received)).1 }
          (mk_resend_req (getNextMessageId (statusBle w0.ble cmd_rx received)).1
            (w.ble.otap.start_message_id + i))
          BLE_ADV_CMD_RESEND_MESSAGE_REQ_LEN true := by
      unfold requestResend
      dsimp only
      have hs2 : (getNextMessageId (statusBle w0.ble cmd_rx received)).2.otap.start_message_id =
          w.ble.otap.start_message_id := hstart
      rw [hs2, hf.1, Nat.mod_eq_of_lt hmid]
    refine ⟨i, statusBle w0.ble cmd_rx received, ⟨by rw [htot]; exact hi, by rw [hrcv]; exact hbit,
      fun j hj => by rw [hrcv]; exact hbelow j hj⟩, hstat, ?_, hf.2.1, ?_, hf.2.2.1, ?_, ?_, ?_, ?_,
      ?_, ?_, ?_, ?_⟩
    · rw [hble1, hsendEq]
    · rw [hf.1, Nat.mod_eq_of_lt hmid]
    · intro hle
      rw [hf.2.2.1]
      exact Nat.mod_eq_of_lt (by omega)
    · rw [hble1, hsendEq]
      exact (bleSendCmd_fields _ _ _ _).2.1
    · intro k hk
      rw [hble1, hsendEq]
      have := bleSendCmd_stored
        { (getNextMessageId (statusBle w0.ble cmd_rx received)).2 with
            keep_sending := (getNextMessageId (statusBle w0.ble cmd_rx received)).1 }
        (mk_resend_req (getNextMessageId (statusBle w0.ble cmd_rx received)).1
          (w.ble.otap.start_message_id + i))
        BLE_ADV_CMD_RESEND_MESSAGE_REQ_LEN true k hk
      rw [hf.1, Nat.mod_eq_of_lt hmid] at this
      exact this
    · intro L s
      rw [hnew]
      rcases ht with ht | ⟨d, ht⟩ <;> simp [ht]
    · intro s
      rw [hnew]
      rcases ht with ht | ⟨d, ht⟩ <;> simp [ht]
    · rw [hw1]; exact happ
    · rw [hw1]; exact hfsm
    · rw [hw1]; exact hsm
  · exact absurd (hall.mpr ((firstMissing_none_iff _ _).mp hfm)) hmiss

set_option maxRecDepth 100000 in
/-- C7 at the scenario `L = 1000`, `F = 23`: after fragments 0 to 42,
fragment 43 sets the last missing bit and the upload is finalised on it. -/
theorem C7_finalisation_iff_all_bits_witness :
    allReceived (okOr (bleReceiveCb sampleEnv afterFragments0to42
      (mkPacket (fragmentFrame 43 23))) afterFragments0to42).ble.otap ∧
    Call.Otap_bufferEnd afterFragments0to42.ble.otap.scratchpad_length
        afterFragments0to42.ble.otap.scratchpad_seqeunce_number ∈
      newCalls afterFragments0to42 (okOr (bleReceiveCb sampleEnv afterFragments0to42
        (mkPacket (fragmentFrame 43 23))) afterFragments0to42) ∧
    (okOr (bleReceiveCb sampleEnv afterFragments0to42
      (mkPacket (fragmentFrame 43 23))) afterFragments0to42).app_settings.do_otap = 1 ∧
    (okOr (bleReceiveCb sampleEnv afterFragments0to42
      (mkPacket (fragmentFrame 43 23))) afterFragments0to42).fsm_sm =
      Sm_fireEvent afterFragments0to42.fsm_sm fsm_E_REBOOT := by
  have h := C7_finalisation_iff_all_bits sampleEnv afterFragments0to42
    (filtered afterFragments0to42 (mkPacket (fragmentFrame 43 23))).1
    (okOr (bleReceiveCb sampleEnv afterFragments0to42 (mkPacket (fragmentFrame 43 23)))
      afterFragments0to42)
    (mkPacket (fragmentFrame 43 23))
    ((filtered afterFragments0to42 (mkPacket (fragmentFrame 43 23))).2.getD [])
    (receiveFilter_eq _ _ (by decide)) (by decide) (by decide) (by decide)
    (eq_ok_okOr _ _ (by decide))
  have hall := h.2.2.1.mp ⟨1000, 7, by decide⟩
  have hfin := h.2.2.2.1 hall
  exact ⟨hall, hfin.1, by rw [hfin.2.1], hfin.2.2.2.1⟩

set_option maxRecDepth 100000 in
/-- C8 fails as stated: after the begin-upload request (1000 bytes, 23 per
fragment) and fragments 0 to 42 only, the backlog holds no resend request at
all and `keep_sending` is still 0.  The search for a missing fragment is only
made once the bit of the last-indexed fragment (43) is set. -/
theorem C8_counterexample :
    (uploadRun (List.range 43)).toOption.map
      (fun w => (resendRequests w, w.ble.keep_sending, w.ble.otap.total_messages)) =
      some ([], 0, 44) := by
  decide

set_option maxRecDepth 100000 in
/-- C8 (amended): in the scenario (1000 bytes, 23 per fragment, 44
fragments) delivering only fragments 0 to 42 enqueues no resend request; when
fragment 43 is delivered and an earlier one is missing (fragments 1 to 43, never
fragment 0), exactly one resend request is enqueued, with qos, and it names the
missing fragment index 0 (`resend_message_id = 0x8000`, bytes `0x00 0x80`). -/
theorem C8_resend_only_after_last_fragment :
    (uploadRun (List.range 43)).toOption.map resendRequests = some [] ∧
    (uploadRun (List.range' 1 43)).toOption.map resendRequests =
      some [[8, 0, ble_ADV_CMD_RESEND_MESSAGE_REQUEST, 0x00, 0x80]] ∧
    (uploadRun (List.range' 1 43)).toOption.map
      (fun w => (w.ble.ble_tx_items.filter (fun item => item.qos)).map
        (fun item => item.message_id)) = some [8] := by
  decide

set_option maxRecDepth 100000 in
/-- C9 at a session of 3 fragments (69 bytes, 23 per fragment): the last
fragment (index 2) arrives first, so fragments 0 and 1 are missing and the
resend request names index 0. -/
theorem C9_resend_lowest_missing_witness :
    ∃ i, i < 3 ∧
      resendRequests (okOr (bleReceiveCb sampleEnv afterBegin69
        (mkPacket (fragmentFrame 2 23))) afterBegin69) =
        [[3, 0, ble_ADV_CMD_RESEND_MESSAGE_REQUEST,
          (afterBegin69.ble.otap.start_message_id + i) % 256,
          (afterBegin69.ble.otap.start_message_id + i) / 256 % 256]] ∧
      (okOr (bleReceiveCb sampleEnv afterBegin69
        (mkPacket (fragmentFrame 2 23))) afterBegin69).ble.keep_sending = 3 := by
  obtain ⟨i, c, hi, hc, hble, _, _, _, _, hkeep, hstored, _⟩ :=
    C9_resend_lowest_missing sampleEnv afterBegin69
      (filtered afterBegin69 (mkPacket (fragmentFrame 2 23))).1
      (okOr (bleReceiveCb sampleEnv afterBegin69 (mkPacket (fragmentFrame 2 23))) afterBegin69)
      (mkPacket (fragmentFrame 2 23))
      ((filtered afterBegin69 (mkPacket (fragmentFrame 2 23))).2.getD [])
      (receiveFilter_eq _ _ (by decide)) (by decide) (by decide) (by decide)
      (eq_ok_okOr _ _ (by decide)) (by decide)
      (fun hall => absurd (hall 0 (by decide)) (by decide))
  have hi0 : i = 0 := by
    by_contra hne
    have h0 := hi.2.2 0 (Nat.pos_of_ne_zero hne)
    exact absurd h0 (by decide)
  subst hi0
  exact ⟨0, by decide, by decide, by decide⟩

/-! ### The busy-wait loop ends when the clock advances -/

theorem waitLoop_returns (poll_time : Nat) (busy_until : Option Nat) (timeout_end : Int)
    (hpoll : 1 ≤ poll_time) :
    ∀ (fuel now : Nat), timeout_end < (now : Int) + (fuel : Int) →
      ∃ r, waitLoop poll_time busy_until timeout_end (fuel + 1) now = .ok r := by
  intro fuel
  induction fuel with
  | zero =>
    intro now h
    unfold waitLoop
    have hreached : decide (timeout_end < ((now + poll_time : Nat) : Int)) = true := by
      simp only [decide_eq_true_eq]
      push_cast at h ⊢
      omega
    simp only [hreached, Bool.not_true, Bool.and_false, Bool.false_eq_true, if_false]
    exact ⟨_, rfl⟩
  | succ f ih =>
    intro now h
    unfold waitLoop
    dsimp only
    split
    · apply ih
      push_cast at h ⊢
      omega
    · exact ⟨_, rfl⟩

theorem active_wait_returns (env : Env) (w : World) (timeout_us : Int)
    (hpoll : 1 ≤ env.poll_time) :
    ∃ b w1, Otap.active_wait_for_end_of_operation env w timeout_us = .ok (b, w1) := by
  unfold Otap.active_wait_for_end_of_operation
  dsimp only
  obtain ⟨r, hr⟩ := waitLoop_returns env.poll_time w.storage.busy_until
    ((w.storage.now : Int) + timeout_us) hpoll (timeout_us.toNat + 1) w.storage.now
    (by have := Int.self_le_toNat timeout_us; push_cast; omega)
  rw [hr]
  obtain ⟨busy, now1⟩ := r
  exact ⟨_, _, rfl⟩

/-! ### Message ids, frame length, initialisation of the persistence layer -/

/-- C12: for a context whose stored counter `c` is a 16-bit value,
`getNextMessageId` returns 1 if `c = 0xFFFF` and `c + 1` otherwise, stores the
returned value as the new counter (nothing else of the context changes) and
never returns 0; the id of the next call is strictly greater than the one
returned, except after `0xFFFF`, where it is 1. -/
theorem C12_next_message_id (context : Ble_context) (hc : context.message_id < 65536) :
    (getNextMessageId context).1 =
      (if context.message_id = 0xFFFF then 1 else context.message_id + 1) ∧
    (getNextMessageId context).2 =
      { context with message_id := (getNextMessageId context).1 } ∧
    (getNextMessageId context).1 ≠ 0 ∧
    ((getNextMessageId context).1 ≠ 0xFFFF →
      (getNextMessageId context).1 < (getNextMessageId (getNextMessageId context).2).1) ∧
    ((getNextMessageId context).1 = 0xFFFF →
      (getNextMessageId (getNextMessageId context).2).1 = 1) := by
  have h1 : (getNextMessageId context).1 =
      (if context.message_id = 0xFFFF then 1 else context.message_id + 1) := by
    unfold getNextMessageId
    dsimp only
    split <;> omega
  have h2 : ∀ c : Ble_context, (getNextMessageId c).2.message_id = (getNextMessageId c).1 :=
    fun _ => rfl
  have h3 : ∀ c : Ble_context, c.message_id < 65536 → (getNextMessageId c).1 =
      (if c.message_id = 0xFFFF then 1 else c.message_id + 1) := by
    intro c hlt
    unfold getNextMessageId
    dsimp only
    split <;> omega
  have hlt := getNextMessageId_lt context
  have hnext := h3 (getNextMessageId context).2 (by rw [h2]; exact hlt)
  rw [h2] at hnext
  refine ⟨h1, rfl, ?_, ?_, ?_⟩
  · rw [h1]; split <;> omega
  · intro hne
    rw [hnext, if_neg hne]
    omega
  · intro he
    rw [hnext, if_pos he]

/-- The counter `0xFFFE` gives `0xFFFF`, and the call after that gives 1. -/
theorem C12_next_message_id_witness :
    (getNextMessageId { message_id := 0xFFFE }).1 = 0xFFFF ∧
    (getNextMessageId (getNextMessageId { message_id := 0xFFFE }).2).1 = 1 :=
  ⟨(C12_next_message_id { message_id := 0xFFFE } (by decide)).1,
   (C12_next_message_id { message_id := 0xFFFE } (by decide)).2.2.2.2 (by decide)⟩

/-- C13: `getCmdFromBuffer` returns `NULL` for every buffer whose length is
below the header size of 3 bytes or above the maximum frame size of 27
bytes. -/
theorem C13_reject_bad_length (data : List Nat) (data_len : Nat)
    (h : data_len < 3 ∨ data_len > 27) : getCmdFromBuffer data data_len = none := by
  unfold getCmdFromBuffer BLE_ADV_TOTAL_LEN BLE_ADV_HEADER_LEN
  by_cases h1 : data_len > 27
  · rw [if_pos h1]
  · rw [if_neg h1, if_pos (by omega)]

/-- A buffer of 28 bytes is rejected. -/
theorem C13_reject_bad_length_witness :
    getCmdFromBuffer (List.replicate 28 0) 28 = none :=
  C13_reject_bad_length (List.replicate 28 0) 28 (Or.inr (by decide))

/-- C20: `Otap_init` on an uninitialised layer whose geometry query is
answered sets the header size to `max write_alignment 12` and the usable
capacity to `area_size - header size` (a 32-bit difference), returns
`APP_RET_OK`, and a further call returns `APP_RET_OK`, queries nothing and
leaves the file scope variables as they are; on an initialised layer it
returns `APP_RET_OK` without a query and changes none of the variables; when
the query fails it returns `APP_PERSISTENT_RES_NO_AREA` and the layer stays
uninitialised. -/
theorem C20_init_idempotent (env : Env) (w : World) :
    (∀ info, w.otap.m_initialized = false → env.area_info (w.trace.length + 1) = some info →
      (Otap_init env w).1 = APP_RET_OK ∧
      (Otap_init env w).2.otap.m_initialized = true ∧
      (Otap_init env w).2.otap.m_header_size = max info.flash.write_alignment 12 ∧
      (Otap_init env w).2.otap.m_usable_memory_size =
        (info.area_size + 4294967296 - max info.flash.write_alignment 12) % 4294967296 ∧
      (max info.flash.write_alignment 12 ≤ info.area_size → info.area_size < 4294967296 →
        (Otap_init env w).2.otap.m_usable_memory_size =
          info.area_size - max info.flash.write_alignment 12) ∧
      newCalls w (Otap_init env w).2 = [Call.Otap_init, Call.mem_getAreaInfo] ∧
      (Otap_init env (Otap_init env w).2).1 = APP_RET_OK ∧
      (Otap_init env (Otap_init env w).2).2.otap = (Otap_init env w).2.otap ∧
      newCalls (Otap_init env w).2 (Otap_init env (Otap_init env w).2).2 = [Call.Otap_init]) ∧
    (w.otap.m_initialized = true →
      (Otap_init env w).1 = APP_RET_OK ∧
      (Otap_init env w).2.otap = w.otap ∧
      newCalls w (Otap_init env w).2 = [Call.Otap_init]) ∧
    (w.otap.m_initialized = false → env.area_info (w.trace.length + 1) = none →
      (Otap_init env w).1 = APP_PERSISTENT_RES_NO_AREA ∧
      (Otap_init env w).2.otap = w.otap ∧
      newCalls w (Otap_init env w).2 = [Call.Otap_init, Call.mem_getAreaInfo]) := by
  have again : ∀ v : World, v.otap.m_initialized = true →
      (Otap_init env v).1 = APP_RET_OK ∧ (Otap_init env v).2.otap = v.otap ∧
      newCalls v (Otap_init env v).2 = [Call.Otap_init] := by
    intro v hv
    simp [Otap_init, World.log, hv, newCalls]
  refine ⟨?_, again w, ?_⟩
  · intro info hi hq
    have hq2 : env.area_info ((w.log Call.Otap_init).trace.length) = some info := by
      simpa [World.log] using hq
    have hres : Otap_init env w = (APP_RET_OK,
        { (w.log Call.Otap_init).log Call.mem_getAreaInfo with otap :=
          { w.otap with
            m_memory_area := info
            m_header_size :=
              if info.flash.write_alignment > 12 then info.flash.write_alignment else 12
            m_usable_memory_size :=
              (info.area_size + 4294967296 -
                (if info.flash.write_alignment > 12 then info.flash.write_alignment else 12)) %
                4294967296
            m_initialized := true } }) := by
      unfold Otap_init
      simp only [World.log, hi, Bool.false_eq_true, if_false] at hq2 ⊢
      rw [hq2]
    have hmax : (if info.flash.write_alignment > 12 then info.flash.write_alignment else 12) =
        max info.flash.write_alignment 12 := by
      split <;> omega
    rw [hmax] at hres
    have hagain := again (Otap_init env w).2 (by rw [hres])
    refine ⟨by rw [hres], by rw [hres], by rw [hres], by rw [hres], ?_, ?_, hagain⟩
    · intro h1 h2
      rw [hres]
      show (info.area_size + 4294967296 - max info.flash.write_alignment 12) % 4294967296 = _
      omega
    · rw [hres]
      simp [newCalls, World.log]
  · intro hi hq
    have hq2 : env.area_info ((w.log Call.Otap_init).trace.length) = none := by
      simpa [World.log] using hq
    have hres : Otap_init env w =
        (APP_PERSISTENT_RES_NO_AREA, (w.log Call.Otap_init).log Call.mem_getAreaInfo) := by
      unfold Otap_init
      simp only [World.log, hi, Bool.false_eq_true, if_false] at hq2 ⊢
      rw [hq2]
    rw [hres]
    simp [newCalls, World.log]

/-- On the sample area (alignment 4, size 8192) the header has 12 bytes and
the usable capacity is 8180; the second call queries nothing. -/
theorem C20_init_idempotent_witness :
    (Otap_init sampleEnv sampleWorld).1 = APP_RET_OK ∧
    (Otap_init sampleEnv sampleWorld).2.otap.m_header_size = 12 ∧
    (Otap_init sampleEnv sampleWorld).2.otap.m_usable_memory_size = 8180 ∧
    newCalls (Otap_init sampleEnv sampleWorld).2
      (Otap_init sampleEnv (Otap_init sampleEnv sampleWorld).2).2 = [Call.Otap_init] :=
  have h := (C20_init_idempotent sampleEnv sampleWorld).1
    { area_size := 8192
      flash := { write_alignment := 4, erase_sector_size := 4096, byte_write_time := 10,
                 byte_write_call_time := 5, sector_erase_time := 1000 }
      external_flash := false } rfl rfl
  ⟨h.1, h.2.2.1, h.2.2.2.2.1 (by decide) (by decide), h.2.2.2.2.2.2.2.2⟩

/-! ### Outcome of the busy-wait loop and of `write` -/

theorem waitLoop_never (p : Nat) (E : Int) :
    ∀ (fuel now : Nat) (b : Bool) (n1 : Nat),
      waitLoop p none E fuel now = .ok (b, n1) → b = true := by
  intro fuel
  induction fuel with
  | zero => intro now b n1 h; simp [waitLoop] at h
  | succ f ih =>
    intro now b n1 h
    unfold waitLoop at h
    dsimp only at h
    split at h
    · exact ih _ _ _ h
    · simp only [Except.ok.injEq, Prod.mk.injEq] at h
      exact h.1.symm

theorem waitLoop_cleared (p t : Nat) (E : Int) :
    ∀ (fuel now : Nat) (b : Bool) (n1 : Nat),
      waitLoop p (some t) E fuel now = .ok (b, n1) →
      (b = false ↔ ∃ k, t ≤ now + k * p ∧ (k = 0 ∨ ((now + k * p : Nat) : Int) ≤ E)) := by
  intro fuel
  induction fuel with
  | zero => intro now b n1 h; simp [waitLoop] at h
  | succ f ih =>
    intro now b n1 h
    unfold waitLoop at h
    dsimp only at h
    by_cases hc : (decide (now < t) && !decide (E < ((now + p : Nat) : Int))) = true
    · rw [if_pos hc] at h
      have hi := ih _ _ _ h
      simp only [Bool.and_eq_true, decide_eq_true_eq, Bool.not_eq_true', decide_eq_false_iff_not,
        not_lt] at hc
      rw [hi]
      constructor
      · rintro ⟨k, hk, hk2⟩
        refine ⟨k + 1, ?_, Or.inr ?_⟩
        · rw [Nat.add_mul]; omega
        · rcases hk2 with h0 | h1
          · subst h0
            simp only [Nat.zero_add, Nat.one_mul]
            exact hc.2
          · rw [Nat.add_mul]
            have : now + p + k * p = now + (k * p + 1 * p) := by omega
            rw [← this]; exact h1
      · rintro ⟨k, hk, hk2⟩
        cases k with
        | zero => simp at hk; omega
        | succ j =>
          rw [Nat.add_mul] at hk hk2
          refine ⟨j, by omega, ?_⟩
          rcases hk2 with h0 | h1
          · omega
          · right
            have : now + p + j * p = now + (j * p + 1 * p) := by omega
            rw [this]; exact h1
    · rw [if_neg hc] at h
      simp only [Except.ok.injEq, Prod.mk.injEq] at h
      simp only [Bool.and_eq_true, decide_eq_true_eq, Bool.not_eq_true', decide_eq_false_iff_not,
        not_lt, not_and, not_le] at hc
      rw [← h.1]
      simp only [decide_eq_false_iff_not, not_lt]
      constructor
      · intro hle
        exact ⟨0, by omega, Or.inl rfl⟩
      · rintro ⟨k, hk, hk2⟩
        by_contra hlt
        have hlt2 : now < t := by omega
        have hE := hc hlt2
        rcases hk2 with h0 | h1
        · subst h0; omega
        · have hk1 : 1 ≤ k := by
            rcases Nat.eq_zero_or_pos k with h0 | h0
            · subst h0; omega
            · exact h0
          have : p ≤ k * p := Nat.le_mul_of_pos_left p hk1
          push_cast at hE h1
          have : (p : Int) ≤ (k : Int) * (p : Int) := by exact_mod_cast this
          omega

theorem active_wait_outcome (env : Env) (w w1 : World) (timeout_us : Int) (done : Bool)
    (h : Otap.active_wait_for_end_of_operation env w timeout_us = .ok (done, w1)) :
    (w.storage.busy_until = none → done = false) ∧
    (∀ d, w.storage.busy_until = some (w.storage.now + d) →
      (done = true ↔ ∃ k, d ≤ k * env.poll_time ∧
        (k = 0 ∨ ((k * env.poll_time : Nat) : Int) ≤ timeout_us))) := by
  unfold Otap.active_wait_for_end_of_operation at h
  dsimp only at h
  split at h
  · cases h
  · rename_i busy now1 hloop
    simp only [Except.ok.injEq, Prod.mk.injEq] at h
    constructor
    · intro hb
      rw [hb] at hloop
      have := waitLoop_never _ _ _ _ _ _ hloop
      rw [← h.1, this]; rfl
    · intro d hb
      rw [hb] at hloop
      have hi := waitLoop_cleared _ _ _ _ _ _ _ hloop
      have hd : done = true ↔ busy = false := by
        rw [← h.1]; cases busy <;> simp
      rw [hd, hi]
      constructor
      · rintro ⟨k, hk, hk2⟩
        refine ⟨k, by omega, ?_⟩
        rcases hk2 with h0 | h1
        · exact Or.inl h0
        · right; push_cast at h1 ⊢; omega
      · rintro ⟨k, hk, hk2⟩
        refine ⟨k, by omega, ?_⟩
        rcases hk2 with h0 | h1
        · exact Or.inl h0
        · right; push_cast at h1 ⊢; omega

theorem write_outcome (env : Env) (w : World) (dest : Nat) (src : List Nat) (amount : Nat)
    (hsrc : amount ≤ src.length) (hpoll : 1 ≤ env.poll_time) :
    ∃ done w1, Otap.write env w dest src amount = .ok (done, w1) ∧
      (done = true ↔ env.start_ok w.trace.length = true ∧
        clearsWithin env w.trace.length (writeTimeout w.otap.m_memory_area amount)) := by
  unfold Otap.write
  rw [if_neg (by omega)]
  dsimp only
  by_cases hs : env.start_ok w.trace.length = true
  · simp only [hs, Bool.not_true, Bool.false_eq_true, if_false, true_and]
    obtain ⟨done, w1, hw⟩ := active_wait_returns env
      { w.log (Call.mem_startWrite dest (src.take amount) amount) with storage :=
        { (w.log (Call.mem_startWrite dest (src.take amount) amount)).storage with
          mem := Otap.store (w.log (Call.mem_startWrite dest (src.take amount) amount)).storage.mem
            dest (src.take amount)
          busy_until := (env.op_time w.trace.length).map
            (fun d => (w.log (Call.mem_startWrite dest (src.take amount) amount)).storage.now + d) } }
      (toInt32 (((w.otap.m_memory_area.flash.byte_write_time +
           w.otap.m_memory_area.flash.byte_write_call_time) * amount) * 2)) hpoll
    refine ⟨done, w1, hw, ?_⟩
    have ho := active_wait_outcome _ _ _ _ _ hw
    unfold clearsWithin writeTimeout
    cases hop : env.op_time w.trace.length with
    | none =>
      have := ho.1 (by simp [hop])
      simp [this]
    | some d =>
      have := ho.2 d (by simp [hop, World.log])
      rw [this]
      constructor
      · rintro ⟨k, hk⟩
        exact ⟨d, k, rfl, hk⟩
      · rintro ⟨d1, k, hd, hk⟩
        simp only [Option.some.injEq] at hd
        subst hd
        exact ⟨k, hk⟩
  · have hs2 : env.start_ok w.trace.length = false := by simpa using hs
    simp only [hs2, Bool.not_false, if_true]
    exact ⟨false, _, rfl, by simp⟩

/-- C14: for `len` bytes behind `data` and a clock that advances,
`Otap_bufferWrite` returns (it does not hang).  It returns
`APP_PERSISTENT_RES_UNINITIALIZED` when the layer is not initialised and
`APP_PERSISTENT_RES_TOO_BIG` when `len` exceeds the usable capacity, both without
a driver call.  Otherwise exactly one driver write of `len` bytes of `data` is
issued at address `offset + m_header_size` (a 32-bit sum), and the result is
`APP_RET_OK` when the driver accepts the write and the busy flag is found
cleared before the timeout `(byte_write_time + byte_write_call_time) * len * 2`
has passed, and `APP_PERSISTENT_RES_FLASH_ERROR` when the driver refuses or the
flag does not clear in time. -/
theorem C14_bufferWrite_codes (env : Env) (w : World) (data : List Nat) (len offset : Nat)
    (hdata : len ≤ data.length) (hpoll : 1 ≤ env.poll_time) :
    ∃ r w1, Otap_bufferWrite env w data len offset = .ok (r, w1) ∧
      (w.otap.m_initialized = false →
        r = APP_PERSISTENT_RES_UNINITIALIZED ∧
        newCalls w w1 = [Call.Otap_bufferWrite len offset]) ∧
      (w.otap.m_initialized = true → len > w.otap.m_usable_memory_size →
        r = APP_PERSISTENT_RES_TOO_BIG ∧
        newCalls w w1 = [Call.Otap_bufferWrite len offset]) ∧
      (w.otap.m_initialized = true → len ≤ w.otap.m_usable_memory_size →
        newCalls w w1 =
          [Call.Otap_bufferWrite len offset,
           Call.mem_startWrite ((offset + w.otap.m_header_size) % 4294967296)
             (data.take len) len] ∧
        (r = APP_RET_OK ↔
          env.start_ok (w.trace.length + 1) = true ∧
          clearsWithin env (w.trace.length + 1) (writeTimeout w.otap.m_memory_area len)) ∧
        (r ≠ APP_RET_OK → r = APP_PERSISTENT_RES_FLASH_ERROR)) := by
  unfold Otap_bufferWrite
  dsimp only
  by_cases hi : w.otap.m_initialized = true
  · have hi0 : (w.log (Call.Otap_bufferWrite len offset)).otap.m_initialized = true := hi
    rw [hi0]
    simp only [Bool.not_true, Bool.false_eq_true, if_false]
    by_cases hbig : len > w.otap.m_usable_memory_size
    · have hbig0 : len > (w.log (Call.Otap_bufferWrite len offset)).otap.m_usable_memory_size :=
        hbig
      rw [if_pos hbig0]
      refine ⟨_, _, rfl, ?_, ?_, ?_⟩
      · intro hf; rw [hi] at hf; cases hf
      · intro _ _; exact ⟨rfl, by simp [newCalls, World.log]⟩
      · intro _ hle; omega
    · have hbig0 :
          ¬ len > (w.log (Call.Otap_bufferWrite len offset)).otap.m_usable_memory_size := hbig
      rw [if_neg hbig0]
      obtain ⟨done, w1, hw, hdone⟩ := write_outcome env (w.log (Call.Otap_bufferWrite len offset))
        ((offset + (w.log (Call.Otap_bufferWrite len offset)).otap.m_header_size) % 4294967296)
        data len hdata hpoll
      obtain ⟨st, hst⟩ := write_frame _ _ _ _ _ _ _ hw
      have hlen : (w.log (Call.Otap_bufferWrite len offset)).trace.length = w.trace.length + 1 := by
        simp [World.log]
      rw [hlen] at hdone
      have hcalls : newCalls w w1 =
          [Call.Otap_bufferWrite len offset,
           Call.mem_startWrite ((offset + w.otap.m_header_size) % 4294967296)
             (data.take len) len] := by
        rw [hst]; simp [newCalls, World.log]
      rw [hw]
      cases done with
      | false =>
        refine ⟨_, _, rfl, ?_, ?_, ?_⟩
        · intro hf; rw [hi] at hf; cases hf
        · intro _ hgt; omega
        · intro _ _
          refine ⟨hcalls, ?_, fun _ => rfl⟩
          constructor
          · intro h; cases h
          · intro h
            have := hdone.2 h
            cases this
      | true =>
        refine ⟨_, _, rfl, ?_, ?_, ?_⟩
        · intro hf; rw [hi] at hf; cases hf
        · intro _ hgt; omega
        · intro _ _
          refine ⟨hcalls, ?_, fun h => absurd rfl h⟩
          constructor
          · intro _; exact hdone.1 rfl
          · intro _; rfl
  · have hi2 : w.otap.m_initialized = false := by simpa using hi
    have hi0 : (w.log (Call.Otap_bufferWrite len offset)).otap.m_initialized = false := hi2
    rw [hi0]
    simp only [Bool.not_false, if_true]
    refine ⟨_, _, rfl, ?_, ?_, ?_⟩
    · intro _; exact ⟨rfl, by simp [newCalls, World.log]⟩
    · intro ht; rw [hi2] at ht; cases ht
    · intro ht; rw [hi2] at ht; cases ht

/-- At `sampleWorld` after `Otap_init`: 23 bytes at offset 46 are written by
one driver call at address 58 and the result is `APP_RET_OK`. -/
theorem C14_bufferWrite_codes_witness :
    ∃ w1, Otap_bufferWrite sampleEnv (Otap_init sampleEnv sampleWorld).2
        (List.replicate 23 7) 23 46 = .ok (APP_RET_OK, w1) ∧
      newCalls (Otap_init sampleEnv sampleWorld).2 w1 =
        [Call.Otap_bufferWrite 23 46, Call.mem_startWrite 58 (List.replicate 23 7) 23] :=
  match C14_bufferWrite_codes sampleEnv (Otap_init sampleEnv sampleWorld).2
      (List.replicate 23 7) 23 46 (by decide) (by decide) with
  | ⟨r, w1, h, _, _, h3⟩ =>
    have h4 := h3 rfl (by decide)
    have hr : r = APP_RET_OK := h4.2.1.2 ⟨rfl, 0, 0, rfl, by decide, Or.inl rfl⟩
    ⟨w1, by rw [h, hr], h4.1⟩

/-! ### The backlog -/

theorem firstEmptyItem_spec (items : List ble_tx_list_item_t) (k : Nat)
    (h : firstEmptyItem items = some k) :
    (items.getD k {}).status = ble_SLOT_EMPTY ∧
    ∀ j, j < k → (items.getD j {}).status ≠ ble_SLOT_EMPTY := by
  induction items generalizing k with
  | nil => simp [firstEmptyItem] at h
  | cons it rest ih =>
    unfold firstEmptyItem at h
    by_cases he : it.status = ble_SLOT_EMPTY
    · rw [if_pos he] at h
      simp only [Option.some.injEq] at h
      subst h
      exact ⟨he, fun j hj => absurd hj (Nat.not_lt_zero j)⟩
    · rw [if_neg he] at h
      cases hr : firstEmptyItem rest with
      | none => rw [hr] at h; simp at h
      | some m =>
        rw [hr] at h
        simp only [Option.map_some', Option.some.injEq] at h
        subst h
        obtain ⟨h1, h2⟩ := ih m hr
        refine ⟨by simpa using h1, ?_⟩
        intro j hj
        cases j with
        | zero => simpa using he
        | succ i => simpa using h2 i (by omega)

theorem firstEmptyItem_none_iff (items : List ble_tx_list_item_t) :
    firstEmptyItem items = none ↔ ∀ item ∈ items, item.status ≠ ble_SLOT_EMPTY := by
  induction items with
  | nil => simp [firstEmptyItem]
  | cons it rest ih =>
    unfold firstEmptyItem
    by_cases he : it.status = ble_SLOT_EMPTY
    · rw [if_pos he]
      simp [he]
    · rw [if_neg he]
      simp [he, ih]

/-- C16: `bleSendCmd` stores the frame in the lowest-indexed slot `k` whose
status is `ble_SLOT_EMPTY`: the status becomes `ble_SLOT_SEND`, length, qos flag
and message id are those of the call, the first `cmd_len` bytes of the payload
are those of the frame, no other slot changes, and `k` is appended to the tail
of the pending list.  If no slot is empty the context is unchanged.  In both
cases the value returned is `APP_RET_OK` (0) when the send task could be
scheduled (and `APP_RET_ERROR_INTERNAL` when not). -/
theorem C16_bleSendCmd_slot (context : Ble_context) (cmd : ble_adv_cmd_t) (cmd_len : Nat)
    (qos add_task_ok : Bool) :
    (∀ k, firstEmptyItem context.ble_tx_items = some k →
      k < context.ble_tx_items.length ∧
      (context.ble_tx_items.getD k {}).status = ble_SLOT_EMPTY ∧
      (∀ j, j < k → (context.ble_tx_items.getD j {}).status ≠ ble_SLOT_EMPTY) ∧
      (bleSendCmd_call context cmd cmd_len qos add_task_ok).2.ble_tx_items =
        context.ble_tx_items.set k
          { status := ble_SLOT_SEND
            payload_len := cmd_len
            qos := qos
            message_id := cmd_message_id cmd
            payload := getBufferFromCmd cmd (context.ble_tx_items.getD k {}).payload cmd_len } ∧
      (cmd_len ≤ cmd.length →
        (getBufferFromCmd cmd (context.ble_tx_items.getD k {}).payload cmd_len).take cmd_len =
          cmd.take cmd_len) ∧
      (bleSendCmd_call context cmd cmd_len qos add_task_ok).2.ble_tx_items_head_p =
        context.ble_tx_items_head_p ++ [k]) ∧
    ((∀ item ∈ context.ble_tx_items, item.status ≠ ble_SLOT_EMPTY) →
      (bleSendCmd_call context cmd cmd_len qos add_task_ok).2 = context) ∧
    ((∃ k, firstEmptyItem context.ble_tx_items = some k) ∨
      ∀ item ∈ context.ble_tx_items, item.status ≠ ble_SLOT_EMPTY) ∧
    (add_task_ok = true → (bleSendCmd_call context cmd cmd_len qos add_task_ok).1 = 0) ∧
    (add_task_ok = false →
      (bleSendCmd_call context cmd cmd_len qos add_task_ok).1 = APP_RET_ERROR_INTERNAL) := by
  have hsnd : (bleSendCmd_call context cmd cmd_len qos add_task_ok).2 =
      bleSendCmd context cmd cmd_len qos := by
    unfold bleSendCmd_call
    dsimp only
    split <;> rfl
  refine ⟨?_, ?_, ?_, ?_, ?_⟩
  · intro k hk
    obtain ⟨h1, h2⟩ := firstEmptyItem_spec _ _ hk
    refine ⟨firstEmptyItem_lt _ _ hk, h1, h2, ?_, ?_, ?_⟩
    · rw [hsnd]; unfold bleSendCmd; rw [hk]
    · intro hlen
      unfold getBufferFromCmd
      exact memcpy_take _ _ _ hlen
    · rw [hsnd]; unfold bleSendCmd; rw [hk]
  · intro hfull
    rw [hsnd]; unfold bleSendCmd
    rw [(firstEmptyItem_none_iff _).2 hfull]
  · cases hf : firstEmptyItem context.ble_tx_items with
    | none => exact Or.inr ((firstEmptyItem_none_iff _).1 hf)
    | some k => exact Or.inl ⟨k, rfl⟩
  · intro h; subst h; rfl
  · intro h; subst h; rfl

/-- With every slot in use nothing is stored and the call still returns
`APP_RET_OK`. -/
theorem C16_bleSendCmd_slot_witness :
    (bleSendCmd_call { ble_tx_items := [{ status := ble_SLOT_SEND }] } (mk_resend_req 1 2) 5 true
      true).2 = { ble_tx_items := [{ status := ble_SLOT_SEND }] } ∧
    (bleSendCmd_call { ble_tx_items := [{ status := ble_SLOT_SEND }] } (mk_resend_req 1 2) 5 true
      true).1 = 0 :=
  ⟨(C16_bleSendCmd_slot { ble_tx_items := [{ status := ble_SLOT_SEND }] } (mk_resend_req 1 2) 5
      true true).2.1 (by decide),
   (C16_bleSendCmd_slot { ble_tx_items := [{ status := ble_SLOT_SEND }] } (mk_resend_req 1 2) 5
      true true).2.2.2.1 rfl⟩

/-! ### The send task -/

theorem sendTask_hold (env : Env) (w : World) (i : Nat)
    (hs : w.sending_element = some i)
    (hq : (w.ble.ble_tx_items.getD i {}).qos = true)
    (hk : w.ble.keep_sending = (w.ble.ble_tx_items.getD i {}).message_id) :
    bleSendTask env w = .ok (500, w) := by
  have hheld : sendHeld w = true := by
    unfold sendHeld
    rw [hs]
    dsimp only
    rw [hq, ← hk]
    simp
  unfold bleSendTask
  rw [if_pos hheld]

/-- C17: when an element is in flight, its qos flag is set and
`keep_sending` equals its message id, `bleSendTask` returns 500 and leaves the
whole state as it is: the slot in flight keeps its status, the pending list is
not popped, and no call into the transmitter is made (the call trace is
unchanged). -/
theorem C17_head_of_line_hold (env : Env) (w : World) (i : Nat)
    (hs : w.sending_element = some i)
    (hq : (w.ble.ble_tx_items.getD i {}).qos = true)
    (hk : w.ble.keep_sending = (w.ble.ble_tx_items.getD i {}).message_id) :
    bleSendTask env w = .ok (500, w) :=
  sendTask_hold env w i hs hq hk

set_option maxRecDepth 100000 in
/-- In `holdWorld` the resend request in slot 2 is in flight and tracked: the
send task returns 500 and changes nothing. -/
theorem C17_head_of_line_hold_witness :
    bleSendTask sampleEnv holdWorld = .ok (500, holdWorld) :=
  C17_head_of_line_hold sampleEnv holdWorld 2 (by decide) (by decide) (by decide)

/-! ### A begin-upload request and the element in flight -/

theorem bleSendCmd_keeps (c : Ble_context) (cmd : ble_adv_cmd_t) (n : Nat) (q : Bool) (i : Nat)
    (h : (c.ble_tx_items.getD i {}).status ≠ ble_SLOT_EMPTY) :
    (bleSendCmd c cmd n q).ble_tx_items.getD i {} = c.ble_tx_items.getD i {} := by
  unfold bleSendCmd
  cases hf : firstEmptyItem c.ble_tx_items with
  | none => rfl
  | some k =>
    have hk := (firstEmptyItem_spec _ _ hf).1
    have hne : k ≠ i := by
      intro e; subst e; exact h hk
    simp [List.getD_eq_getElem?_getD, List.getElem?_set_ne hne]

theorem handleBeginUpload_keeps (env : Env) (w w1 : World) (cmd : ble_adv_cmd_t)
    (h : handleBeginUpload env w cmd = .ok w1) :
    w1.ble.keep_sending = w.ble.keep_sending ∧
    w1.sending_element = w.sending_element ∧
    ∀ i, (w.ble.ble_tx_items.getD i {}).status ≠ ble_SLOT_EMPTY →
      w1.ble.ble_tx_items.getD i {} = w.ble.ble_tx_items.getD i {} := by
  unfold handleBeginUpload at h
  by_cases hF : begin_upload_req_package_length cmd = 0
  · rw [if_pos hF] at h; cases h
  · rw [if_neg hF] at h
    dsimp only at h
    split at h
    · cases h
    · rename_i ret w3 hbb
      obtain ⟨st, t, hw3, _⟩ := Otap_bufferBegin_frame _ _ _ _ hbb
      simp only [Except.ok.injEq] at h
      have hble : w3.ble = { w.ble with otap := beginSession w.ble.otap cmd } := by
        rw [hw3, Otap_init_frame]
      have hse : w3.sending_element = w.sending_element := by
        rw [hw3, Otap_init_frame]
      rw [← h]
      refine ⟨?_, hse, ?_⟩
      · show (bleSendCmd _ _ _ _).keep_sending = _
        rw [(bleSendCmd_fields _ _ _ _).2.1]
        show w3.ble.keep_sending = _
        rw [hble]
      · intro i hi
        show (bleSendCmd _ _ _ _).ble_tx_items.getD i {} = _
        have hitems : (getNextMessageId w3.ble).2.ble_tx_items = w.ble.ble_tx_items := by
          show w3.ble.ble_tx_items = _
          rw [hble]
        rw [bleSendCmd_keeps _ _ _ _ i (by rw [hitems]; exact hi), hitems]

set_option maxRecDepth 100000 in
/-- C18 fails as stated.  In `holdWorld` the resend request in slot 2 is in
flight, tracked, and `keep_sending` equals its id 3.  A new begin-upload request
is accepted and handled (its response waits in slot 0), and the next run of
`bleSendTask` still returns 500: slot 2 keeps the status `ble_SLOT_SENDING`,
slot 0 is still pending, and the transmitter is not touched. -/
theorem C18_counterexample :
    (bleReceiveCb sampleEnv holdWorld (mkPacket (beginUploadFrame 9 0x5678 8 69 23))).isOk
      = true ∧
    holdWorldAfterBegin.accepted = holdWorld.accepted ++ [beginUploadFrame 9 0x5678 8 69 23] ∧
    holdWorldAfterBegin.ble.otap.scratchpad_seqeunce_number = 8 ∧
    holdWorldAfterBegin.ble.ble_tx_items_head_p = [0] ∧
    (bleSendTask sampleEnv holdWorldAfterBegin).toOption.map
      (fun r => (r.1, r.2.sending_element, (r.2.ble.ble_tx_items.getD 2 {}).status,
        r.2.ble.ble_tx_items_head_p, newCalls holdWorldAfterBegin r.2)) =
      some (500, some 2, ble_SLOT_SENDING, [0], []) := by
  decide

/-- C18 (amended): a begin-upload request does not clear a pending hold.
After `bleReceiveCb` has processed an accepted begin-upload request,
`keep_sending`, the element in flight and its slot are as before; so if that
element is tracked (qos flag set, `keep_sending` equal to its message id), the
next run of `bleSendTask` returns 500 and changes nothing: the slot is not
freed and the pending list, which holds the begin-upload response, does not
advance. -/
theorem C18_begin_upload_keeps_hold (env : Env) (w w0 w1 : World)
    (packet : app_lib_beacon_rx_received_t) (cmd_rx : ble_adv_cmd_t) (i : Nat)
    (hacc : receiveFilter w packet = .ok (w0, some cmd_rx))
    (hcmd : cmd_command cmd_rx = ble_ADV_CMD_OTAP_BEGIN_UPLOAD_REQUEST)
    (h : bleReceiveCb env w packet = .ok w1)
    (hs : w.sending_element = some i)
    (hst : (w.ble.ble_tx_items.getD i {}).status = ble_SLOT_SENDING)
    (hq : (w.ble.ble_tx_items.getD i {}).qos = true)
    (hk : w.ble.keep_sending = (w.ble.ble_tx_items.getD i {}).message_id) :
    w1.ble.keep_sending = w.ble.keep_sending ∧
    w1.sending_element = some i ∧
    w1.ble.ble_tx_items.getD i {} = w.ble.ble_tx_items.getD i {} ∧
    bleSendTask env w1 = .ok (500, w1) := by
  unfold bleReceiveCb at h
  rw [hacc] at h
  dsimp only at h
  unfold handleCmd at h
  have hne : cmd_command cmd_rx ≠ ble_ADV_CMD_SCAN_REQUEST := by
    rw [hcmd]; decide
  rw [if_neg hne, if_pos hcmd] at h
  have hw0 := receiveFilter_frame _ _ _ _ hacc
  have h0k : w0.ble.keep_sending = w.ble.keep_sending := by rw [hw0]
  have h0s : w0.sending_element = w.sending_element := by rw [hw0]
  have h0i : w0.ble.ble_tx_items = w.ble.ble_tx_items := by rw [hw0]
  obtain ⟨h1k, h1s, h1i⟩ := handleBeginUpload_keeps env w0 w1 cmd_rx h
  have hitem : w1.ble.ble_tx_items.getD i {} = w.ble.ble_tx_items.getD i {} := by
    rw [h1i i (by rw [h0i, hst]; decide), h0i]
  have hks : w1.ble.keep_sending = w.ble.keep_sending := by rw [h1k, h0k]
  have hse : w1.sending_element = some i := by rw [h1s, h0s, hs]
  refine ⟨hks, hse, hitem, ?_⟩
  exact sendTask_hold env w1 i hse (by rw [hitem]; exact hq) (by rw [hitem, hks]; exact hk)

set_option maxRecDepth 100000 in
/-- In `holdWorld`, a second begin-upload request leaves the send task
held. -/
theorem C18_begin_upload_keeps_hold_witness :
    bleSendTask sampleEnv holdWorldAfterBegin = .ok (500, holdWorldAfterBegin) :=
  (C18_begin_upload_keeps_hold sampleEnv holdWorld
    (filtered holdWorld (mkPacket (beginUploadFrame 9 0x5678 8 69 23))).1
    holdWorldAfterBegin
    (mkPacket (beginUploadFrame 9 0x5678 8 69 23))
    ((filtered holdWorld (mkPacket (beginUploadFrame 9 0x5678 8 69 23))).2.getD [])
    2 (receiveFilter_eq _ _ (by decide)) (by decide) (eq_ok_okOr _ _ (by decide))
    (by decide) (by decide) (by decide) (by decide)).2.2.2

/-! ### Scanning is for sinks -/

theorem Sm_fireEvent_fields (sm : Sm_context) (e : sm_event_e) :
    (Sm_fireEvent sm e).event_matrix = sm.event_matrix ∧
    (Sm_fireEvent sm e).current_state = sm.current_state ∧
    (Sm_fireEvent sm e).exit_action = sm.exit_action := by
  unfold Sm_fireEvent
  split <;> exact ⟨rfl, rfl, rfl⟩

theorem nonSink_createStatic (app_settings : app_settings_t) (storage : Storage)
    (h : app_settings.is_sink = 0) : NonSinkInv (Ble_createStatic app_settings storage) := by
  refine ⟨h, rfl, Or.inl rfl, rfl, ?_⟩
  show ¬ Call.beacon_rx_startScanner ∈ ([] : List Call)
  exact List.not_mem_nil _

theorem initializeBle_fields (env : Env) (w : World) :
    (initializeBle env w).app_settings = w.app_settings ∧
    (scannerStarted (initializeBle env w) ↔ scannerStarted w) := by
  unfold initializeBle
  split
  · exact ⟨rfl, Iff.rfl⟩
  · simp [scannerStarted, World.log]

theorem nonSink_handle (env : Env) (sm : Sm_context) (w : World)
    (hm : sm.event_matrix = ble_event_matrix)
    (hst : sm.current_state = sm_S_BOOT ∨ sm.current_state = sm_S_IDLE)
    (hex : sm.exit_action = none) (hguard : isSink w = false) :
    (Sm_handleEvents (ble_code env) sm w).sm.event_matrix = ble_event_matrix ∧
    ((Sm_handleEvents (ble_code env) sm w).sm.current_state = sm_S_BOOT ∨
      (Sm_handleEvents (ble_code env) sm w).sm.current_state = sm_S_IDLE) ∧
    (Sm_handleEvents (ble_code env) sm w).sm.exit_action = none ∧
    ((Sm_handleEvents (ble_code env) sm w).world = w ∨
      (Sm_handleEvents (ble_code env) sm w).world = initializeBle env w) := by
  obtain ⟨cs, q, hd, m, ex⟩ := sm
  simp only at hm hst hex
  subst hm hex
  unfold Sm_handleEvents
  cases hd with
  | nil => exact ⟨rfl, hst, rfl, Or.inl rfl⟩
  | cons slot rest =>
    dsimp only
    generalize q.getD slot sm_E_NONE = e
    rcases hst with hb | hi
    · subst hb
      cases e <;>
        simp [findTransition, rowMatches, ble_event_matrix, takeTransition, callIfSet, ble_code,
          hguard]
    · subst hi
      cases e <;>
        simp [findTransition, rowMatches, ble_event_matrix, takeTransition, callIfSet, ble_code,
          hguard]

theorem nonSink_dispatch (env : Env) (w : World) (h : NonSinkInv w) :
    NonSinkInv (Ble_handleEvents env w) := by
  obtain ⟨hsink, hm, hst, hex, hsc⟩ := h
  have hguard : isSink w = false := by simp [isSink, hsink]
  obtain ⟨h1, h2, h3, h4⟩ := nonSink_handle env w.sm w hm hst hex hguard
  unfold Ble_handleEvents
  refine ⟨?_, h1, h2, h3, ?_⟩
  · show (Sm_handleEvents (ble_code env) w.sm w).world.app_settings.is_sink = 0
    rcases h4 with h4 | h4
    · rw [h4]; exact hsink
    · rw [h4, (initializeBle_fields env w).1]; exact hsink
  · show ¬ scannerStarted { (Sm_handleEvents (ble_code env) w.sm w).world with
      sm := (Sm_handleEvents (ble_code env) w.sm w).sm }
    have : ∀ v : World, v.trace = (Sm_handleEvents (ble_code env) w.sm w).world.trace →
        ¬ scannerStarted (Sm_handleEvents (ble_code env) w.sm w).world → ¬ scannerStarted v := by
      intro v hv hn
      unfold scannerStarted at hn ⊢
      rw [hv]; exact hn
    apply this _ rfl
    rcases h4 with h4 | h4
    · rw [h4]; exact hsc
    · rw [h4]; exact fun hc => hsc ((initializeBle_fields env w).2.1 hc)

theorem nonSink_run (env : Env) (ops : List Ble_op) :
    ∀ w, NonSinkInv w → NonSinkInv (Ble_run env w ops) := by
  induction ops with
  | nil => intro w h; exact h
  | cons op rest ih =>
    intro w h
    show NonSinkInv (Ble_run env (Ble_step env w op) rest)
    apply ih
    cases op with
    | fire e =>
      obtain ⟨hsink, hm, hst, hex, hsc⟩ := h
      have hf := Sm_fireEvent_fields w.sm e
      refine ⟨hsink, ?_, ?_, ?_, hsc⟩
      · show (Sm_fireEvent w.sm e).event_matrix = _
        rw [hf.1, hm]
      · show (Sm_fireEvent w.sm e).current_state = _ ∨ (Sm_fireEvent w.sm e).current_state = _
        rw [hf.2.1]; exact hst
      · show (Sm_fireEvent w.sm e).exit_action = _
        rw [hf.2.2, hex]
    | dispatch => exact nonSink_dispatch env w h

/-- C19: for a node whose settings have `is_sink = 0`, after any sequence of
events fired at the BLE state machine and runs of its dispatch task from
boot, `startScanner` (the first statement of `scanningStart`) was never called
and the machine is not in `ble_S_SCANNING`; for a node with `is_sink = 1`, firing
and dispatching `sm_E_INIT` and then `ble_E_SCANNING_START` from boot ends in
`ble_S_SCANNING` with the scanner started. -/
theorem C19_non_sink_never_scans (env : Env) (app_settings : app_settings_t)
    (storage : Storage) :
    (app_settings.is_sink = 0 → ∀ ops : List Ble_op,
      ¬ scannerStarted (Ble_run env (Ble_createStatic app_settings storage) ops) ∧
      (Ble_run env (Ble_createStatic app_settings storage) ops).sm.current_state ≠
        ble_S_SCANNING) ∧
    (app_settings.is_sink = 1 →
      (Ble_run env (Ble_createStatic app_settings storage)
        [.fire sm_E_INIT, .dispatch, .fire ble_E_SCANNING_START, .dispatch]).sm.current_state =
        ble_S_SCANNING ∧
      (Ble_run env (Ble_createStatic app_settings storage)
        [.fire sm_E_INIT, .dispatch, .fire ble_E_SCANNING_START, .dispatch]).trace =
        [Call.beacon_rx_setBeaconReceivedCb, Call.beacon_rx_startScanner] ∧
      (Ble_run env (Ble_createStatic app_settings storage)
        [.fire sm_E_INIT, .fire ble_E_SCANNING_START, .dispatch, .dispatch]).sm.current_state =
        ble_S_SCANNING ∧
      (Ble_run env (Ble_createStatic app_settings storage)
        [.fire sm_E_INIT, .fire ble_E_SCANNING_START, .dispatch, .dispatch]).trace =
        [Call.beacon_rx_setBeaconReceivedCb, Call.beacon_rx_startScanner]) := by
  constructor
  · intro h ops
    obtain ⟨_, _, hst, _, hsc⟩ := nonSink_run env ops _ (nonSink_createStatic app_settings storage h)
    refine ⟨hsc, ?_⟩
    rcases hst with hb | hi
    · rw [hb]; decide
    · rw [hi]; decide
  · intro h
    obtain ⟨m, a, na, nc, d, s, sa⟩ := app_settings
    simp only at h
    subst h
    refine ⟨rfl, rfl, rfl, rfl⟩

/-- A node that is no sink does not scan, whatever is fired; the sample sink
scans after the two events. -/
theorem C19_non_sink_never_scans_witness :
    ¬ scannerStarted (Ble_run sampleEnv (Ble_createStatic {} {})
      [.fire sm_E_INIT, .dispatch, .fire ble_E_SCANNING_START, .dispatch]) ∧
    (Ble_run sampleEnv sampleWorld
      [.fire sm_E_INIT, .dispatch, .fire ble_E_SCANNING_START, .dispatch]).sm.current_state =
      ble_S_SCANNING :=
  ⟨((C19_non_sink_never_scans sampleEnv {} {}).1 rfl _).1,
   ((C19_non_sink_never_scans sampleEnv { is_sink := 1 }
      { mem := List.replicate 8192 0xFF }).2 rfl).1⟩

/-! ### Reading the header back -/

theorem read_spec (env : Env) (w : World) (buf : List Nat) (src amount : Nat)
    (hb : amount ≤ buf.length) (hpoll : 1 ≤ env.poll_time) :
    ∃ done buf1 st,
      Otap.read env w buf src amount = .ok (done, buf1,
        { w with storage := st, trace := w.trace ++ [Call.mem_startRead src amount] }) ∧
      st.mem = w.storage.mem ∧
      (env.start_ok w.trace.length = true → src + amount ≤ w.storage.mem.length →
        buf1 = memcpy buf ((w.storage.mem.drop src).take amount) amount) ∧
      (env.start_ok w.trace.length = false → buf1 = buf ∧ done = false) := by
  unfold Otap.read
  rw [if_neg (by omega)]
  dsimp only
  by_cases hs : env.start_ok w.trace.length = true
  · simp only [hs, Bool.not_true, Bool.false_eq_true, if_false]
    obtain ⟨done, w3, hw⟩ := active_wait_returns env
      { w.log (Call.mem_startRead src amount) with storage :=
        { (w.log (Call.mem_startRead src amount)).storage with
          busy_until := (env.op_time w.trace.length).map
            (fun d => (w.log (Call.mem_startRead src amount)).storage.now + d) } }
      (if w.otap.m_memory_area.external_flash then 100000 else 0) hpoll
    obtain ⟨now1, hn⟩ := active_wait_frame _ _ _ _ _ hw
    rw [hw]
    refine ⟨done,
      (match Otap.load (w.log (Call.mem_startRead src amount)).storage.mem src amount with
        | some bytes => memcpy buf bytes amount
        | none => buf), w3.storage, ?_, ?_, ?_, ?_⟩
    · dsimp only
      rw [hn]
      rfl
    · rw [hn]; rfl
    · intro _ hr
      have hl : Otap.load (w.log (Call.mem_startRead src amount)).storage.mem src amount =
          some ((w.storage.mem.drop src).take amount) := by
        unfold Otap.load
        exact if_pos hr
      rw [hl]
    · intro hf; cases hf
  · have hs2 : env.start_ok w.trace.length = false := by simpa using hs
    simp only [hs2, Bool.not_false, if_true]
    refine ⟨false, buf, w.storage, rfl, rfl, ?_, ?_⟩
    · intro h; cases h
    · intro _; exact ⟨rfl, rfl⟩

/-- The world `processHeader` leaves when it ends before the stack state is
asked for. -/
theorem processHeader_spec (env : Env) (w : World)
    (hinit : w.otap.m_initialized = true)
    (hbuf : w.otap.m_header_size ≤ w.otap.m_buffer_block_write.length)
    (hpoll : 1 ≤ env.poll_time) :
    ∃ hdr st,
      st.mem = w.storage.mem ∧
      (env.start_ok (w.trace.length + 1) = true →
        w.otap.m_header_size ≤ w.storage.mem.length →
        hdr = memcpy w.otap.m_buffer_block_write (w.storage.mem.take w.otap.m_header_size)
          w.otap.m_header_size) ∧
      (env.start_ok (w.trace.length + 1) = false → hdr = w.otap.m_buffer_block_write) ∧
      Otap.processHeader env w =
        (if hdr.take 4 ≠ u32 OTAP_MAGIC ∨ rd32 hdr 4 % 4 ≠ 0 ∨ rd32 hdr 4 < 96 then
          .ok (some minus_one,
            { w with
              storage := st
              otap := { w.otap with m_buffer_block_write := hdr }
              trace := w.trace ++ [Call.Otap_process, Call.mem_startRead 0 w.otap.m_header_size] })
        else if env.stack_started (w.trace.length + 2) = true then
          .ok (some minus_one,
            { w with
              storage := st
              otap := { w.otap with m_buffer_block_write := hdr }
              trace := w.trace ++ [Call.Otap_process, Call.mem_startRead 0 w.otap.m_header_size,
                Call.state_getStackState] })
        else
          .ok (if env.otap_begin_ok (w.trace.length + 3) = true then none
               else some APP_PERSISTENT_RES_FLASH_ERROR,
            { w with
              storage := st
              otap := { w.otap with m_buffer_block_write := hdr }
              trace := w.trace ++ [Call.Otap_process, Call.mem_startRead 0 w.otap.m_header_size,
                Call.state_getStackState,
                Call.otap_begin (rd32 hdr 4) (hdr.getD 8 0)] })) := by
  obtain ⟨done, hdr, st, hread, hmem, hacc, hrej⟩ := read_spec env (w.log Call.Otap_process)
    w.otap.m_buffer_block_write 0 w.otap.m_header_size hbuf hpoll
  have hlen : (w.log Call.Otap_process).trace.length = w.trace.length + 1 := by
    simp [World.log]
  rw [hlen] at hacc hrej
  refine ⟨hdr, st, hmem, ?_, fun h => (hrej h).1, ?_⟩
  · intro h1 h2
    have := hacc h1 (by simpa [World.log] using h2)
    simpa [World.log] using this
  · unfold Otap.processHeader
    have hi0 : (w.log Call.Otap_process).otap.m_initialized = true := hinit
    dsimp only
    rw [hi0]
    simp only [Bool.not_true, Bool.false_eq_true, if_false]
    have hread2 : Otap.read env (w.log Call.Otap_process)
        (w.log Call.Otap_process).otap.m_buffer_block_write 0
        (w.log Call.Otap_process).otap.m_header_size = _ := hread
    rw [hread2]
    dsimp only
    simp only [World.log, List.length_append, List.length_singleton, List.append_assoc,
      List.singleton_append]
    by_cases hmagic : hdr.take 4 = u32 OTAP_MAGIC
    · by_cases h4 : rd32 hdr 4 % 4 = 0
      · by_cases h96 : rd32 hdr 4 < 96
        · simp [hmagic, h4, h96]
        · by_cases hst : env.stack_started (w.trace.length + 2) = true
          · have hst1 : env.stack_started (w.trace.length + 1 + 1) = true := hst
            simp [hmagic, h4, h96, hst, hst1]
          · have hst2 : env.stack_started (w.trace.length + 2) = false := by simpa using hst
            have hst1 : env.stack_started (w.trace.length + 1 + 1) = false := hst2
            by_cases hbe : env.otap_begin_ok (w.trace.length + 3) = true
            · have hbe1 : env.otap_begin_ok (w.trace.length + 1 + 1 + 1) = true := hbe
              simp [hmagic, h4, h96, hst2, hst1, hbe, hbe1]
            · have hbe2 : env.otap_begin_ok (w.trace.length + 3) = false := by simpa using hbe
              have hbe1 : env.otap_begin_ok (w.trace.length + 1 + 1 + 1) = false := hbe2
              simp [hmagic, h4, h96, hst2, hst1, hbe2, hbe1]
      · simp [hmagic, h4]
    · simp [hmagic]

theorem header_fields (b : List Nat) (L s : Nat) (hL : L < 4294967296)
    (h : b.take 9 = u32 OTAP_MAGIC ++ u32 L ++ [s]) :
    b.take 4 = u32 OTAP_MAGIC ∧ rd32 b 4 = L ∧ b.getD 8 0 = s := by
  have hb : b = (u32 OTAP_MAGIC ++ u32 L ++ [s]) ++ b.drop 9 := by
    rw [← h, List.take_append_drop]
  generalize b.drop 9 = rest at hb
  subst hb
  refine ⟨?_, ?_, ?_⟩
  · simp [u32]
  · simp [rd32, u32]
    omega
  · simp [u32]

theorem take_of_take_eq (a b : List Nat) (n m : Nat) (hnm : n ≤ m) (h : a.take m = b.take m) :
    a.take n = b.take n := by
  have h1 : a.take n = (a.take m).take n := by rw [List.take_take, Nat.min_eq_left hnm]
  have h2 : b.take n = (b.take m).take n := by rw [List.take_take, Nat.min_eq_left hnm]
  rw [h1, h2, h]

theorem memcpy_header (buf mem : List Nat) (n : Nat) (hn : n ≤ mem.length) :
    (memcpy buf (mem.take n) n).take n = mem.take n := by
  rw [memcpy_take _ _ _ (by simp [hn])]
  simp

theorem processHeader_outcome (env : Env) (w : World)
    (hinit : w.otap.m_initialized = true)
    (hbuf : w.otap.m_header_size ≤ w.otap.m_buffer_block_write.length)
    (hpoll : 1 ≤ env.poll_time) :
    ∃ x w1, Otap.processHeader env w = .ok (x, w1) ∧
      (env.start_ok (w.trace.length + 1) = true → 9 ≤ w.otap.m_header_size →
        w.otap.m_header_size ≤ w.storage.mem.length →
        w1.otap.m_buffer_block_write.take 9 = w.storage.mem.take 9) ∧
      ((w1.otap.m_buffer_block_write.take 4 ≠ u32 OTAP_MAGIC ∨
          rd32 w1.otap.m_buffer_block_write 4 = 0 ∨
          rd32 w1.otap.m_buffer_block_write 4 < 96 ∨
          rd32 w1.otap.m_buffer_block_write 4 % 4 ≠ 0 ∨
          env.stack_started (w.trace.length + 2) = true) →
        Otap_process env w = .ok (minus_one, w1) ∧ pipelineCalls (newCalls w w1) = []) ∧
      (w1.otap.m_buffer_block_write.take 4 = u32 OTAP_MAGIC →
        96 ≤ rd32 w1.otap.m_buffer_block_write 4 →
        rd32 w1.otap.m_buffer_block_write 4 % 4 = 0 →
        env.stack_started (w.trace.length + 2) = false →
        pipelineCalls (newCalls w w1) =
          [Call.otap_begin (rd32 w1.otap.m_buffer_block_write 4)
            (w1.otap.m_buffer_block_write.getD 8 0)]) := by
  obtain ⟨hdr, st, _, hacc, _, hph⟩ := processHeader_spec env w hinit hbuf hpoll
  have hlink : env.start_ok (w.trace.length + 1) = true → 9 ≤ w.otap.m_header_size →
      w.otap.m_header_size ≤ w.storage.mem.length → hdr.take 9 = w.storage.mem.take 9 := by
    intro h1 h2 h3
    rw [hacc h1 h3]
    exact take_of_take_eq _ _ 9 _ h2 (memcpy_header _ _ _ h3)
  have hproc : ∀ w1, Otap.processHeader env w = .ok (some minus_one, w1) →
      Otap_process env w = .ok (minus_one, w1) := by
    intro w1 h
    unfold Otap_process
    rw [h]
  by_cases hbad : hdr.take 4 ≠ u32 OTAP_MAGIC ∨ rd32 hdr 4 % 4 ≠ 0 ∨ rd32 hdr 4 < 96
  · rw [if_pos hbad] at hph
    refine ⟨_, _, hph, hlink, ?_, ?_⟩
    · intro _
      exact ⟨hproc _ hph, by simp [pipelineCalls, newCalls, Call.isPipeline]⟩
    · intro h1 h2 h3 _
      exfalso
      rcases hbad with hb | hb | hb
      · exact hb h1
      · exact hb h3
      · exact absurd h2 (by dsimp only; omega)
  · rw [if_neg hbad] at hph
    by_cases hst : env.stack_started (w.trace.length + 2) = true
    · rw [if_pos hst] at hph
      refine ⟨_, _, hph, hlink, ?_, ?_⟩
      · intro _
        exact ⟨hproc _ hph, by simp [pipelineCalls, newCalls, Call.isPipeline]⟩
      · intro _ _ _ h4
        rw [hst] at h4; cases h4
    · rw [if_neg hst] at hph
      refine ⟨_, _, hph, hlink, ?_, ?_⟩
      · intro hor
        exfalso
        dsimp only at hor
        rcases hor with hb | hb | hb | hb | hb
        · exact hbad (Or.inl hb)
        · exact hbad (Or.inr (Or.inr (by omega)))
        · exact hbad (Or.inr (Or.inr hb))
        · exact hbad (Or.inr (Or.inl hb))
        · exact hst hb
      · intro _ _ _ _
        simp [pipelineCalls, newCalls, Call.isPipeline]

theorem sample_init_mem :
    (Otap_init sampleEnv sampleWorld).2.storage.mem = List.replicate 8192 0xFF := rfl

/-- C15: on an initialised layer whose header fits `m_buffer_block_write`,
with a clock that advances, the first part of `Otap_process` returns.  The
header it validates is the one the read left in `m_buffer_block_write`: the
stored header whenever the driver accepts the read.  When its magic differs
from `OTAP_MAGIC`, or its length is zero, below 96 or no multiple of 4, or the
stack state is `APP_LIB_STATE_STARTED`, `Otap_process` returns `-1` and has
called none of `begin`, `write`, `setTargetScratchpadAndAction` and
`setToBeProcessed`; when all checks pass, the only call into the pipeline so
far is `begin` with exactly the length and the sequence number of the
header. -/
theorem C15_process_validation (env : Env) (w : World)
    (hinit : w.otap.m_initialized = true)
    (hbuf : w.otap.m_header_size ≤ w.otap.m_buffer_block_write.length)
    (hpoll : 1 ≤ env.poll_time) :
    ∃ x w1, Otap.processHeader env w = .ok (x, w1) ∧
      (env.start_ok (w.trace.length + 1) = true → 9 ≤ w.otap.m_header_size →
        w.otap.m_header_size ≤ w.storage.mem.length →
        w1.otap.m_buffer_block_write.take 9 = w.storage.mem.take 9) ∧
      ((w1.otap.m_buffer_block_write.take 4 ≠ u32 OTAP_MAGIC ∨
          rd32 w1.otap.m_buffer_block_write 4 = 0 ∨
          rd32 w1.otap.m_buffer_block_write 4 < 96 ∨
          rd32 w1.otap.m_buffer_block_write 4 % 4 ≠ 0 ∨
          env.stack_started (w.trace.length + 2) = true) →
        Otap_process env w = .ok (minus_one, w1) ∧ pipelineCalls (newCalls w w1) = []) ∧
      (w1.otap.m_buffer_block_write.take 4 = u32 OTAP_MAGIC →
        96 ≤ rd32 w1.otap.m_buffer_block_write 4 →
        rd32 w1.otap.m_buffer_block_write 4 % 4 = 0 →
        env.stack_started (w.trace.length + 2) = false →
        pipelineCalls (newCalls w w1) =
          [Call.otap_begin (rd32 w1.otap.m_buffer_block_write 4)
            (w1.otap.m_buffer_block_write.getD 8 0)]) :=
  processHeader_outcome env w hinit hbuf hpoll

theorem sample_init_block :
    (Otap_init sampleEnv sampleWorld).2.otap.m_buffer_block_write = List.replicate 512 0 := rfl

theorem sample_init_header : (Otap_init sampleEnv sampleWorld).2.otap.m_header_size = 12 := rfl

/-- On the erased sample area the magic is not found: `Otap_process` returns
`-1` and the pipeline is not called. -/
theorem C15_process_validation_witness :
    ∃ w1, Otap_process sampleEnv (Otap_init sampleEnv sampleWorld).2 = .ok (minus_one, w1) ∧
      pipelineCalls (newCalls (Otap_init sampleEnv sampleWorld).2 w1) = [] :=
  match C15_process_validation sampleEnv (Otap_init sampleEnv sampleWorld).2 rfl
      (by rw [sample_init_header, sample_init_block, List.length_replicate]; decide)
      (by decide) with
  | ⟨_, w1, _, hlink, hrej, _⟩ =>
    ⟨w1, hrej (Or.inl (by
      rw [take_of_take_eq _ _ 4 9 (by decide)
        (hlink rfl (by rw [sample_init_header]; decide)
          (by rw [sample_init_header, sample_init_mem, List.length_replicate]; decide)),
        sample_init_mem]
      decide))⟩

/-! ### The header written by `Otap_bufferEnd` is the one `Otap_process` finds -/

theorem write_true_mem (env : Env) (w w1 : World) (dest : Nat) (src : List Nat) (amount : Nat)
    (h : Otap.write env w dest src amount = .ok (true, w1)) :
    amount ≤ src.length ∧ w1.storage.mem = Otap.store w.storage.mem dest (src.take amount) := by
  unfold Otap.write at h
  by_cases hlen : src.length < amount
  · rw [if_pos hlen] at h; cases h
  · rw [if_neg hlen] at h
    dsimp only at h
    refine ⟨by omega, ?_⟩
    by_cases hs : env.start_ok w.trace.length = true
    · simp only [hs, Bool.not_true, Bool.false_eq_true, if_false] at h
      obtain ⟨now1, hn⟩ := active_wait_frame _ _ _ _ _ h
      rw [hn]
      rfl
    · have hs2 : env.start_ok w.trace.length = false := by simpa using hs
      simp [hs2] at h

theorem bufferEnd_ok_mem (env : Env) (w w1 : World) (L s : Nat)
    (h : Otap_bufferEnd env w L s = .ok (APP_RET_OK, w1)) :
    w.otap.m_header_size ≤ (headerBlock w.otap.m_buffer_block_write L s).length ∧
    w1.storage.mem = Otap.store w.storage.mem 0
      ((headerBlock w.otap.m_buffer_block_write L s).take w.otap.m_header_size) ∧
    w1.otap.m_header_size = w.otap.m_header_size := by
  obtain ⟨st, hst⟩ := Otap_bufferEnd_frame _ _ _ _ _ _ h
  unfold Otap_bufferEnd at h
  dsimp only at h
  split at h
  · cases h
  · simp at h
  · rename_i w2 hw
    simp only [Except.ok.injEq, Prod.mk.injEq, true_and] at h
    obtain ⟨h1, h2⟩ := write_true_mem _ _ _ _ _ _ hw
    refine ⟨h1, ?_, by rw [hst]⟩
    rw [← h, h2]
    rfl

theorem Otap_init_fresh (env : Env) (w : World) (hf : w.otap.m_initialized = false)
    (h : (Otap_init env w).1 = APP_RET_OK) :
    (Otap_init env w).2.otap.m_initialized = true ∧
    12 ≤ (Otap_init env w).2.otap.m_header_size := by
  unfold Otap_init at h ⊢
  simp only [World.log, hf, Bool.false_eq_true, if_false] at h ⊢
  split at h
  · cases h
  · refine ⟨rfl, ?_⟩
    dsimp only
    split <;> omega

theorem headerBlock_take (block : List Nat) (L s : Nat) :
    (headerBlock block L s).take 9 = u32 OTAP_MAGIC ++ u32 L ++ [s % 256] := by
  unfold headerBlock
  rw [memcpy_take _ _ _ (by simp [u32])]
  simp [u32]

theorem store_header (mem data : List Nat) (hfit : data.length ≤ mem.length) :
    (Otap.store mem 0 data).take data.length = data ∧
    (Otap.store mem 0 data).length = mem.length := by
  unfold Otap.store
  rw [if_pos (by omega)]
  simp
  omega

/-- C11: let the file scope variables be those left by a successful
`Otap_init` on a fresh layer, let the header fit the area, and let
`Otap_bufferEnd L s` return `APP_RET_OK` (`L` a 32-bit value, `s` a byte).  Then the
storage holds the magic at offset 0, `L` at offset 4 and `s` at offset 8, and
in every later state with the same stored bytes and the same header size,
whatever `m_buffer_block_write` holds, the first part of `Otap_process`, when
the driver accepts its read, returns having found the magic, the length `L` and
the sequence number `s` in the header; if moreover `L` is a multiple of 4 and
at least 96 and the stack is not started, it has called the pipeline exactly
once, with `begin L s`. -/
theorem C11_header_round_trip (env env2 : Env) (w w0 w1 w2 : World) (L s : Nat)
    (hL : L < 4294967296) (hs : s < 256)
    (hfresh : w.otap.m_initialized = false)
    (hinit : (Otap_init env w).1 = APP_RET_OK)
    (hotap : w0.otap = (Otap_init env w).2.otap)
    (harea : w0.otap.m_header_size ≤ w0.storage.mem.length)
    (hend : Otap_bufferEnd env w0 L s = .ok (APP_RET_OK, w1))
    (hmem : w2.storage.mem = w1.storage.mem)
    (hready : w2.otap.m_initialized = true)
    (hsize : w2.otap.m_header_size = w1.otap.m_header_size)
    (hbuf : w2.otap.m_header_size ≤ w2.otap.m_buffer_block_write.length)
    (hread : env2.start_ok (w2.trace.length + 1) = true)
    (hpoll : 1 ≤ env2.poll_time) :
    w1.storage.mem.take 9 = u32 OTAP_MAGIC ++ u32 L ++ [s] ∧
    ∃ x w3, Otap.processHeader env2 w2 = .ok (x, w3) ∧
      w3.otap.m_buffer_block_write.take 4 = u32 OTAP_MAGIC ∧
      rd32 w3.otap.m_buffer_block_write 4 = L ∧
      w3.otap.m_buffer_block_write.getD 8 0 = s ∧
      (L % 4 = 0 → 96 ≤ L → env2.stack_started (w2.trace.length + 2) = false →
        pipelineCalls (newCalls w2 w3) = [Call.otap_begin L s]) := by
  obtain ⟨_, h12⟩ := Otap_init_fresh env w hfresh hinit
  rw [← hotap] at h12
  obtain ⟨hfit, hstore, hsz⟩ := bufferEnd_ok_mem env w0 w1 L s hend
  have hdl : ((headerBlock w0.otap.m_buffer_block_write L s).take w0.otap.m_header_size).length =
      w0.otap.m_header_size := by
    rw [List.length_take]; omega
  obtain ⟨ht, hl⟩ := store_header w0.storage.mem
    ((headerBlock w0.otap.m_buffer_block_write L s).take w0.otap.m_header_size)
    (by rw [hdl]; exact harea)
  rw [hdl, ← hstore] at ht
  rw [← hstore] at hl
  have hm9 : w1.storage.mem.take 9 = u32 OTAP_MAGIC ++ u32 L ++ [s] := by
    have h1 := take_of_take_eq _ _ 9 _ (by omega : 9 ≤ w0.otap.m_header_size)
      (ht.trans (List.take_take _ _ _ ▸ (by simp) :
        (headerBlock w0.otap.m_buffer_block_write L s).take w0.otap.m_header_size =
        ((headerBlock w0.otap.m_buffer_block_write L s).take w0.otap.m_header_size).take
          w0.otap.m_header_size))
    have h2 := take_of_take_eq
      ((headerBlock w0.otap.m_buffer_block_write L s).take w0.otap.m_header_size)
      (headerBlock w0.otap.m_buffer_block_write L s) 9 w0.otap.m_header_size (by omega)
      (by simp)
    rw [h1, h2, headerBlock_take, Nat.mod_eq_of_lt hs]
  obtain ⟨x, w3, hph, hlink, _, hpass⟩ := processHeader_outcome env2 w2 hready hbuf hpoll
  have h9 := hlink hread (by rw [hsize, hsz]; omega) (by rw [hsize, hsz, hmem, hl]; exact harea)
  rw [hmem, hm9] at h9
  obtain ⟨f1, f2, f3⟩ := header_fields _ L s hL h9
  refine ⟨hm9, x, w3, hph, f1, f2, f3, ?_⟩
  intro h4 h96 hst
  have := hpass f1 (by rw [f2]; exact h96) (by rw [f2]; exact h4) hst
  rw [f2, f3] at this
  exact this

set_option maxRecDepth 1000000 in
theorem sample_sealed :
    Otap_bufferEnd sampleEnv (Otap_init sampleEnv sampleWorld).2 96 5 =
      .ok (APP_RET_OK, sealedWorld) := rfl

set_option maxRecDepth 1000000 in
/-- The scenario of the spec: length 96 and sequence number 5 are sealed on
the sample area; read back into a cleared buffer, the magic matches, the
length is 96, the sequence number is 5, and `begin 96 5` is called. -/
theorem C11_header_round_trip_witness :
    ∃ x w3, Otap.processHeader sampleEnv sealedWorldCleared = .ok (x, w3) ∧
      w3.otap.m_buffer_block_write.take 4 = u32 OTAP_MAGIC ∧
      rd32 w3.otap.m_buffer_block_write 4 = 96 ∧
      w3.otap.m_buffer_block_write.getD 8 0 = 5 ∧
      pipelineCalls (newCalls sealedWorldCleared w3) = [Call.otap_begin 96 5] :=
  match C11_header_round_trip sampleEnv sampleEnv sampleWorld (Otap_init sampleEnv sampleWorld).2
      sealedWorld sealedWorldCleared 96 5 (by decide) (by decide) rfl rfl rfl
      (by rw [sample_init_header, sample_init_mem, List.length_replicate]; decide)
      sample_sealed rfl rfl rfl
      (by
        show (Otap_init sampleEnv sampleWorld).2.otap.m_header_size ≤
          (List.replicate 512 0).length
        rw [sample_init_header, List.length_replicate]; decide)
      rfl (by decide) with
  | ⟨_, x, w3, h, f1, f2, f3, hp⟩ => ⟨x, w3, h, f1, f2, f3, hp (by decide) (by decide) rfl⟩

/-! ### Reads whose result nobody looks at -/

set_option maxRecDepth 1000000 in
/-- C21 at a concrete input.  The storage holds the sealed header (length 96,
sequence number 5) followed by erased bytes (`0xFF`), `m_buffer_block_write` is
cleared, and the driver accepts the header read only: it refuses the read of
the last 16 bytes (call number 8) and the read of the payload block (call
number 9).  `Otap_process` does not abort: it returns `APP_RET_OK` and has handed
the pipeline, as the 96 bytes of the image, what the buffer still held (the 12
header bytes followed by zeros). -/
theorem C21_refused_read_goes_on :
    (Otap_process readRefusedEnv smallSealedCleared).toOption.map
      (fun r => (r.1, newCalls smallSealedCleared r.2)) =
      some (APP_RET_OK,
        [Call.Otap_process, Call.mem_startRead 0 12, Call.state_getStackState,
         Call.otap_begin 96 5, Call.mem_startRead 92 16, Call.mem_startRead 12 512,
         Call.otap_write 0 96
           (u32 OTAP_MAGIC ++ u32 96 ++ [5, 0, 0, 0] ++ List.replicate 84 0),
         Call.otap_setTargetScratchpadAndAction 5 0xBEEF, Call.otap_setToBeProcessed]) ∧
    readRefusedEnv.start_ok 8 = false ∧ readRefusedEnv.start_ok 9 = false := by
  decide

/-! ### Message ids reach the fragment band -/

theorem getNextMessageId_succ (c : Ble_context) (h : c.message_id < 0xFFFF) :
    (getNextMessageId c).1 = c.message_id + 1 ∧
    (getNextMessageId c).2.message_id = c.message_id + 1 := by
  unfold getNextMessageId
  dsimp only
  rw [if_neg (by omega)]
  constructor <;> omega

theorem allocateIds_counter (k : Nat) :
    ∀ c : Ble_context, c.message_id + k ≤ 0xFFFF →
      (allocateIds k c).message_id = c.message_id + k := by
  induction k with
  | zero => intro c _; rfl
  | succ n ih =>
    intro c h
    unfold allocateIds
    rw [ih _ (by rw [(getNextMessageId_succ c (by omega)).2]; omega),
      (getNextMessageId_succ c (by omega)).2]
    omega

/-- C23 at a concrete input: after `0x7FFF` allocations on a fresh context
(counter 0) the counter is `0x7FFF`, and the next call of `getNextMessageId`
returns `0x8000`, the first id of the band of the upload fragments. -/
theorem C23_id_enters_fragment_band :
    (allocateIds 0x7FFF {}).message_id = 0x7FFF ∧
    (getNextMessageId (allocateIds 0x7FFF {})).1 = 0x8000 := by
  have h := allocateIds_counter 0x7FFF {} (by decide)
  have h0 : ({} : Ble_context).message_id = 0 := rfl
  rw [h0] at h
  refine ⟨by omega, ?_⟩
  rw [(getNextMessageId_succ _ (by omega)).1]
  omega

/-! ### Storing the settings -/

/-- C24 at a concrete input: the stored record differs from the settings and
the persistent store refuses the write.  `AppSettings_store` returns `true`
although nothing was saved. -/
theorem C24_true_without_saving :
    (AppSettings_store writeRefusedEnv sampleWorld { is_sink := 1, do_otap := 1 }).1 = true ∧
    (AppSettings_store writeRefusedEnv sampleWorld { is_sink := 1, do_otap := 1 }).2.persistent =
      none ∧
    newCalls sampleWorld
      (AppSettings_store writeRefusedEnv sampleWorld { is_sink := 1, do_otap := 1 }).2 =
      [Call.AppSettings_store { is_sink := 1, do_otap := 1 }, Call.persistent_read,
       Call.persistent_write { is_sink := 1, do_otap := 1 }] := by
  decide

/-! ### Alignment of the header -/

/-- C30 at a concrete input: for the write alignment 8, a multiple of 4,
`Otap_init` succeeds with a header of 12 bytes, which is no multiple of 8. -/
theorem C30_header_not_aligned :
    (Otap_init align8Env sampleWorld).1 = APP_RET_OK ∧
    (Otap_init align8Env sampleWorld).2.otap.m_memory_area.flash.write_alignment = 8 ∧
    (Otap_init align8Env sampleWorld).2.otap.m_header_size = 12 ∧
    (Otap_init align8Env sampleWorld).2.otap.m_header_size %
      (Otap_init align8Env sampleWorld).2.otap.m_memory_area.flash.write_alignment = 4 := by
  decide

/-! ### What a transition does -/

theorem findTransition_some {W : Type} (code : Code W) (w : W) (cur : sm_state_e)
    (e : sm_event_e) :
    ∀ (rows : List sm_event_matrix_t) (i : Nat) (row : sm_event_matrix_t),
      findTransition code w cur e rows = some i → rows.get? i = some row →
      rowMatches code w cur e row = true := by
  intro rows
  induction rows with
  | nil => intro i row h; simp [findTransition] at h
  | cons r rs ih =>
    intro i row h hrow
    unfold findTransition at h
    by_cases hm : rowMatches code w cur e r = true
    · rw [if_pos hm] at h
      simp only [Option.some.injEq] at h
      subst h
      simp only [List.get?, Option.some.injEq] at hrow
      subst hrow
      exact hm
    · rw [if_neg hm] at h
      cases hf : findTransition code w cur e rs with
      | none => rw [hf] at h; simp at h
      | some j =>
        rw [hf] at h
        simp only [Option.map_some', Option.some.injEq] at h
        subst h
        exact ih j row hf (by simpa using hrow)

/-- C25: when `Sm_handleEvents` selects row `r` for the dequeued event (`r`
matches: its event is the dequeued one, its state is the current state or
`sm_S_ANY_STATE`, its guard is NULL or holds), the armed exit action, if not
NULL, is called first and `r`'s entry action, if not NULL, after it, both on
the module context; afterwards the current state is `r.next_state`, unless
that is `sm_S_NO_NEW_STATE`, in which case the state is unchanged; and the armed
exit action is `r.exit_function`, also when that is NULL. -/
theorem C25_transition_effects {W : Type} (code : Code W) (sm : Sm_context) (w : W)
    (slot : Nat) (rest : List Nat) (i : Nat) (r : sm_event_matrix_t)
    (hq : sm.event_queue_head = slot :: rest)
    (hfind : findTransition code w sm.current_state (sm.event_queue.getD slot sm_E_NONE)
      sm.event_matrix = some i)
    (hrow : sm.event_matrix.get? i = some r) :
    (r.event = sm.event_queue.getD slot sm_E_NONE ∧
      (r.state = sm.current_state ∨ r.state = sm_S_ANY_STATE) ∧
      (r.guard = none ∨ ∃ g, r.guard = some g ∧ code.guard g w = true)) ∧
    (Sm_handleEvents code sm w).invoked = sm.exit_action.toList ++ r.entry_function.toList ∧
    (Sm_handleEvents code sm w).world =
      callIfSet code r.entry_function (callIfSet code sm.exit_action w) ∧
    (∀ x e, sm.exit_action = some x → r.entry_function = some e →
      (Sm_handleEvents code sm w).invoked = [x, e] ∧
      (Sm_handleEvents code sm w).world = code.action e (code.action x w)) ∧
    (∀ e, sm.exit_action = none → r.entry_function = some e →
      (Sm_handleEvents code sm w).invoked = [e] ∧
      (Sm_handleEvents code sm w).world = code.action e w) ∧
    (∀ x, sm.exit_action = some x → r.entry_function = none →
      (Sm_handleEvents code sm w).invoked = [x] ∧
      (Sm_handleEvents code sm w).world = code.action x w) ∧
    (sm.exit_action = none → r.entry_function = none →
      (Sm_handleEvents code sm w).invoked = [] ∧ (Sm_handleEvents code sm w).world = w) ∧
    (r.next_state ≠ sm_S_NO_NEW_STATE →
      (Sm_handleEvents code sm w).sm.current_state = r.next_state) ∧
    (r.next_state = sm_S_NO_NEW_STATE →
      (Sm_handleEvents code sm w).sm.current_state = sm.current_state) ∧
    (Sm_handleEvents code sm w).sm.exit_action = r.exit_function ∧
    (r.exit_function = none → (Sm_handleEvents code sm w).sm.exit_action = none) := by
  have hm := findTransition_some code w _ _ _ i r hfind hrow
  have hinv : (Sm_handleEvents code sm w).invoked =
      sm.exit_action.toList ++ r.entry_function.toList := by
    unfold Sm_handleEvents
    rw [hq]; dsimp only; rw [hfind]; dsimp only; rw [hrow]
    rfl
  have hworld : (Sm_handleEvents code sm w).world =
      callIfSet code r.entry_function (callIfSet code sm.exit_action w) := by
    unfold Sm_handleEvents
    rw [hq]; dsimp only; rw [hfind]; dsimp only; rw [hrow]
    rfl
  have hstate : (Sm_handleEvents code sm w).sm.current_state =
      (if r.next_state ≠ sm_S_NO_NEW_STATE then r.next_state else sm.current_state) := by
    unfold Sm_handleEvents
    rw [hq]; dsimp only; rw [hfind]; dsimp only; rw [hrow]
    rfl
  have hexit : (Sm_handleEvents code sm w).sm.exit_action = r.exit_function := by
    unfold Sm_handleEvents
    rw [hq]; dsimp only; rw [hfind]; dsimp only; rw [hrow]
    rfl
  refine ⟨(rowMatches_iff code w _ _ r).mp hm, hinv, hworld, ?_, ?_, ?_, ?_, ?_, ?_, hexit, ?_⟩
  · intro x e hx he
    rw [hinv, hworld, hx, he]
    exact ⟨rfl, rfl⟩
  · intro e hx he
    rw [hinv, hworld, hx, he]
    exact ⟨rfl, rfl⟩
  · intro x hx he
    rw [hinv, hworld, hx, he]
    exact ⟨rfl, rfl⟩
  · intro hx he
    rw [hinv, hworld, hx, he]
    exact ⟨rfl, rfl⟩
  · intro hn
    rw [hstate, if_pos hn]
  · intro hn
    rw [hstate, if_neg (by simpa using hn)]
  · intro hn
    rw [hexit, hn]

/-- A machine in `sm_S_BOOT` with exit action 5 armed takes the wildcard row
of `sampleMatrix`: action 5 runs before the entry action 20, the state stays
`sm_S_BOOT` and no exit action is armed any more. -/
theorem C25_transition_effects_witness :
    (Sm_handleEvents sampleCode
      { sampleSm ble_E_SCANNING_START with current_state := sm_S_BOOT } 0).invoked = [5, 20] ∧
    (Sm_handleEvents sampleCode
      { sampleSm ble_E_SCANNING_START with current_state := sm_S_BOOT } 0).sm.current_state =
      sm_S_BOOT ∧
    (Sm_handleEvents sampleCode
      { sampleSm ble_E_SCANNING_START with current_state := sm_S_BOOT } 0).sm.exit_action =
      none :=
  have h := C25_transition_effects sampleCode
    { sampleSm ble_E_SCANNING_START with current_state := sm_S_BOOT } 0 1 [] 1
    { state := sm_S_ANY_STATE, event := ble_E_SCANNING_START, guard := none,
      next_state := sm_S_NO_NEW_STATE, entry_function := some 20, exit_function := none }
    rfl (by decide) rfl
  ⟨(h.2.2.2.1 5 20 rfl rfl).1, h.2.2.2.2.2.2.2.2.1 rfl, h.2.2.2.2.2.2.2.2.2.2 rfl⟩

/-! ### The check of the message id -/

/-- C22: let a packet pass the layout filter with a frame `rx` of valid
length `n` (more than 3 and at most 27 bytes).  If the message id of the frame
equals `last_received_message_id` and is greater than 1, `bleReceiveCb` returns
with nothing changed but the receive buffer and the retained frame: session,
backlog, both state machines, settings, storage and call trace are as
before, whatever command and payload the frame has.  If the message id is 0 or
1 and the frame is not byte-identical with the retained one, the frame is
accepted and goes to the command dispatch, also when `last_received_message_id`
is the same id. -/
theorem C22_message_id_duplicate (env : Env) (w : World)
    (packet : app_lib_beacon_rx_received_t) (rx : List Nat) (n : Nat)
    (hpre : prefilter w.m_ble_rx_buffer packet = .ok (some (rx, n)))
    (hlen : 3 < n ∧ n ≤ 27) :
    (cmd_message_id rx = w.ble.last_received_message_id → 1 < cmd_message_id rx →
      ∃ last, bleReceiveCb env w packet =
        .ok { w with m_ble_rx_buffer := rx, m_lastReceivedPackage := last }) ∧
    (cmd_message_id rx ≤ 1 → w.m_lastReceivedPackage.take n ≠ rx.take n →
      ∃ w0, receiveFilter w packet = .ok (w0, some rx) ∧
        w0.accepted = w.accepted ++ [rx.take n] ∧
        w0.ble.last_received_message_id = cmd_message_id rx ∧
        bleReceiveCb env w packet = handleCmd env w0 rx) := by
  have hcmd : getCmdFromBuffer rx n = some rx := by
    unfold getCmdFromBuffer BLE_ADV_TOTAL_LEN BLE_ADV_HEADER_LEN
    rw [if_neg (by omega), if_neg (by omega)]
  constructor
  · intro hid hgt
    unfold bleReceiveCb receiveFilter
    rw [hpre]
    dsimp only
    rw [hcmd]
    dsimp only
    by_cases hb : w.m_lastReceivedPackage.take n = rx.take n
    · rw [if_pos hb]
      exact ⟨w.m_lastReceivedPackage, rfl⟩
    · rw [if_neg hb, if_pos ⟨hid.symm, hgt⟩]
      exact ⟨_, rfl⟩
  · intro hid hb
    have hf : receiveFilter w packet = .ok
        ({ w with
           m_ble_rx_buffer := rx
           m_lastReceivedPackage := memcpy w.m_lastReceivedPackage rx n
           ble := { w.ble with last_received_message_id := cmd_message_id rx }
           accepted := w.accepted ++ [rx.take n] }, some rx) := by
      unfold receiveFilter
      rw [hpre]
      dsimp only
      rw [hcmd]
      dsimp only
      rw [if_neg hb, if_neg (by intro hc; omega)]
    refine ⟨_, hf, rfl, rfl, ?_⟩
    unfold bleReceiveCb
    rw [hf]

/-- In `afterBegin69` the last processed id is 5: a scan request with id 5 is
dropped, the session and the backlog stay as they are. -/
theorem C22_message_id_duplicate_witness :
    ∃ last, bleReceiveCb sampleEnv afterBegin69 (mkPacket (scanRequestFrame 5 1 0)) =
      .ok { afterBegin69 with
            m_ble_rx_buffer :=
              memcpy afterBegin69.m_ble_rx_buffer (scanRequestFrame 5 1 0) 5
            m_lastReceivedPackage := last } :=
  (C22_message_id_duplicate sampleEnv afterBegin69 (mkPacket (scanRequestFrame 5 1 0))
    (memcpy afterBegin69.m_ble_rx_buffer (scanRequestFrame 5 1 0) 5) 5 rfl
    (by decide)).1 (by decide) (by decide)

/-! ### The status response of the upload branch -/

theorem upload_progress (env : Env) (w w0 w1 : World)
    (packet : app_lib_beacon_rx_received_t) (cmd_rx : ble_adv_cmd_t)
    (hacc : receiveFilter w packet = .ok (w0, some cmd_rx))
    (hcmd : cmd_command cmd_rx = ble_ADV_CMD_OTAP_UPLOAD_REQUEST)
    (hlo : w.ble.otap.start_message_id ≤ cmd_message_id cmd_rx)
    (hhi : cmd_message_id cmd_rx ≤ w.ble.otap.end_message_id)
    (h : bleReceiveCb env w packet = .ok w1) :
    w.ble.otap.total_messages ≠ 0 ∧
    w1.ble.otap = { w.ble.otap with messageReceived := w1.ble.otap.messageReceived } ∧
    w0.ble = { w.ble with last_received_message_id := cmd_message_id cmd_rx } ∧
    ∃ post : Ble_context → Ble_context,
      w1.ble = post (statusBle w0.ble cmd_rx w1.ble.otap.messageReceived) ∧
      (post = id ∨ (∃ i, post = fun c => requestResend c i) ∨
        post = fun c => sendDone c cmd_rx) ∧
      (bitSet w1.ble.otap.messageReceived (w.ble.otap.total_messages - 1) = false →
        post = id) := by
  obtain ⟨ret, wB, received, t, hbw, hble, happ, hfsm, hsm, hpers, htr, ht, hrec, h0, h1,
    hotap1, hcases⟩ := upload_outcomes env w w0 w1 packet cmd_rx hacc hcmd hlo hhi h
  have hw0 := receiveFilter_frame w w0 packet cmd_rx hacc
  have hrecv : w1.ble.otap.messageReceived = received := by rw [hotap1]
  refine ⟨h0, by rw [hrecv]; exact hotap1, by rw [hw0], ?_⟩
  rw [hrecv]
  rcases hcases with ⟨hl, hw1⟩ | ⟨hl, i, _, hw1⟩ | ⟨hl, _, hfin⟩
  · exact ⟨id, by rw [hw1]; rfl, Or.inl rfl, fun _ => rfl⟩
  · refine ⟨fun c => requestResend c i, by rw [hw1], Or.inr (Or.inl ⟨i, rfl⟩), ?_⟩
    intro hf; rw [hl] at hf; cases hf
  · obtain ⟨st2, p, t2, hw1⟩ := finishUpload_spec _ _ _ _ hfin
    refine ⟨fun c => sendDone c cmd_rx, by rw [hw1], Or.inr (Or.inr rfl), ?_⟩
    intro hf; rw [hl] at hf; cases hf

theorem progressPercentage_bounds (received : List Nat) (n i : Nat) (hn : 1 ≤ n) (hi : i < n)
    (last : Bool) :
    (last = false →
      progressPercentage received n i last = i * 90 / n ∧
      progressPercentage received n i last ≤ 89) ∧
    (last = true →
      progressPercentage received n i last = 90 + 10 / (missingMessages received n + 1)) ∧
    progressPercentage received n i last ≤ 100 ∧
    (progressPercentage received n i last = 100 → missingMessages received n = 0) ∧
    (1 ≤ missingMessages received n → progressPercentage received n i last ≤ 95) := by
  have hlin : i * 90 / n ≤ 89 := by
    have : i * 90 / n < 90 := by
      rw [Nat.div_lt_iff_lt_mul (by omega)]
      nlinarith
    omega
  have hten : 10 / (missingMessages received n + 1) ≤ 10 := Nat.div_le_self _ _
  have hfive : 1 ≤ missingMessages received n → 10 / (missingMessages received n + 1) ≤ 5 := by
    intro hm
    have h2 : 10 / (missingMessages received n + 1) ≤ 10 / 2 :=
      Nat.div_le_div_left (show 2 ≤ missingMessages received n + 1 by omega) (by decide)
    have h3 : 10 / 2 = 5 := by decide
    omega
  cases last with
  | false =>
    have hp : progressPercentage received n i false = i * 90 / n := by
      simp [progressPercentage]
    rw [hp]
    refine ⟨?_, ?_, ?_, ?_, ?_⟩
    · intro _; exact ⟨rfl, hlin⟩
    · intro hc; cases hc
    · omega
    · intro hc; omega
    · intro _; omega
  | true =>
    have hp : progressPercentage received n i true =
        90 + 10 / (missingMessages received n + 1) := by
      simp [progressPercentage]
    rw [hp]
    refine ⟨?_, ?_, ?_, ?_, ?_⟩
    · intro hc; cases hc
    · intro _; rfl
    · omega
    · intro hc
      by_contra hne
      have := hfive (by omega)
      omega
    · intro hm
      have := hfive hm
      omega

theorem upload_rsp_percentage_mk (m r c p : Nat) :
    upload_rsp_percentage (mk_upload_rsp m r c p) = p % 256 ∧
    upload_rsp_response_code (mk_upload_rsp m r c p) = c % 256 ∧
    cmd_command (mk_upload_rsp m r c p) = ble_ADV_CMD_OTAP_UPLOAD_RESPONSE := by
  simp [upload_rsp_percentage, upload_rsp_response_code, cmd_command, mk_upload_rsp, u16]

theorem statusBle_due (c : Ble_context) (cmd : ble_adv_cmd_t) (received : List Nat)
    (otap1 : ble_otap_t) (hotap : otap1 = { c.otap with messageReceived := received })
    (hdue : cmd_message_id cmd % 10 = 0 ∨ bitSet received (c.otap.total_messages - 1) = true) :
    statusBle c cmd received =
      sendProgress { c with otap := otap1 } cmd
        (progressPercentage received c.otap.total_messages
          (cmd_message_id cmd - c.otap.start_message_id)
          (bitSet received (c.otap.total_messages - 1))) := by
  subst hotap
  unfold statusBle
  dsimp only
  rw [if_pos hdue]

theorem statusBle_not_due (c : Ble_context) (cmd : ble_adv_cmd_t) (received : List Nat)
    (otap1 : ble_otap_t) (hotap : otap1 = { c.otap with messageReceived := received })
    (hnot : ¬ (cmd_message_id cmd % 10 = 0 ∨
      bitSet received (c.otap.total_messages - 1) = true)) :
    statusBle c cmd received = { c with otap := otap1 } := by
  subst hotap
  unfold statusBle
  dsimp only
  rw [if_neg hnot]

/-- C26: let an accepted upload fragment with index `i = message id -
start_message_id` be in the range of a session of `n = total_messages` ids
(`end_message_id + 1 = start_message_id + n`, as the begin-upload branch leaves
it), and let it be one for which a status response is due.  Then the call
hands to `bleSendCmd` a status response (possibly followed by a resend request
or by the completion response) whose percentage is `i * 90 / n`, at most 89,
while the bit of the last-indexed fragment is clear, and
`90 + 10 / (missing + 1)` once it is set, `missing` being the number of clear
bits among the first `n`.  The percentage fits its byte, is at most 100, is
100 only if no bit is clear and is at most 95 while one is. -/
theorem C26_progress_percentage (env : Env) (w w0 w1 : World)
    (packet : app_lib_beacon_rx_received_t) (cmd_rx : ble_adv_cmd_t)
    (hacc : receiveFilter w packet = .ok (w0, some cmd_rx))
    (hcmd : cmd_command cmd_rx = ble_ADV_CMD_OTAP_UPLOAD_REQUEST)
    (hlo : w.ble.otap.start_message_id ≤ cmd_message_id cmd_rx)
    (hhi : cmd_message_id cmd_rx ≤ w.ble.otap.end_message_id)
    (h : bleReceiveCb env w packet = .ok w1)
    (hses : w.ble.otap.end_message_id + 1 =
      w.ble.otap.start_message_id + w.ble.otap.total_messages)
    (hdue : cmd_message_id cmd_rx % 10 = 0 ∨
      bitSet w1.ble.otap.messageReceived (w.ble.otap.total_messages - 1) = true) :
    ∃ (post : Ble_context → Ble_context) (p : Nat),
      p = progressPercentage w1.ble.otap.messageReceived w.ble.otap.total_messages
        (cmd_message_id cmd_rx - w.ble.otap.start_message_id)
        (bitSet w1.ble.otap.messageReceived (w.ble.otap.total_messages - 1)) ∧
      w1.ble = post (sendProgress { w0.ble with otap := w1.ble.otap } cmd_rx p) ∧
      (post = id ∨ (∃ k, post = fun c => requestResend c k) ∨
        post = fun c => sendDone c cmd_rx) ∧
      (∀ m, upload_rsp_percentage
        (mk_upload_rsp m (cmd_message_id cmd_rx) ble_STATUS_OTAP_UPLOAD p) = p) ∧
      (bitSet w1.ble.otap.messageReceived (w.ble.otap.total_messages - 1) = false →
        p = (cmd_message_id cmd_rx - w.ble.otap.start_message_id) * 90 /
          w.ble.otap.total_messages ∧ p ≤ 89) ∧
      (bitSet w1.ble.otap.messageReceived (w.ble.otap.total_messages - 1) = true →
        p = 90 + 10 /
          (missingMessages w1.ble.otap.messageReceived w.ble.otap.total_messages + 1)) ∧
      p ≤ 100 ∧
      (p = 100 →
        missingMessages w1.ble.otap.messageReceived w.ble.otap.total_messages = 0) ∧
      (1 ≤ missingMessages w1.ble.otap.messageReceived w.ble.otap.total_messages →
        p ≤ 95) := by
  obtain ⟨h0, hotap1, hw0, post, hpost, hcases, _⟩ :=
    upload_progress env w w0 w1 packet cmd_rx hacc hcmd hlo hhi h
  have hotap0 : w0.ble.otap = w.ble.otap := by rw [hw0]
  have hb := progressPercentage_bounds w1.ble.otap.messageReceived w.ble.otap.total_messages
    (cmd_message_id cmd_rx - w.ble.otap.start_message_id) (by omega) (by omega)
    (bitSet w1.ble.otap.messageReceived (w.ble.otap.total_messages - 1))
  refine ⟨post, _, rfl, ?_, hcases, ?_, hb.1, hb.2.1, hb.2.2.1, hb.2.2.2.1, hb.2.2.2.2⟩
  · have hst := statusBle_due w0.ble cmd_rx _ w1.ble.otap (by rw [hotap0]; exact hotap1)
      (by rw [hotap0]; exact hdue)
    rw [hotap0] at hst
    exact hpost.trans (congrArg post hst)
  · intro m
    rw [(upload_rsp_percentage_mk _ _ _ _).1]
    exact Nat.mod_eq_of_lt (by have := hb.2.2.1; omega)

set_option maxRecDepth 100000 in
/-- C27 fails as stated.  In `afterLast69` the last fragment (id `0x8002`) is
marked and fragment 0 and 1 are missing.  Fragment 1 arrives: its id `0x8001`
is no multiple of 10 and it is not the last id of the range, yet a status
response (command `0x8B`, code `ble_STATUS_OTAP_UPLOAD`, 95 percent) is queued for
it, before the next resend request. -/
theorem C27_counterexample :
    afterLast69.ble.otap.end_message_id = 0x8002 ∧
    cmd_message_id (fragmentFrame 1 23) = 0x8001 ∧
    cmd_message_id (fragmentFrame 1 23) % 10 ≠ 0 ∧
    (bleReceiveCb sampleEnv afterLast69 (mkPacket (fragmentFrame 1 23))).isOk = true ∧
    afterLastThenOne69.accepted = afterLast69.accepted ++ [fragmentFrame 1 23] ∧
    backlogFrames afterLastThenOne69 =
      backlogFrames afterLast69 ++
        [(mk_upload_rsp 4 0x8001 ble_STATUS_OTAP_UPLOAD 95).take BLE_ADV_CMD_OTAP_UPLOAD_RSP_LEN,
         (mk_resend_req 5 0x8000).take BLE_ADV_CMD_RESEND_MESSAGE_REQ_LEN] := by
  decide

/-- C27 (amended): for an accepted in-range upload fragment that is handled
without fault, a status response is handed to `bleSendCmd` exactly when the
message id of the fragment is a multiple of 10 or the bit of the last-indexed
fragment is set in the bitmap the call leaves (the last fragment was marked
by this call or by an earlier one); it may be followed by a resend request or
by the completion response.  For every other in-range fragment nothing is
enqueued: backlog and pending list are unchanged. -/
theorem C27_progress_sent_iff (env : Env) (w w0 w1 : World)
    (packet : app_lib_beacon_rx_received_t) (cmd_rx : ble_adv_cmd_t)
    (hacc : receiveFilter w packet = .ok (w0, some cmd_rx))
    (hcmd : cmd_command cmd_rx = ble_ADV_CMD_OTAP_UPLOAD_REQUEST)
    (hlo : w.ble.otap.start_message_id ≤ cmd_message_id cmd_rx)
    (hhi : cmd_message_id cmd_rx ≤ w.ble.otap.end_message_id)
    (h : bleReceiveCb env w packet = .ok w1) :
    ((cmd_message_id cmd_rx % 10 = 0 ∨
        bitSet w1.ble.otap.messageReceived (w.ble.otap.total_messages - 1) = true) →
      ∃ post : Ble_context → Ble_context,
        w1.ble = post (sendProgress { w0.ble with otap := w1.ble.otap } cmd_rx
          (progressPercentage w1.ble.otap.messageReceived w.ble.otap.total_messages
            (cmd_message_id cmd_rx - w.ble.otap.start_message_id)
            (bitSet w1.ble.otap.messageReceived (w.ble.otap.total_messages - 1)))) ∧
        (post = id ∨ (∃ k, post = fun c => requestResend c k) ∨
          post = fun c => sendDone c cmd_rx)) ∧
    (¬ (cmd_message_id cmd_rx % 10 = 0 ∨
        bitSet w1.ble.otap.messageReceived (w.ble.otap.total_messages - 1) = true) →
      w1.ble = { w0.ble with otap := w1.ble.otap } ∧
      w1.ble.ble_tx_items = w.ble.ble_tx_items ∧
      w1.ble.ble_tx_items_head_p = w.ble.ble_tx_items_head_p ∧
      w1.ble.message_id = w.ble.message_id) := by
  obtain ⟨h0, hotap1, hw0, post, hpost, hcases, hid⟩ :=
    upload_progress env w w0 w1 packet cmd_rx hacc hcmd hlo hhi h
  have hotap0 : w0.ble.otap = w.ble.otap := by rw [hw0]
  constructor
  · intro hdue
    refine ⟨post, ?_, hcases⟩
    have hst := statusBle_due w0.ble cmd_rx _ w1.ble.otap (by rw [hotap0]; exact hotap1)
      (by rw [hotap0]; exact hdue)
    rw [hotap0] at hst
    exact hpost.trans (congrArg post hst)
  · intro hnot
    have hlast : bitSet w1.ble.otap.messageReceived (w.ble.otap.total_messages - 1) = false := by
      cases hb : bitSet w1.ble.otap.messageReceived (w.ble.otap.total_messages - 1)
      · rfl
      · exact absurd (Or.inr hb) hnot
    have hst : statusBle w0.ble cmd_rx w1.ble.otap.messageReceived =
        { w0.ble with otap := w1.ble.otap } :=
      statusBle_not_due w0.ble cmd_rx _ w1.ble.otap (by rw [hotap0]; exact hotap1)
        (by rw [hotap0]; exact hnot)
    have hble : w1.ble = { w0.ble with otap := w1.ble.otap } := by
      have hp := hid hlast
      subst hp
      exact hpost.trans hst
    refine ⟨hble, ?_, ?_, ?_⟩
    · rw [hble, hw0]
    · rw [hble, hw0]
    · rw [hble, hw0]

set_option maxRecDepth 100000 in
/-- In `afterBegin69` (3 fragments) the last fragment, id `0x8002`, arrives
first: two fragments are missing and the status response reports
`90 + 10 / 3 = 93` percent. -/
theorem C26_progress_percentage_witness :
    ∃ (post : Ble_context → Ble_context) (p : Nat), p = 93 ∧
      afterLast69.ble = post (sendProgress
        { (filtered afterBegin69 (mkPacket (fragmentFrame 2 23))).1.ble with
          otap := afterLast69.ble.otap }
        ((filtered afterBegin69 (mkPacket (fragmentFrame 2 23))).2.getD []) p) :=
  match C26_progress_percentage sampleEnv afterBegin69
      (filtered afterBegin69 (mkPacket (fragmentFrame 2 23))).1 afterLast69
      (mkPacket (fragmentFrame 2 23))
      ((filtered afterBegin69 (mkPacket (fragmentFrame 2 23))).2.getD [])
      (receiveFilter_eq _ _ (by decide)) (by decide) (by decide) (by decide)
      (eq_ok_okOr _ _ (by decide)) (by decide) (Or.inl (by decide)) with
  | ⟨post, p, hp, hble, _⟩ => ⟨post, p, hp.trans (by decide), hble⟩

set_option maxRecDepth 100000 in
/-- In `afterBegin69` fragment 1 (id `0x8001`) arrives first: no status
response is due and the backlog stays as it is. -/
theorem C27_progress_sent_iff_witness :
    (okOr (bleReceiveCb sampleEnv afterBegin69 (mkPacket (fragmentFrame 1 23)))
      afterBegin69).ble.ble_tx_items = afterBegin69.ble.ble_tx_items :=
  ((C27_progress_sent_iff sampleEnv afterBegin69
      (filtered afterBegin69 (mkPacket (fragmentFrame 1 23))).1
      (okOr (bleReceiveCb sampleEnv afterBegin69 (mkPacket (fragmentFrame 1 23))) afterBegin69)
      (mkPacket (fragmentFrame 1 23))
      ((filtered afterBegin69 (mkPacket (fragmentFrame 1 23))).2.getD [])
      (receiveFilter_eq _ _ (by decide)) (by decide) (by decide) (by decide)
      (eq_ok_okOr _ _ (by decide))).2 (by decide)).2.1

/-! ### A fragment, its write and its bit -/

/-- C28: for an accepted frame with command upload-request and message id
`m`.  If `m` lies in `[start_message_id, end_message_id]` and the call ends
without fault, its first traced call is `Otap_bufferWrite` for
`adv_package_length` bytes of the frame payload at offset
`(m - start_message_id) * adv_package_length`; when that returns `APP_RET_OK` the
bit `m - start_message_id` of the bitmap is set afterwards and every other bit
is as before, and when it returns anything else the bitmap is unchanged.  If
`m` lies outside the range, the call ends with session (bitmap included),
storage and call trace unchanged. -/
theorem C28_fragment_write_and_bit (env : Env) (w w0 : World)
    (packet : app_lib_beacon_rx_received_t) (cmd_rx : ble_adv_cmd_t)
    (hacc : receiveFilter w packet = .ok (w0, some cmd_rx))
    (hcmd : cmd_command cmd_rx = ble_ADV_CMD_OTAP_UPLOAD_REQUEST) :
    (∀ w1, w.ble.otap.start_message_id ≤ cmd_message_id cmd_rx →
      cmd_message_id cmd_rx ≤ w.ble.otap.end_message_id →
      bleReceiveCb env w packet = .ok w1 →
      ∃ ret wB,
        Otap_bufferWrite env w0 (cmd_rx.drop 3) w.ble.otap.adv_package_length
          ((cmd_message_id cmd_rx - w.ble.otap.start_message_id) *
            w.ble.otap.adv_package_length) = .ok (ret, wB) ∧
        (newCalls w w1).head? = some (Call.Otap_bufferWrite w.ble.otap.adv_package_length
          ((cmd_message_id cmd_rx - w.ble.otap.start_message_id) *
            w.ble.otap.adv_package_length)) ∧
        (ret = APP_RET_OK → ∀ j, bitSet w1.ble.otap.messageReceived j =
          (bitSet w.ble.otap.messageReceived j ||
            decide (j = cmd_message_id cmd_rx - w.ble.otap.start_message_id))) ∧
        (ret ≠ APP_RET_OK → w1.ble.otap.messageReceived = w.ble.otap.messageReceived)) ∧
    (¬ (w.ble.otap.start_message_id ≤ cmd_message_id cmd_rx ∧
        cmd_message_id cmd_rx ≤ w.ble.otap.end_message_id) →
      bleReceiveCb env w packet = .ok w0 ∧ w0.ble.otap = w.ble.otap ∧
      w0.storage = w.storage ∧ w0.trace = w.trace) := by
  have hw0 := receiveFilter_frame w w0 packet cmd_rx hacc
  constructor
  · intro w1 hlo hhi h
    obtain ⟨ret, wB, received, t, hbw, hble, happ, hfsm, hsm, hpers, htr, ht, hrec, h0, h1,
      hotap1, hcases⟩ := upload_outcomes env w w0 w1 packet cmd_rx hacc hcmd hlo hhi h
    have hrecv : w1.ble.otap.messageReceived = received := by rw [hotap1]
    refine ⟨ret, wB, hbw, ?_, ?_, ?_⟩
    · have htrace : ∃ more, w1.trace = wB.trace ++ more := by
        rcases hcases with ⟨_, hw1⟩ | ⟨_, i, _, hw1⟩ | ⟨_, _, hfin⟩
        · exact ⟨[], by rw [hw1]; simp⟩
        · exact ⟨[], by rw [hw1]; simp⟩
        · obtain ⟨st2, p, t2, hw1⟩ := finishUpload_spec _ _ _ _ hfin
          exact ⟨_, by rw [hw1]; simp only [List.append_assoc]; rfl⟩
      obtain ⟨more, hmore⟩ := htrace
      unfold newCalls
      rw [hmore, htr]
      simp
    · intro hok j
      rcases hrec with ⟨_, hidx, hr⟩ | ⟨hnok, _⟩
      · rw [hrecv, hr, bitSet_markBit _ _ _ hidx]
      · exact absurd hok hnok
    · intro hnok
      rcases hrec with ⟨hok, _, _⟩ | ⟨_, hr⟩
      · exact absurd hok hnok
      · rw [hrecv, hr]
  · intro hout
    have hotap : w0.ble.otap = w.ble.otap := by rw [hw0]
    refine ⟨?_, hotap, by rw [hw0], by rw [hw0]⟩
    unfold bleReceiveCb
    rw [hacc]
    dsimp only
    unfold handleCmd
    have hne1 : cmd_command cmd_rx ≠ ble_ADV_CMD_SCAN_REQUEST := by rw [hcmd]; decide
    have hne2 : cmd_command cmd_rx ≠ ble_ADV_CMD_OTAP_BEGIN_UPLOAD_REQUEST := by
      rw [hcmd]; decide
    rw [if_neg hne1, if_neg hne2, if_neg (by rw [hotap]; tauto)]

set_option maxRecDepth 100000 in
/-- In `afterBegin69` (fragments of 23 bytes) fragment 1 is written at offset
23, and an upload request with the id `0x9000`, outside the range, changes
nothing of the session. -/
theorem C28_fragment_write_and_bit_witness :
    (newCalls afterBegin69
      (okOr (bleReceiveCb sampleEnv afterBegin69 (mkPacket (fragmentFrame 1 23)))
        afterBegin69)).head? = some (Call.Otap_bufferWrite 23 23) ∧
    bleReceiveCb sampleEnv afterBegin69 (mkPacket (fragmentFrame 0x1000 23)) =
      .ok (filtered afterBegin69 (mkPacket (fragmentFrame 0x1000 23))).1 :=
  ⟨match (C28_fragment_write_and_bit sampleEnv afterBegin69
      (filtered afterBegin69 (mkPacket (fragmentFrame 1 23))).1
      (mkPacket (fragmentFrame 1 23))
      ((filtered afterBegin69 (mkPacket (fragmentFrame 1 23))).2.getD [])
      (receiveFilter_eq _ _ (by decide)) (by decide)).1
      (okOr (bleReceiveCb sampleEnv afterBegin69 (mkPacket (fragmentFrame 1 23))) afterBegin69)
      (by decide) (by decide) (eq_ok_okOr _ _ (by decide)) with
    | ⟨_, _, _, hhead, _⟩ => hhead.trans (by decide),
   ((C28_fragment_write_and_bit sampleEnv afterBegin69
      (filtered afterBegin69 (mkPacket (fragmentFrame 0x1000 23))).1
      (mkPacket (fragmentFrame 0x1000 23))
      ((filtered afterBegin69 (mkPacket (fragmentFrame 0x1000 23))).2.getD [])
      (receiveFilter_eq _ _ (by decide)) (by decide)).2 (by decide)).1⟩

/-! ### The begin-upload branch -/

theorem bitSet_replicate_zero (n j : Nat) : bitSet (List.replicate n 0) j = false := by
  unfold bitSet
  have h : (List.replicate n 0).getD (j / 8) 0 = 0 := by
    rw [List.getD_eq_getElem?_getD, List.getElem?_replicate]
    split <;> rfl
  rw [h]
  simp

theorem retByte_lt (env : Env) (r : Otap_ret) : retByte env r < 256 := by
  cases r <;> simp only [retByte] <;> omega

theorem mk_begin_upload_rsp_fields (m r s c : Nat) (hc : c < 256) :
    cmd_message_id (mk_begin_upload_rsp m r s c) = m % 65536 ∧
    cmd_command (mk_begin_upload_rsp m r s c) = ble_ADV_CMD_OTAP_BEGIN_UPLOAD_RESPONSE ∧
    begin_upload_rsp_request_id (mk_begin_upload_rsp m r s c) = r % 65536 ∧
    begin_upload_rsp_start_message_id (mk_begin_upload_rsp m r s c) = s % 65536 ∧
    begin_upload_rsp_response_code (mk_begin_upload_rsp m r s c) = c := by
  refine ⟨?_, ?_, ?_, ?_, ?_⟩
  · simp [cmd_message_id, mk_begin_upload_rsp, rd16, u16]; omega
  · simp [cmd_command, mk_begin_upload_rsp, u16]
  · simp [begin_upload_rsp_request_id, mk_begin_upload_rsp, rd16, u16]; omega
  · simp [begin_upload_rsp_start_message_id, mk_begin_upload_rsp, rd16, u16]; omega
  · simp [begin_upload_rsp_response_code, mk_begin_upload_rsp, u16]; omega

theorem handleBeginUpload_spec (env : Env) (w w1 : World) (cmd : ble_adv_cmd_t)
    (h : handleBeginUpload env w cmd = .ok w1) :
    ∃ ret w3 t1 t2,
      Otap_bufferBegin env
        (Otap_init env { w with ble := { w.ble with otap := beginSession w.ble.otap cmd } }).2 =
        .ok (ret, w3) ∧
      w1.trace = w.trace ++ (Call.Otap_init :: t1 ++ Call.Otap_bufferBegin :: t2) ∧
      (t1 = [] ∨ t1 = [Call.mem_getAreaInfo]) ∧
      (t2 = [] ∨ ∃ k, t2 = [Call.mem_startErase 0 k]) ∧
      w1.ble =
        bleSendCmd
          (getNextMessageId { w.ble with otap := beginSession w.ble.otap cmd }).2
          (mk_begin_upload_rsp
            (getNextMessageId { w.ble with otap := beginSession w.ble.otap cmd }).1
            (cmd_message_id cmd) 0x8000 (retByte env ret))
          BLE_ADV_CMD_OTAP_BEGIN_UPLOAD_RSP_LEN false := by
  unfold handleBeginUpload at h
  by_cases hF : begin_upload_req_package_length cmd = 0
  · rw [if_pos hF] at h; cases h
  · rw [if_neg hF] at h
    dsimp only at h
    split at h
    · cases h
    · rename_i ret w3 hbb
      obtain ⟨st, t, hw3, ht⟩ := Otap_bufferBegin_frame _ _ _ _ hbb
      simp only [Except.ok.injEq] at h
      have hble : w3.ble = { w.ble with otap := beginSession w.ble.otap cmd } := by
        rw [hw3, Otap_init_frame]
      refine ⟨ret, w3, (if w.otap.m_initialized then [] else [Call.mem_getAreaInfo]), t, hbb,
        ?_, ?_, ?_, ?_⟩
      · rw [← h]
        show w3.trace = _
        rw [hw3, Otap_init_frame]
        simp only [List.append_assoc, List.cons_append]
      · by_cases hi : w.otap.m_initialized = true
        · rw [if_pos hi]; exact Or.inl rfl
        · rw [if_neg hi]; exact Or.inr rfl
      · rcases ht with ht | ht
        · exact Or.inl ht
        · exact Or.inr ⟨_, ht⟩
      · rw [← h]
        show bleSendCmd (getNextMessageId w3.ble).2 _ _ _ = _
        rw [hble]
        rfl

/-- C29: after `bleReceiveCb` has processed an accepted begin-upload request
without fault, every bit of the bitmap is clear, the session holds the
declared length, sequence number and fragment size of the request, the calls
traced are `Otap_init` and then `Otap_bufferBegin` (each with the driver call it
makes, if any), and the backlog is the one before with one frame handed to
`bleSendCmd`: a begin-upload response (command `0x8A`) with a fresh message id,
`request_id` the message id of the request, `start_message_id = 0x8000` and
`response_code` the low byte of the value `Otap_bufferBegin` returned. -/
theorem C29_begin_upload (env : Env) (w w0 w1 : World)
    (packet : app_lib_beacon_rx_received_t) (cmd_rx : ble_adv_cmd_t)
    (hacc : receiveFilter w packet = .ok (w0, some cmd_rx))
    (hcmd : cmd_command cmd_rx = ble_ADV_CMD_OTAP_BEGIN_UPLOAD_REQUEST)
    (h : bleReceiveCb env w packet = .ok w1) :
    (∀ j, bitSet w1.ble.otap.messageReceived j = false) ∧
    w1.ble.otap.scratchpad_length = begin_upload_req_length cmd_rx ∧
    w1.ble.otap.scratchpad_seqeunce_number = begin_upload_req_sequence cmd_rx ∧
    w1.ble.otap.adv_package_length = begin_upload_req_package_length cmd_rx ∧
    ∃ ret w3 t1 t2 c,
      Otap_bufferBegin env
        (Otap_init env
          { w0 with ble := { w0.ble with otap := beginSession w0.ble.otap cmd_rx } }).2 =
        .ok (ret, w3) ∧
      newCalls w w1 = Call.Otap_init :: t1 ++ Call.Otap_bufferBegin :: t2 ∧
      (t1 = [] ∨ t1 = [Call.mem_getAreaInfo]) ∧
      (t2 = [] ∨ ∃ k, t2 = [Call.mem_startErase 0 k]) ∧
      c.ble_tx_items = w.ble.ble_tx_items ∧
      c.ble_tx_items_head_p = w.ble.ble_tx_items_head_p ∧
      c.message_id = (getNextMessageId w.ble).1 ∧
      w1.ble = bleSendCmd c
        (mk_begin_upload_rsp c.message_id (cmd_message_id cmd_rx) 0x8000 (retByte env ret))
        BLE_ADV_CMD_OTAP_BEGIN_UPLOAD_RSP_LEN false ∧
      cmd_command
        (mk_begin_upload_rsp c.message_id (cmd_message_id cmd_rx) 0x8000 (retByte env ret)) =
        ble_ADV_CMD_OTAP_BEGIN_UPLOAD_RESPONSE ∧
      begin_upload_rsp_request_id
        (mk_begin_upload_rsp c.message_id (cmd_message_id cmd_rx) 0x8000 (retByte env ret)) =
        cmd_message_id cmd_rx % 65536 ∧
      begin_upload_rsp_start_message_id
        (mk_begin_upload_rsp c.message_id (cmd_message_id cmd_rx) 0x8000 (retByte env ret)) =
        0x8000 ∧
      begin_upload_rsp_response_code
        (mk_begin_upload_rsp c.message_id (cmd_message_id cmd_rx) 0x8000 (retByte env ret)) =
        retByte env ret := by
  unfold bleReceiveCb at h
  rw [hacc] at h
  dsimp only at h
  unfold handleCmd at h
  have hne : cmd_command cmd_rx ≠ ble_ADV_CMD_SCAN_REQUEST := by
    rw [hcmd]; decide
  rw [if_neg hne, if_pos hcmd] at h
  have hw0 := receiveFilter_frame w w0 packet cmd_rx hacc
  obtain ⟨_, hs⟩ := handleBeginUpload_session env w0 w1 cmd_rx h
  obtain ⟨ret, w3, t1, t2, hbb, htr, ht1, ht2, hble⟩ := handleBeginUpload_spec env w0 w1 cmd_rx h
  have hf := mk_begin_upload_rsp_fields
    (getNextMessageId { w0.ble with otap := beginSession w0.ble.otap cmd_rx }).1
    (cmd_message_id cmd_rx) 0x8000 (retByte env ret) (retByte_lt env ret)
  refine ⟨?_, by rw [hs]; rfl, by rw [hs]; rfl, by rw [hs]; rfl, ret, w3, t1, t2,
    (getNextMessageId { w0.ble with otap := beginSession w0.ble.otap cmd_rx }).2,
    hbb, ?_, ht1, ht2, ?_, ?_, ?_, hble, hf.2.1, hf.2.2.1, hf.2.2.2.1, hf.2.2.2.2⟩
  · intro j
    rw [hs]
    exact bitSet_replicate_zero _ _
  · unfold newCalls
    rw [htr]
    have : w0.trace = w.trace := by rw [hw0]
    rw [this]
    simp
  · show w0.ble.ble_tx_items = _
    rw [hw0]
  · show w0.ble.ble_tx_items_head_p = _
    rw [hw0]
  · show (getNextMessageId { w0.ble with otap := beginSession w0.ble.otap cmd_rx }).1 = _
    unfold getNextMessageId
    dsimp only
    rw [hw0]

set_option maxRecDepth 100000 in
/-- The begin-upload request behind `afterBegin69` (69 bytes, sequence number
7, fragments of 23 bytes): the bitmap is clear and the session holds the
three values. -/
theorem C29_begin_upload_witness :
    (∀ j, bitSet afterBegin69.ble.otap.messageReceived j = false) ∧
    afterBegin69.ble.otap.scratchpad_length = 69 ∧
    afterBegin69.ble.otap.scratchpad_seqeunce_number = 7 ∧
    afterBegin69.ble.otap.adv_package_length = 23 :=
  have h := C29_begin_upload sampleEnv sampleWorld
    (filtered sampleWorld (mkPacket (beginUploadFrame 5 0x5678 7 69 23))).1 afterBegin69
    (mkPacket (beginUploadFrame 5 0x5678 7 69 23))
    ((filtered sampleWorld (mkPacket (beginUploadFrame 5 0x5678 7 69 23))).2.getD [])
    (receiveFilter_eq _ _ (by decide)) (by decide) (eq_ok_okOr _ _ (by decide))
  ⟨h.1, h.2.1.trans (by decide), h.2.2.1.trans (by decide), h.2.2.2.1.trans (by decide)⟩
/-! ### Packets of other vendors -/

/-- C34: a packet that matches neither vendor layout (not: more than 10 bytes
with `payload[7] = 0xFF`, `payload[8] = 0xEF`, `payload[9] = 0x09`; and not: 30 bytes
with `payload[13] = 0x07`) leaves every member of the state as it was:
`bleReceiveCb` returns the state it was called in, with the retained frame,
`last_received_message_id`, the upload session, the backlog and both event
queues. -/
theorem C34_unmatched_packet_ignored (env : Env) (w : World)
    (packet : app_lib_beacon_rx_received_t)
    (hman : ¬ (packet.length > 10 ∧ packet.payload.getD 7 0 = 0xFF ∧
      packet.payload.getD 8 0 = 0xEF ∧ packet.payload.getD 9 0 = 0x09))
    (hsvc : ¬ (packet.length = 30 ∧ packet.payload.getD 13 0 = 0x07)) :
    bleReceiveCb env w packet = .ok w := by
  have hp : prefilter w.m_ble_rx_buffer packet = .ok none := by
    unfold prefilter
    exact (if_neg hman).trans (if_neg hsvc)
  unfold bleReceiveCb receiveFilter
  rw [hp]

/-- A packet of 12 bytes with another company id changes nothing in the
sample state. -/
theorem C34_unmatched_packet_ignored_witness :
    bleReceiveCb sampleEnv sampleWorld
      { payload := [0x13, 1, 2, 3, 4, 0x14, 5, 0xFF, 0x4C, 0x00, 7, 7] } = .ok sampleWorld :=
  C34_unmatched_packet_ignored sampleEnv sampleWorld
    { payload := [0x13, 1, 2, 3, 4, 0x14, 5, 0xFF, 0x4C, 0x00, 7, 7] } (by decide) (by decide)
/-! ### The body of `initialize` runs once -/

theorem init_handle (env : Env) (sm : Sm_context) (w : World)
    (hm : sm.event_matrix = ble_event_matrix)
    (hst : (sm.current_state = sm_S_BOOT ∧ sm.exit_action = none) ∨
      (sm.current_state = sm_S_IDLE ∧ sm.exit_action = none) ∨
      (sm.current_state = ble_S_SCANNING ∧ sm.exit_action = some 3)) :
    (Sm_handleEvents (ble_code env) sm w).sm.event_matrix = ble_event_matrix ∧
    (((Sm_handleEvents (ble_code env) sm w).world = w ∧
       (Sm_handleEvents (ble_code env) sm w).sm.current_state = sm.current_state ∧
       (Sm_handleEvents (ble_code env) sm w).sm.exit_action = sm.exit_action) ∨
     (sm.current_state = sm_S_BOOT ∧
       (Sm_handleEvents (ble_code env) sm w).world = initializeBle env w ∧
       (Sm_handleEvents (ble_code env) sm w).sm.current_state = sm_S_IDLE ∧
       (Sm_handleEvents (ble_code env) sm w).sm.exit_action = none) ∨
     (sm.current_state = sm_S_IDLE ∧
       (Sm_handleEvents (ble_code env) sm w).world = scanningStart w ∧
       (Sm_handleEvents (ble_code env) sm w).sm.current_state = ble_S_SCANNING ∧
       (Sm_handleEvents (ble_code env) sm w).sm.exit_action = some 3)) := by
  obtain ⟨cs, q, hd, m, ex⟩ := sm
  simp only at hm hst
  subst hm
  unfold Sm_handleEvents
  cases hd with
  | nil => exact ⟨rfl, Or.inl ⟨rfl, rfl, rfl⟩⟩
  | cons slot rest =>
    dsimp only
    generalize q.getD slot sm_E_NONE = e
    cases hg : isSink w <;> rcases hst with ⟨hb, hx⟩ | ⟨hb, hx⟩ | ⟨hb, hx⟩ <;>
      subst hb hx <;> cases e <;>
        simp [findTransition, rowMatches, ble_event_matrix, takeTransition, callIfSet, ble_code,
          hg]

theorem initCount_initializeBle (env : Env) (w : World) :
    (initializeBle env w).ble.initialized = true ∧
    initCount (initializeBle env w) =
      if w.ble.initialized then initCount w else initCount w + 1 := by
  unfold initializeBle
  cases h : w.ble.initialized
  · simp [initCount, World.log, List.count_append]
  · simp [h]

theorem initCount_scanningStart (w : World) :
    (scanningStart w).ble.initialized = w.ble.initialized ∧
    initCount (scanningStart w) = initCount w := by
  simp [scanningStart, initCount, World.log, List.count_append]

theorem initInv_createStatic (app_settings : app_settings_t) (storage : Storage) :
    InitInv (Ble_createStatic app_settings storage) :=
  ⟨rfl, Or.inl ⟨rfl, rfl⟩, rfl⟩

/-- One step of a run keeps `InitInv`, never leads back to `sm_S_BOOT`, and
runs the body of `initialize` only from `sm_S_BOOT` with `initialized` clear. -/
theorem initInv_step (env : Env) (w : World) (op : Ble_op) (h : InitInv w) :
    InitInv (Ble_step env w op) ∧
    (w.sm.current_state ≠ sm_S_BOOT → (Ble_step env w op).sm.current_state ≠ sm_S_BOOT) ∧
    (w.sm.current_state ≠ sm_S_BOOT ∨ w.ble.initialized = true →
      initCount (Ble_step env w op) = initCount w) := by
  obtain ⟨hm, hst, hc⟩ := h
  cases op with
  | fire e =>
    have hf := Sm_fireEvent_fields w.sm e
    refine ⟨⟨?_, ?_, hc⟩, ?_, fun _ => rfl⟩
    · show (Sm_fireEvent w.sm e).event_matrix = _
      rw [hf.1, hm]
    · show ((Sm_fireEvent w.sm e).current_state = _ ∧ (Sm_fireEvent w.sm e).exit_action = _) ∨
        ((Sm_fireEvent w.sm e).current_state = _ ∧ (Sm_fireEvent w.sm e).exit_action = _) ∨
        ((Sm_fireEvent w.sm e).current_state = _ ∧ (Sm_fireEvent w.sm e).exit_action = _)
      rw [hf.2.1, hf.2.2]; exact hst
    · show w.sm.current_state ≠ _ → (Sm_fireEvent w.sm e).current_state ≠ _
      rw [hf.2.1]; exact id
  | dispatch =>
    obtain ⟨h1, h2⟩ := init_handle env w.sm w hm hst
    show InitInv (Ble_handleEvents env w) ∧
      (w.sm.current_state ≠ sm_S_BOOT →
        (Ble_handleEvents env w).sm.current_state ≠ sm_S_BOOT) ∧
      (w.sm.current_state ≠ sm_S_BOOT ∨ w.ble.initialized = true →
        initCount (Ble_handleEvents env w) = initCount w)
    have hble : (Ble_handleEvents env w).ble = (Sm_handleEvents (ble_code env) w.sm w).world.ble :=
      rfl
    have hcnt : initCount (Ble_handleEvents env w) =
        initCount (Sm_handleEvents (ble_code env) w.sm w).world := rfl
    have hsm : (Ble_handleEvents env w).sm = (Sm_handleEvents (ble_code env) w.sm w).sm := rfl
    unfold InitInv
    rw [hble, hcnt, hsm]
    rcases h2 with ⟨hw, hs, hx⟩ | ⟨hb, hw, hs, hx⟩ | ⟨hi, hw, hs, hx⟩
    · rw [hw, hs, hx]
      exact ⟨⟨h1, hst, hc⟩, id, fun _ => rfl⟩
    · rw [hw, hs, hx, (initCount_initializeBle env w).1, (initCount_initializeBle env w).2]
      refine ⟨⟨h1, Or.inr (Or.inl ⟨rfl, rfl⟩), ?_⟩, fun _ => by decide, ?_⟩
      · rw [hc]; cases w.ble.initialized <;> rfl
      · rintro (hn | hini)
        · exact absurd hb hn
        · rw [if_pos hini]
    · rw [hw, hs, hx, (initCount_scanningStart w).1, (initCount_scanningStart w).2]
      exact ⟨⟨h1, Or.inr (Or.inr ⟨rfl, rfl⟩), hc⟩, fun _ => by decide, fun _ => rfl⟩

theorem initInv_run (env : Env) (ops : List Ble_op) :
    ∀ w, InitInv w → InitInv (Ble_run env w ops) ∧
      (w.sm.current_state ≠ sm_S_BOOT →
        (Ble_run env w ops).sm.current_state ≠ sm_S_BOOT ∧
        initCount (Ble_run env w ops) = initCount w) := by
  induction ops with
  | nil => intro w h; exact ⟨h, fun hn => ⟨hn, rfl⟩⟩
  | cons op rest ih =>
    intro w h
    obtain ⟨h1, h2, h3⟩ := initInv_step env w op h
    obtain ⟨i1, i2⟩ := ih _ h1
    show InitInv (Ble_run env (Ble_step env w op) rest) ∧
      (w.sm.current_state ≠ sm_S_BOOT →
        (Ble_run env (Ble_step env w op) rest).sm.current_state ≠ sm_S_BOOT ∧
        initCount (Ble_run env (Ble_step env w op) rest) = initCount w)
    refine ⟨i1, fun hn => ?_⟩
    obtain ⟨j1, j2⟩ := i2 (h2 hn)
    exact ⟨j1, j2.trans (h3 (Or.inl hn))⟩

theorem Ble_run_append (env : Env) (w : World) (ops ops2 : List Ble_op) :
    Ble_run env w (ops ++ ops2) = Ble_run env (Ble_run env w ops) ops2 := by
  unfold Ble_run
  exact List.foldl_append _ _ _ _

/-- C33: in every run of the BLE state machine from `Ble_createStatic` (events
fired and dispatch task run in any order) the body of `initialize` (which
registers the receive callback, derives the radio address and sets
`initialized`) ran at most once, and exactly once if `initialized` is set.  Once
the machine has left `sm_S_BOOT` no continuation of the run brings it back there
or runs the body again.  The only row of the table that names `initialize`
requires `sm_S_BOOT`, and `initialize` leaves a state with `initialized` set as it
is. -/
theorem C33_init_runs_once (env : Env) (app_settings : app_settings_t) (storage : Storage)
    (ops : List Ble_op) :
    initCount (Ble_run env (Ble_createStatic app_settings storage) ops) ≤ 1 ∧
    initCount (Ble_run env (Ble_createStatic app_settings storage) ops) =
      (if (Ble_run env (Ble_createStatic app_settings storage) ops).ble.initialized then 1
       else 0) ∧
    (∀ ops2 : List Ble_op,
      (Ble_run env (Ble_createStatic app_settings storage) ops).sm.current_state ≠ sm_S_BOOT →
      (Ble_run env (Ble_createStatic app_settings storage) (ops ++ ops2)).sm.current_state ≠
        sm_S_BOOT ∧
      initCount (Ble_run env (Ble_createStatic app_settings storage) (ops ++ ops2)) =
        initCount (Ble_run env (Ble_createStatic app_settings storage) ops)) ∧
    (∀ row ∈ ble_event_matrix, row.entry_function = some 1 ∨ row.exit_function = some 1 →
      row.state = sm_S_BOOT) ∧
    (∀ v : World, v.ble.initialized = true → initializeBle env v = v) := by
  obtain ⟨hinv, _⟩ := initInv_run env ops _ (initInv_createStatic app_settings storage)
  refine ⟨?_, hinv.2.2, ?_, by decide, ?_⟩
  · rw [hinv.2.2]; split <;> decide
  · intro ops2 hn
    rw [Ble_run_append]
    exact (initInv_run env ops2 _ hinv).2 hn
  · intro v hv
    unfold initializeBle
    rw [if_pos hv]

/-- On the sample sink, `sm_E_INIT` fired and dispatched twice over, with a scan
started in between: the body of `initialize` ran once; and once the machine is
in `sm_S_IDLE`, firing and dispatching `sm_E_INIT` again does not run it. -/
theorem C33_init_runs_once_witness :
    initCount (Ble_run sampleEnv sampleWorld
      [.fire sm_E_INIT, .dispatch, .fire ble_E_SCANNING_START, .fire sm_E_INIT, .dispatch,
       .dispatch]) = 1 ∧
    (Ble_run sampleEnv sampleWorld [.fire sm_E_INIT, .dispatch]).sm.current_state ≠ sm_S_BOOT ∧
    initCount (Ble_run sampleEnv sampleWorld
      ([.fire sm_E_INIT, .dispatch] ++ [.fire sm_E_INIT, .dispatch])) =
      initCount (Ble_run sampleEnv sampleWorld [.fire sm_E_INIT, .dispatch]) :=
  ⟨by decide, by decide,
   ((C33_init_runs_once sampleEnv { is_sink := 1 } { mem := List.replicate 8192 0xFF }
      [.fire sm_E_INIT, .dispatch]).2.2.1 [.fire sm_E_INIT, .dispatch] (by decide)).2⟩
/-! ### The two duplicate checks and the retained frame -/

theorem getCmdFromBuffer_some (rx : List Nat) (n : Nat) :
    (getCmdFromBuffer rx n ≠ none ↔ 3 < n ∧ n ≤ 27) ∧
    (3 < n ∧ n ≤ 27 → getCmdFromBuffer rx n = some rx) := by
  unfold getCmdFromBuffer BLE_ADV_TOTAL_LEN BLE_ADV_HEADER_LEN
  by_cases h1 : n > 27
  · rw [if_pos h1]
    exact ⟨⟨fun h => absurd rfl h, fun h => by omega⟩, fun h => by omega⟩
  · rw [if_neg h1]
    by_cases h2 : n ≤ 3
    · rw [if_pos h2]
      exact ⟨⟨fun h => absurd rfl h, fun h => by omega⟩, fun h => by omega⟩
    · rw [if_neg h2]
      exact ⟨⟨fun _ => by omega, fun _ => by simp⟩, fun _ => rfl⟩

/-- The part of `receiveFilter` behind layout filter and length check, as one
case distinction. -/
theorem receiveFilter_checks (w : World) (packet : app_lib_beacon_rx_received_t)
    (rx : List Nat) (n : Nat)
    (hpre : prefilter w.m_ble_rx_buffer packet = .ok (some (rx, n)))
    (hlen : 3 < n ∧ n ≤ 27) :
    receiveFilter w packet =
      if w.m_lastReceivedPackage.take n = rx.take n then
        .ok ({ w with m_ble_rx_buffer := rx }, none)
      else if w.ble.last_received_message_id = cmd_message_id rx ∧ 1 < cmd_message_id rx then
        .ok ({ w with
               m_ble_rx_buffer := rx
               m_lastReceivedPackage := memcpy w.m_lastReceivedPackage rx n }, none)
      else
        .ok ({ w with
               m_ble_rx_buffer := rx
               m_lastReceivedPackage := memcpy w.m_lastReceivedPackage rx n
               ble := { w.ble with last_received_message_id := cmd_message_id rx }
               accepted := w.accepted ++ [rx.take n] }, some rx) := by
  unfold receiveFilter
  rw [hpre]
  dsimp only
  rw [(getCmdFromBuffer_some rx n).2 hlen]

theorem take_eq_getD (a b : List Nat) (n i : Nat) (h : a.take n = b.take n) (hi : i < n) :
    a.getD i 0 = b.getD i 0 := by
  have h1 : (a.take n).getD i 0 = (b.take n).getD i 0 := by rw [h]
  simpa [List.getD_eq_getElem?_getD, List.getElem?_take, hi] using h1

/-- C39 (amended): the byte-duplicate check compares the incoming frame, over
its own length `n`, with the first `n` bytes of the retained buffer; the length
of the frame that was retained takes no part in it.  A frame (past layout
filter and length check) whose `n` bytes equal the first `n` retained bytes is
discarded and changes nothing but the receive buffer.  A frame that differs
from the retained buffer in one of its `n` bytes is not discarded by this
check: it replaces the first `n` retained bytes, and it is accepted unless the
message-id check discards it. -/
theorem C39_byte_check_over_frame_length (env : Env) (w : World)
    (packet : app_lib_beacon_rx_received_t) (rx : List Nat) (n : Nat)
    (hpre : prefilter w.m_ble_rx_buffer packet = .ok (some (rx, n)))
    (hlen : 3 < n ∧ n ≤ 27) :
    (w.m_lastReceivedPackage.take n = rx.take n →
      receiveFilter w packet = .ok ({ w with m_ble_rx_buffer := rx }, none) ∧
      bleReceiveCb env w packet = .ok { w with m_ble_rx_buffer := rx }) ∧
    ((∃ i, i < n ∧ w.m_lastReceivedPackage.getD i 0 ≠ rx.getD i 0) →
      ∃ w0 o, receiveFilter w packet = .ok (w0, o) ∧
        w0.m_lastReceivedPackage = memcpy w.m_lastReceivedPackage rx n ∧
        w0.m_lastReceivedPackage.take n = rx.take n ∧
        (¬ (w.ble.last_received_message_id = cmd_message_id rx ∧ 1 < cmd_message_id rx) →
          o = some rx ∧ w0.accepted = w.accepted ++ [rx.take n])) := by
  have hf := receiveFilter_checks w packet rx n hpre hlen
  have hn := (prefilter_idem _ _ _ _ hpre).2
  constructor
  · intro hb
    rw [if_pos hb] at hf
    refine ⟨hf, ?_⟩
    unfold bleReceiveCb
    rw [hf]
  · rintro ⟨i, hi, hne⟩
    have hb : w.m_lastReceivedPackage.take n ≠ rx.take n :=
      fun hc => hne (take_eq_getD _ _ n i hc hi)
    rw [if_neg hb] at hf
    by_cases hid : w.ble.last_received_message_id = cmd_message_id rx ∧ 1 < cmd_message_id rx
    · rw [if_pos hid] at hf
      exact ⟨_, _, hf, rfl, memcpy_take _ _ _ hn, fun hc => absurd hid hc⟩
    · rw [if_neg hid] at hf
      exact ⟨_, _, hf, rfl, memcpy_take _ _ _ hn, fun _ => ⟨rfl, rfl⟩⟩

set_option maxRecDepth 100000 in
/-- C39 fails as stated: two frames that differ in length from the retained
frame are discarded by the byte-duplicate check.  After the scan request
`01 00 02 01 01` (5 bytes, message id 1) was accepted, the frame `01 00 02 01` (4
bytes, the retained frame without its last byte) and the frame
`01 00 02 01 01 00` (6 bytes, the retained frame followed by the zero the buffer
holds behind it) both pass layout filter and length check and are
discarded; with message id 1 the message-id check discards nothing. -/
theorem C39_counterexample :
    (afterScan 1).accepted = [[1, 0, 2, 1, 1]] ∧
    (prefilter (afterScan 1).m_ble_rx_buffer (mkPacket [1, 0, 2, 1])).toOption.map
      (fun r => r.map (fun q => (q.2, (getCmdFromBuffer q.1 q.2).isSome,
        cmd_message_id q.1))) = some (some (4, true, 1)) ∧
    (receiveFilter (afterScan 1) (mkPacket [1, 0, 2, 1])).toOption.map (fun r => r.2) =
      some none ∧
    (prefilter (afterScan 1).m_ble_rx_buffer (mkPacket [1, 0, 2, 1, 1, 0])).toOption.map
      (fun r => r.map (fun q => (q.2, (getCmdFromBuffer q.1 q.2).isSome,
        cmd_message_id q.1))) = some (some (6, true, 1)) ∧
    (receiveFilter (afterScan 1) (mkPacket [1, 0, 2, 1, 1, 0])).toOption.map (fun r => r.2) =
      some none := by
  decide

set_option maxRecDepth 100000 in
/-- In the sample state after the scan request `01 00 02 01 01`: the frame
`01 00 02 01` is discarded by the byte comparison, the frame `01 00 02 07` is
not. -/
theorem C39_byte_check_over_frame_length_witness :
    (receiveFilter (afterScan 1) (mkPacket [1, 0, 2, 1]) =
      .ok ({ afterScan 1 with
             m_ble_rx_buffer := memcpy (afterScan 1).m_ble_rx_buffer [1, 0, 2, 1] 4 }, none) ∧
     bleReceiveCb sampleEnv (afterScan 1) (mkPacket [1, 0, 2, 1]) =
      .ok { afterScan 1 with
            m_ble_rx_buffer := memcpy (afterScan 1).m_ble_rx_buffer [1, 0, 2, 1] 4 }) ∧
    ∃ w0 o, receiveFilter (afterScan 1) (mkPacket [1, 0, 2, 7]) = .ok (w0, o) ∧
      w0.m_lastReceivedPackage =
        memcpy (afterScan 1).m_lastReceivedPackage
          (memcpy (afterScan 1).m_ble_rx_buffer [1, 0, 2, 7] 4) 4 ∧
      w0.m_lastReceivedPackage.take 4 =
        (memcpy (afterScan 1).m_ble_rx_buffer [1, 0, 2, 7] 4).take 4 ∧
      (¬ ((afterScan 1).ble.last_received_message_id =
            cmd_message_id (memcpy (afterScan 1).m_ble_rx_buffer [1, 0, 2, 7] 4) ∧
          1 < cmd_message_id (memcpy (afterScan 1).m_ble_rx_buffer [1, 0, 2, 7] 4)) →
        o = some (memcpy (afterScan 1).m_ble_rx_buffer [1, 0, 2, 7] 4) ∧
        w0.accepted = (afterScan 1).accepted ++
          [(memcpy (afterScan 1).m_ble_rx_buffer [1, 0, 2, 7] 4).take 4]) :=
  ⟨(C39_byte_check_over_frame_length sampleEnv (afterScan 1) (mkPacket [1, 0, 2, 1])
      (memcpy (afterScan 1).m_ble_rx_buffer [1, 0, 2, 1] 4) 4 rfl (by decide)).1 (by decide),
   (C39_byte_check_over_frame_length sampleEnv (afterScan 1) (mkPacket [1, 0, 2, 7])
      (memcpy (afterScan 1).m_ble_rx_buffer [1, 0, 2, 7] 4) 4 rfl (by decide)).2
      ⟨3, by decide, by decide⟩⟩
/-- C35 (amended): the retained buffer holds, in its first bytes, the most
recent frame that passed the byte-identity check, whether or not the
message-id check discarded it afterwards.  A call of `bleReceiveCb` that returns
leaves the retained bytes as they were when the packet matches no layout,
fails the length check or is discarded by the byte-identity check (none of
these is accepted); a frame of `n` bytes that passes the byte-identity check
replaces the first `n` retained bytes, both when the message-id check discards
it (it is not accepted) and when it reaches the command dispatch (it is
accepted). -/
theorem C35_retained_is_last_past_byte_check (env : Env) (w w1 : World)
    (packet : app_lib_beacon_rx_received_t)
    (h : bleReceiveCb env w packet = .ok w1) :
    (prefilter w.m_ble_rx_buffer packet = .ok none →
      w1.m_lastReceivedPackage = w.m_lastReceivedPackage ∧ w1.accepted = w.accepted) ∧
    (∀ rx n, prefilter w.m_ble_rx_buffer packet = .ok (some (rx, n)) →
      (¬ (3 < n ∧ n ≤ 27) ∨ w.m_lastReceivedPackage.take n = rx.take n →
        w1.m_lastReceivedPackage = w.m_lastReceivedPackage ∧ w1.accepted = w.accepted) ∧
      (3 < n ∧ n ≤ 27 → w.m_lastReceivedPackage.take n ≠ rx.take n →
        w1.m_lastReceivedPackage = memcpy w.m_lastReceivedPackage rx n ∧
        w1.m_lastReceivedPackage.take n = rx.take n ∧
        (w.ble.last_received_message_id = cmd_message_id rx ∧ 1 < cmd_message_id rx →
          w1.accepted = w.accepted) ∧
        (¬ (w.ble.last_received_message_id = cmd_message_id rx ∧ 1 < cmd_message_id rx) →
          w1.accepted = w.accepted ++ [rx.take n]))) := by
  constructor
  · intro hp
    unfold bleReceiveCb receiveFilter at h
    rw [hp] at h
    simp only [Except.ok.injEq] at h
    rw [← h]
    exact ⟨rfl, rfl⟩
  · intro rx n hp
    have hn := (prefilter_idem _ _ _ _ hp).2
    constructor
    · rintro (hlen | hb)
      · have hc : getCmdFromBuffer rx n = none := by
          by_contra hc
          exact hlen ((getCmdFromBuffer_some rx n).1.1 hc)
        unfold bleReceiveCb receiveFilter at h
        rw [hp] at h
        dsimp only at h
        rw [hc] at h
        simp only [Except.ok.injEq] at h
        rw [← h]
        exact ⟨rfl, rfl⟩
      · by_cases hlen : 3 < n ∧ n ≤ 27
        · have hf := receiveFilter_checks w packet rx n hp hlen
          rw [if_pos hb] at hf
          unfold bleReceiveCb at h
          rw [hf] at h
          simp only [Except.ok.injEq] at h
          rw [← h]
          exact ⟨rfl, rfl⟩
        · have hc : getCmdFromBuffer rx n = none := by
            by_contra hc
            exact hlen ((getCmdFromBuffer_some rx n).1.1 hc)
          unfold bleReceiveCb receiveFilter at h
          rw [hp] at h
          dsimp only at h
          rw [hc] at h
          simp only [Except.ok.injEq] at h
          rw [← h]
          exact ⟨rfl, rfl⟩
    · intro hlen hb
      have hf := receiveFilter_checks w packet rx n hp hlen
      rw [if_neg hb] at hf
      by_cases hid : w.ble.last_received_message_id = cmd_message_id rx ∧ 1 < cmd_message_id rx
      · rw [if_pos hid] at hf
        unfold bleReceiveCb at h
        rw [hf] at h
        simp only [Except.ok.injEq] at h
        rw [← h]
        exact ⟨rfl, memcpy_take _ _ _ hn, fun _ => rfl, fun hc => absurd hid hc⟩
      · rw [if_neg hid] at hf
        unfold bleReceiveCb at h
        rw [hf] at h
        obtain ⟨s1, _, s3⟩ := handleCmd_sameRx env _ w1 rx h
        refine ⟨s1, ?_, fun hc => absurd hc hid, fun _ => s3⟩
        rw [s1]
        exact memcpy_take _ _ _ hn

set_option maxRecDepth 100000 in
/-- C35 fails as stated: a frame discarded by the message-id check alters the
retained bytes.  After the scan request `05 00 02 01 01` (message id 5) was
accepted and retained, the frame `05 00 02 09 09` (message id 5 again) arrives: it
is discarded by the message-id check (the list of accepted frames, the
backlog and the event queue stay as they are), but the retained bytes are now
those of the discarded frame, not those of the last accepted one. -/
theorem C35_counterexample :
    (afterScan 5).accepted = [[5, 0, 2, 1, 1]] ∧
    (afterScan 5).m_lastReceivedPackage.take 5 = [5, 0, 2, 1, 1] ∧
    (receiveFilter (afterScan 5) (mkPacket [5, 0, 2, 9, 9])).toOption.map (fun r => r.2) =
      some none ∧
    (bleReceiveCb sampleEnv (afterScan 5) (mkPacket [5, 0, 2, 9, 9])).toOption.map
      (fun w1 => (w1.accepted, decide (w1.ble = (afterScan 5).ble),
        decide (w1.sm = (afterScan 5).sm), w1.m_lastReceivedPackage.take 5)) =
      some ([[5, 0, 2, 1, 1]], true, true, [5, 0, 2, 9, 9]) := by
  decide

set_option maxRecDepth 100000 in
/-- In the sample state after the scan request `05 00 02 01 01`, the frame
`05 00 02 09 09` passes the byte-identity check and is retained although the
message-id check discards it. -/
theorem C35_retained_is_last_past_byte_check_witness :
    (okOr (bleReceiveCb sampleEnv (afterScan 5) (mkPacket [5, 0, 2, 9, 9]))
      sampleWorld).m_lastReceivedPackage =
      memcpy (afterScan 5).m_lastReceivedPackage
        (memcpy (afterScan 5).m_ble_rx_buffer [5, 0, 2, 9, 9] 5) 5 ∧
    (okOr (bleReceiveCb sampleEnv (afterScan 5) (mkPacket [5, 0, 2, 9, 9]))
      sampleWorld).accepted = (afterScan 5).accepted :=
  have h := ((C35_retained_is_last_past_byte_check sampleEnv (afterScan 5) _
    (mkPacket [5, 0, 2, 9, 9]) (eq_ok_okOr _ sampleWorld (by decide))).2
    (memcpy (afterScan 5).m_ble_rx_buffer [5, 0, 2, 9, 9] 5) 5 rfl).2 (by decide) (by decide)
  ⟨h.1, h.2.2.1 (by decide)⟩
/-! ### Streaming the image into the update pipeline -/

theorem read_total (env : Env) (w : World) (buf : List Nat) (src amount : Nat)
    (hb : amount ≤ buf.length) (hpoll : 1 ≤ env.poll_time) :
    ∃ done buf1 st,
      Otap.read env w buf src amount = .ok (done, buf1,
        { w with storage := st, trace := w.trace ++ [Call.mem_startRead src amount] }) ∧
      buf1.length = buf.length := by
  unfold Otap.read
  rw [if_neg (by omega)]
  dsimp only
  by_cases hs : env.start_ok w.trace.length = true
  · simp only [hs, Bool.not_true, Bool.false_eq_true, if_false]
    obtain ⟨done, w3, hw⟩ := active_wait_returns env
      { w.log (Call.mem_startRead src amount) with storage :=
        { (w.log (Call.mem_startRead src amount)).storage with
          busy_until := (env.op_time w.trace.length).map
            (fun d => (w.log (Call.mem_startRead src amount)).storage.now + d) } }
      (if w.otap.m_memory_area.external_flash then 100000 else 0) hpoll
    obtain ⟨now1, hn⟩ := active_wait_frame _ _ _ _ _ hw
    rw [hw]
    refine ⟨done,
      (match Otap.load (w.log (Call.mem_startRead src amount)).storage.mem src amount with
        | some bytes => memcpy buf bytes amount
        | none => buf), w3.storage, ?_, ?_⟩
    · dsimp only
      rw [hn]
      rfl
    · have hmem : (w.log (Call.mem_startRead src amount)).storage.mem = w.storage.mem := rfl
      rw [hmem]
      unfold Otap.load
      by_cases hr : src + amount ≤ w.storage.mem.length
      · rw [if_pos hr]
        apply memcpy_length _ _ _ _ hb
        simp
        omega
      · rw [if_neg hr]
  · have hs2 : env.start_ok w.trace.length = false := by simpa using hs
    simp only [hs2, Bool.not_false, if_true]
    exact ⟨false, buf, w.storage, rfl, rfl⟩
theorem range_succ_map {α : Type} (f : Nat → α) (m : Nat) :
    (List.range (m + 1)).map f = f 0 :: (List.range m).map (fun k => f (k + 1)) := by
  rw [List.range_succ_eq_map, List.map_cons, List.map_map]
  rfl

/-- The loop of `Otap_process` as long as its counter does not wrap: `m` rounds
remain from the counter value `i`.  The loop returns; the calls of
`lib_otap->write` it makes are those for the offsets `i`, `i + b`, ... in this order,
up to the end when each is accepted, up to and including the first one that
is refused otherwise. -/
theorem streamLoop_rounds (env : Env) (len b : Nat) (hpoll : 1 ≤ env.poll_time) :
    ∀ (m i fuel : Nat) (w : World),
      i + m * b < 4294967296 → len ≤ i + m * b → m < fuel →
      b ≤ w.otap.m_buffer_block_write.length →
      (∀ k, k < m → i + k * b < len) →
      ∃ ok w1 t, Otap.streamLoop env len b fuel i w = .ok (ok, w1) ∧
        w1.trace = w.trace ++ t ∧
        ((∀ k, k < m → env.otap_write_ok (w.trace.length + 1 + 2 * k) = true) →
          ok = true ∧ (pipelineCalls t).map Call.shape =
            (List.range m).map
              (fun k => Call.otap_write (i + k * b) (min b (len - (i + k * b))) [])) ∧
        (∀ j, j < m →
          (∀ k, k < j → env.otap_write_ok (w.trace.length + 1 + 2 * k) = true) →
          env.otap_write_ok (w.trace.length + 1 + 2 * j) = false →
          ok = false ∧ (pipelineCalls t).map Call.shape =
            (List.range (j + 1)).map
              (fun k => Call.otap_write (i + k * b) (min b (len - (i + k * b))) [])) := by
  intro m
  induction m with
  | zero =>
    intro i fuel w _ hlen hfuel _ _
    obtain ⟨f, rfl⟩ : ∃ f, fuel = f + 1 := ⟨fuel - 1, by omega⟩
    refine ⟨true, w, [], ?_, by simp, fun _ => ⟨rfl, rfl⟩, fun j hj => absurd hj (by omega)⟩
    unfold Otap.streamLoop
    rw [if_neg (by omega)]
  | succ m ih =>
    intro i fuel w hwrap hlen hfuel hbuf hbelow
    obtain ⟨f, rfl⟩ : ∃ f, fuel = f + 1 := ⟨fuel - 1, by omega⟩
    have hsm : (m + 1) * b = m * b + b := Nat.succ_mul m b
    have hi : i < len := by have := hbelow 0 (by omega); omega
    obtain ⟨done, buf1, st, hr, hl⟩ := read_total env w w.otap.m_buffer_block_write
      ((w.otap.m_header_size + i) % 4294967296) b hbuf hpoll
    have hnum : (if len - i > b then b else len - i) = min b (len - i) := by
      split <;> omega
    unfold Otap.streamLoop
    rw [if_pos hi, hr]
    dsimp only
    rw [hnum]
    have htl : (w.trace ++ [Call.mem_startRead ((w.otap.m_header_size + i) % 4294967296) b]).length
        = w.trace.length + 1 := by simp
    rw [htl]
    by_cases hok : env.otap_write_ok (w.trace.length + 1) = true
    · rw [hok]
      simp only [Bool.not_true, Bool.false_eq_true, if_false]
      rw [Nat.mod_eq_of_lt (by omega)]
      obtain ⟨ok, w1, t, hrun, htr, hall, hfail⟩ := ih (i + b) f
        (World.log { w with
            storage := st
            trace := w.trace ++ [Call.mem_startRead ((w.otap.m_header_size + i) % 4294967296) b]
            otap := { w.otap with m_buffer_block_write := buf1 } }
          (Call.otap_write i (min b (len - i)) (buf1.take (min b (len - i)))))
        (by omega) (by omega) (by omega) (by show b ≤ buf1.length; omega)
        (fun k hk => by
          have := hbelow (k + 1) (by omega)
          have h2 : (k + 1) * b = k * b + b := Nat.succ_mul k b
          omega)
      have hT : (World.log { w with
            storage := st
            trace := w.trace ++ [Call.mem_startRead ((w.otap.m_header_size + i) % 4294967296) b]
            otap := { w.otap with m_buffer_block_write := buf1 } }
          (Call.otap_write i (min b (len - i)) (buf1.take (min b (len - i))))).trace =
          w.trace ++ [Call.mem_startRead ((w.otap.m_header_size + i) % 4294967296) b,
            Call.otap_write i (min b (len - i)) (buf1.take (min b (len - i)))] := by
        simp [World.log]
      have hTl : (World.log { w with
            storage := st
            trace := w.trace ++ [Call.mem_startRead ((w.otap.m_header_size + i) % 4294967296) b]
            otap := { w.otap with m_buffer_block_write := buf1 } }
          (Call.otap_write i (min b (len - i)) (buf1.take (min b (len - i))))).trace.length =
          w.trace.length + 2 := by
        rw [hT]; simp
      rw [hTl] at hall hfail
      have hshape : ∀ t0 : List Call, (pipelineCalls
          ([Call.mem_startRead ((w.otap.m_header_size + i) % 4294967296) b,
            Call.otap_write i (min b (len - i)) (buf1.take (min b (len - i)))] ++ t0)).map
            Call.shape =
          Call.otap_write i (min b (len - i)) [] :: (pipelineCalls t0).map Call.shape := by
        intro t0
        simp [pipelineCalls, Call.isPipeline, Call.shape]
      have hfun : ∀ n : Nat, (List.range (n + 1)).map
          (fun k => Call.otap_write (i + k * b) (min b (len - (i + k * b))) []) =
          Call.otap_write i (min b (len - i)) [] :: (List.range n).map
            (fun k => Call.otap_write (i + b + k * b) (min b (len - (i + b + k * b))) []) := by
        intro n
        rw [range_succ_map]
        simp only [Nat.zero_mul, Nat.add_zero]
        congr 1
        apply List.map_congr_left
        intro k _
        have h2 : (k + 1) * b = k * b + b := Nat.succ_mul k b
        rw [h2, show i + (k * b + b) = i + b + k * b by omega]
      refine ⟨ok, w1, [Call.mem_startRead ((w.otap.m_header_size + i) % 4294967296) b,
          Call.otap_write i (min b (len - i)) (buf1.take (min b (len - i)))] ++ t, hrun,
        by rw [htr, hT, List.append_assoc], ?_, ?_⟩
      · intro hk
        obtain ⟨h1, h2⟩ := hall (fun k hk2 => by
          have := hk (k + 1) (by omega)
          rw [show w.trace.length + 2 + 1 + 2 * k = w.trace.length + 1 + 2 * (k + 1) by omega]
          exact this)
        exact ⟨h1, by rw [hshape, h2, hfun]⟩
      · intro j hj hbefore hrefused
        cases j with
        | zero => rw [Nat.mul_zero, Nat.add_zero, hok] at hrefused; cases hrefused
        | succ j =>
          obtain ⟨h1, h2⟩ := hfail j (by omega) (fun k hk2 => by
            have := hbefore (k + 1) (by omega)
            rw [show w.trace.length + 2 + 1 + 2 * k = w.trace.length + 1 + 2 * (k + 1) by omega]
            exact this)
            (by
              rw [show w.trace.length + 2 + 1 + 2 * j = w.trace.length + 1 + 2 * (j + 1) by omega]
              exact hrefused)
          exact ⟨h1, by rw [hshape, h2, hfun]⟩
    · have hno : env.otap_write_ok (w.trace.length + 1) = false := by simpa using hok
      rw [hno]
      simp only [Bool.not_false, if_true]
      refine ⟨false, _, [Call.mem_startRead ((w.otap.m_header_size + i) % 4294967296) b,
        Call.otap_write i (min b (len - i)) (buf1.take (min b (len - i)))], rfl,
        by simp [World.log], ?_, ?_⟩
      · intro hk
        have := hk 0 (by omega)
        rw [Nat.mul_zero, Nat.add_zero, hno] at this
        cases this
      · intro j hj hbefore _
        cases j with
        | zero =>
          refine ⟨rfl, ?_⟩
          simp [pipelineCalls, Call.isPipeline, Call.shape, List.range_succ]
        | succ j =>
          have := hbefore 0 (by omega)
          rw [Nat.mul_zero, Nat.add_zero, hno] at this
          cases this
theorem ceil_rounds (len b : Nat) (hb : 1 ≤ b) :
    len ≤ (len + b - 1) / b * b ∧
    (∀ k, k < (len + b - 1) / b → k * b < len ∧ k * b + min b (len - k * b) ≤ len ∧
      1 ≤ min b (len - k * b)) := by
  have h1 := Nat.div_add_mod (len + b - 1) b
  have h2 := Nat.mod_lt (len + b - 1) (show b > 0 by omega)
  have h3 : b * ((len + b - 1) / b) = (len + b - 1) / b * b := Nat.mul_comm _ _
  refine ⟨by omega, fun k hk => ?_⟩
  have h4 : (k + 1) * b ≤ (len + b - 1) / b * b := Nat.mul_le_mul_right b hk
  have h5 : (k + 1) * b = k * b + b := Nat.succ_mul k b
  omega

theorem specBlocks_sum_upto (len b : Nat) :
    ∀ k, (((List.range k).map (fun j => (j * b, min b (len - j * b)))).map Prod.snd).sum =
      min (k * b) len := by
  intro k
  induction k with
  | zero => simp
  | succ k ih =>
    rw [List.range_succ, List.map_append, List.map_append, List.sum_append, ih]
    have h5 : (k + 1) * b = k * b + b := Nat.succ_mul k b
    simp only [List.map_cons, List.map_nil, List.sum_cons, List.sum_nil]
    omega

theorem specBlocks_take (len b k : Nat) (hk : k ≤ (len + b - 1) / b) :
    (specBlocks len b).take k = (List.range k).map (fun j => (j * b, min b (len - j * b))) := by
  unfold specBlocks
  rw [← List.map_take, List.take_range, Nat.min_eq_left hk]

/-- The blocks of the specification are contiguous, do not overlap, are not
longer than `b`, cover `len` bytes and number `ceil (len / b)`. -/
theorem specBlocks_facts (len b : Nat) (hb : 1 ≤ b) :
    (specBlocks len b).length = (len + b - 1) / b ∧
    (∀ k, k < (len + b - 1) / b →
      (specBlocks len b).getD k (0, 0) = (k * b, min b (len - k * b)) ∧
      k * b < len ∧ 1 ≤ min b (len - k * b) ∧ min b (len - k * b) ≤ b ∧
      (((specBlocks len b).take k).map Prod.snd).sum = k * b) ∧
    ((specBlocks len b).map Prod.snd).sum = len := by
  have hc := ceil_rounds len b hb
  refine ⟨by simp [specBlocks], fun k hk => ?_, ?_⟩
  · obtain ⟨c1, c2, c3⟩ := hc.2 k hk
    refine ⟨?_, c1, c3, Nat.min_le_left _ _, ?_⟩
    · unfold specBlocks
      rw [List.getD_eq_getElem?_getD, List.getElem?_map, List.getElem?_range hk]
      rfl
    · rw [specBlocks_take len b k (by omega), specBlocks_sum_upto]
      omega
  · have := specBlocks_sum_upto len b ((len + b - 1) / b)
    unfold specBlocks
    rw [this]
    omega
theorem specBlocks_calls (len b m : Nat) (hm : m ≤ (len + b - 1) / b) :
    (List.range m).map (fun k => Call.otap_write (0 + k * b) (min b (len - (0 + k * b))) []) =
      ((specBlocks len b).take m).map (fun p => Call.otap_write p.1 p.2 []) := by
  rw [specBlocks_take len b m hm, List.map_map]
  apply List.map_congr_left
  intro k _
  simp

theorem newCalls_append (w w1 : World) (x : List Call) (h : w1.trace = w.trace ++ x) :
    newCalls w w1 = x := by
  unfold newCalls
  rw [h]
  exact List.drop_left _ _

/-- C32 (amended): the second part of `Otap_process` for a stored length `len`
and block size `b = min (512, getMaxBlockNumBytes ())` with `b ≥ 1`, provided the
32-bit loop counter does not wrap (`ceil (len / b) * b < 2 ^ 32`).  The function
returns.  If every `lib_otap->write` is accepted, the writes are those of the
blocks of the specification (offsets `0, b, 2b, ...` below `len`, lengths
`min (b, len - offset)`), in order, followed by
`setTargetScratchpadAndAction`.  If write number `j` is the first one refused,
the result is `-1` and the calls into the pipeline are the writes of the blocks
`0 .. j` and nothing else.  The blocks of the specification number
`ceil (len / b)`, each starts where the ones before it end, none is empty or
longer than `b`, and their lengths add up to `len`. -/
theorem C32_block_streaming (env : Env) (w : World) (len : Nat)
    (hpoll : 1 ≤ env.poll_time) (hb : 1 ≤ blockSize env)
    (hbuf : Otap.BLOCK_SIZE ≤ w.otap.m_buffer_block_write.length)
    (htest : 16 ≤ w.otap.m_test.length)
    (hwrap : (len + blockSize env - 1) / blockSize env * blockSize env < 4294967296) :
    (∃ r w1, Otap.processStream env w len = .ok (r, w1) ∧
      ((∀ k, k < (len + blockSize env - 1) / blockSize env →
          env.otap_write_ok (w.trace.length + 2 + 2 * k) = true) →
        ∃ tail, (pipelineCalls (newCalls w w1)).map Call.shape =
          (specBlocks len (blockSize env)).map (fun p => Call.otap_write p.1 p.2 []) ++
            Call.otap_setTargetScratchpadAndAction env.otap_seq env.otap_crc :: tail) ∧
      (∀ j, j < (len + blockSize env - 1) / blockSize env →
        (∀ k, k < j → env.otap_write_ok (w.trace.length + 2 + 2 * k) = true) →
        env.otap_write_ok (w.trace.length + 2 + 2 * j) = false →
        r = minus_one ∧
        (pipelineCalls (newCalls w w1)).map Call.shape =
          ((specBlocks len (blockSize env)).take (j + 1)).map
            (fun p => Call.otap_write p.1 p.2 []))) ∧
    (specBlocks len (blockSize env)).length = (len + blockSize env - 1) / blockSize env ∧
    (∀ k, k < (len + blockSize env - 1) / blockSize env →
      (specBlocks len (blockSize env)).getD k (0, 0) =
        (k * blockSize env, min (blockSize env) (len - k * blockSize env)) ∧
      k * blockSize env < len ∧ 1 ≤ min (blockSize env) (len - k * blockSize env) ∧
      min (blockSize env) (len - k * blockSize env) ≤ blockSize env ∧
      (((specBlocks len (blockSize env)).take k).map Prod.snd).sum = k * blockSize env) ∧
    ((specBlocks len (blockSize env)).map Prod.snd).sum = len := by
  refine ⟨?_, specBlocks_facts len (blockSize env) hb⟩
  have hc := ceil_rounds len (blockSize env) hb
  have hble : blockSize env ≤ Otap.BLOCK_SIZE := by
    unfold blockSize
    split <;> omega
  have hN : (len + blockSize env - 1) / blockSize env ≤
      (len + blockSize env - 1) / blockSize env * blockSize env :=
    Nat.le_mul_of_pos_right _ (by omega)
  obtain ⟨done, test, st, hr, _⟩ := read_total env w w.otap.m_test
    ((w.otap.m_header_size + len + 4294967296 - 16) % 4294967296) 16 htest hpoll
  obtain ⟨ok, w3, t, hrun, htr, hall, hfail⟩ := streamLoop_rounds env len (blockSize env) hpoll
    ((len + blockSize env - 1) / blockSize env) 0 (4294967296 + 1)
    { w with
      storage := st
      trace := w.trace ++
        [Call.mem_startRead ((w.otap.m_header_size + len + 4294967296 - 16) % 4294967296) 16]
      otap := { w.otap with m_test := test } }
    (by omega) (by omega) (by omega)
    (by show blockSize env ≤ w.otap.m_buffer_block_write.length; omega)
    (fun k hk => by have := (hc.2 k hk).1; omega)
  have htl : (w.trace ++
      [Call.mem_startRead ((w.otap.m_header_size + len + 4294967296 - 16) % 4294967296)
        16]).length + 1 = w.trace.length + 2 := by simp
  simp only [htl] at hall hfail
  simp only at htr
  have hps : Otap.processStream env w len =
      match Otap.streamLoop env len (blockSize env) (4294967296 + 1) 0
        { w with
          storage := st
          trace := w.trace ++
            [Call.mem_startRead ((w.otap.m_header_size + len + 4294967296 - 16) % 4294967296) 16]
          otap := { w.otap with m_test := test } } with
      | .error f => .error f
      | .ok (false, w3) => .ok (minus_one, w3)
      | .ok (true, w3) =>
        let n := w3.trace.length
        let w4 := w3.log (Call.otap_setTargetScratchpadAndAction env.otap_seq env.otap_crc)
        if env.otap_set_target_res n ≠ 0 then .ok (lib_otap_res (env.otap_set_target_res n), w4)
        else
          let m := w4.trace.length
          let w5 := w4.log Call.otap_setToBeProcessed
          if !env.otap_set_to_be_processed_ok m then .ok (minus_one, w5)
          else .ok (APP_RET_OK, w5) := by
    unfold Otap.processStream
    rw [hr]
    rfl
  rw [hps, hrun]
  obtain ⟨rd, hrd, hpr⟩ : ∃ rd : Call, w3.trace = w.trace ++ ([rd] ++ t) ∧
      Call.isPipeline rd = false :=
    ⟨Call.mem_startRead ((w.otap.m_header_size + len + 4294967296 - 16) % 4294967296) 16,
      by rw [htr, List.append_assoc], rfl⟩
  have hpipe : ∀ x : List Call, (pipelineCalls ([rd] ++ t ++ x)).map Call.shape =
      (pipelineCalls t).map Call.shape ++ (pipelineCalls x).map Call.shape := by
    intro x
    simp [pipelineCalls, hpr]
  cases ok with
  | false =>
    refine ⟨minus_one, w3, rfl, ?_, ?_⟩
    · intro hk
      exact absurd (hall hk).1 (by decide)
    · intro j hj hbefore hrefused
      obtain ⟨_, h2⟩ := hfail j hj hbefore hrefused
      refine ⟨rfl, ?_⟩
      rw [newCalls_append w w3 ([rd] ++ t ++ []) (by rw [hrd]; simp), hpipe, h2,
        specBlocks_calls len (blockSize env) (j + 1) (by omega)]
      simp [pipelineCalls]
  | true =>
    dsimp only
    have hfull : (∀ k, k < (len + blockSize env - 1) / blockSize env →
        env.otap_write_ok (w.trace.length + 2 + 2 * k) = true) →
        (pipelineCalls t).map Call.shape =
          (specBlocks len (blockSize env)).map (fun p => Call.otap_write p.1 p.2 []) := by
      intro hk
      rw [(hall hk).2, specBlocks_calls len (blockSize env) _ (Nat.le_refl _)]
      rw [List.take_of_length_le (by simp [specBlocks])]
    have hnofail : ∀ j, j < (len + blockSize env - 1) / blockSize env →
        (∀ k, k < j → env.otap_write_ok (w.trace.length + 2 + 2 * k) = true) →
        env.otap_write_ok (w.trace.length + 2 + 2 * j) = false → False := by
      intro j hj hbefore hrefused
      exact absurd (hfail j hj hbefore hrefused).1 (by decide)
    by_cases hset : env.otap_set_target_res w3.trace.length ≠ 0
    · rw [if_pos hset]
      refine ⟨_, _, rfl, ?_, fun j hj hb2 hr2 => (hnofail j hj hb2 hr2).elim⟩
      intro hk
      refine ⟨[], ?_⟩
      rw [newCalls_append w _ ([rd] ++ t ++
        [Call.otap_setTargetScratchpadAndAction env.otap_seq env.otap_crc])
        (by simp [World.log, hrd]), hpipe, hfull hk]
      simp [pipelineCalls, Call.isPipeline, Call.shape]
    · rw [if_neg hset]
      by_cases hproc : (!env.otap_set_to_be_processed_ok
          (w3.log (Call.otap_setTargetScratchpadAndAction env.otap_seq
            env.otap_crc)).trace.length) = true
      · rw [if_pos hproc]
        refine ⟨_, _, rfl, ?_, fun j hj hb2 hr2 => (hnofail j hj hb2 hr2).elim⟩
        intro hk
        refine ⟨[Call.otap_setToBeProcessed], ?_⟩
        rw [newCalls_append w _ ([rd] ++ t ++
          [Call.otap_setTargetScratchpadAndAction env.otap_seq env.otap_crc,
            Call.otap_setToBeProcessed])
          (by simp [World.log, hrd]), hpipe, hfull hk]
        simp [pipelineCalls, Call.isPipeline, Call.shape]
      · rw [if_neg hproc]
        refine ⟨_, _, rfl, ?_, fun j hj hb2 hr2 => (hnofail j hj hb2 hr2).elim⟩
        intro hk
        refine ⟨[Call.otap_setToBeProcessed], ?_⟩
        rw [newCalls_append w _ ([rd] ++ t ++
          [Call.otap_setTargetScratchpadAndAction env.otap_seq env.otap_crc,
            Call.otap_setToBeProcessed])
          (by simp [World.log, hrd]), hpipe, hfull hk]
        simp [pipelineCalls, Call.isPipeline, Call.shape]
/-- For the length `0xFFFFFFFC` and blocks of 512 bytes the counter of the loop
(a multiple of 512 below `2 ^ 32`) is below the length in every round: the loop
goes on as long as there is fuel. -/
theorem streamLoop_wrap (env : Env) (hpoll : 1 ≤ env.poll_time)
    (hw : ∀ n, env.otap_write_ok n = true) :
    ∀ (fuel i : Nat) (w : World), i % 512 = 0 → i < 4294967296 →
      512 ≤ w.otap.m_buffer_block_write.length →
      Otap.streamLoop env 4294967292 512 fuel i w = .error Fault.hang := by
  intro fuel
  induction fuel with
  | zero => intro i w _ _ _; rfl
  | succ f ih =>
    intro i w hmod hlt hbuf
    obtain ⟨done, buf1, st, hr, hl⟩ := read_total env w w.otap.m_buffer_block_write
      ((w.otap.m_header_size + i) % 4294967296) 512 hbuf hpoll
    unfold Otap.streamLoop
    rw [if_pos (by omega), hr]
    dsimp only
    rw [hw]
    simp only [Bool.not_true, Bool.false_eq_true, if_false]
    exact ih _ _ (by omega) (Nat.mod_lt _ (by decide)) (by show 512 ≤ buf1.length; omega)

set_option maxRecDepth 1000000 in
theorem wrapWorld_header :
    (Otap.processHeader smallEnv wrapWorld).toOption.map
      (fun r => (r.1, rd32 r.2.otap.m_buffer_block_write 4,
        r.2.otap.m_buffer_block_write.length, r.2.otap.m_test.length)) =
      some (none, 4294967292, 512, 16) := by
  decide

set_option maxRecDepth 1000000 in
/-- C32 fails as stated: the stored length `0xFFFFFFFC` passes the validation (a
multiple of 4, at least 96), the block size is 512, every read and every
`lib_otap->write` is accepted, and `Otap_process` does not return: the 32-bit
counter of the loop goes from `0xFFFFFE00` back to 0 and is below the length in
every round. -/
theorem C32_counterexample :
    rd32 wrapWorld.storage.mem 4 = 0xFFFFFFFC ∧ 0xFFFFFFFC % 4 = 0 ∧ 96 ≤ 0xFFFFFFFC ∧
    blockSize smallEnv = 512 ∧
    faultOf (Otap_process smallEnv wrapWorld) = some Fault.hang := by
  refine ⟨by decide, by decide, by decide, by decide, ?_⟩
  have hh := wrapWorld_header
  unfold Otap_process
  cases h : Otap.processHeader smallEnv wrapWorld with
  | error f => rw [h] at hh; cases hh
  | ok r =>
    obtain ⟨o, w1⟩ := r
    rw [h] at hh
    simp only [Except.toOption, Option.map_some', Option.some.injEq, Prod.mk.injEq] at hh
    obtain ⟨ho, hlen, hbuf, htest⟩ := hh
    subst ho
    dsimp only
    rw [hlen]
    obtain ⟨done, test, st, hr, _⟩ := read_total smallEnv w1 w1.otap.m_test
      ((w1.otap.m_header_size + 4294967292 + 4294967296 - 16) % 4294967296) 16 (by omega)
      (by decide)
    unfold Otap.processStream
    rw [hr]
    dsimp only
    have hloop := streamLoop_wrap smallEnv (by decide) (fun _ => rfl) (4294967296 + 1) 0
      { w1 with
        storage := st
        trace := w1.trace ++
          [Call.mem_startRead
            ((w1.otap.m_header_size + 4294967292 + 4294967296 - 16) % 4294967296) 16]
        otap := { w1.otap with m_test := test } }
      (by decide) (by decide) (by show 512 ≤ w1.otap.m_buffer_block_write.length; omega)
    have hbs : (if Otap.BLOCK_SIZE > smallEnv.otap_max_block_num_bytes then
        smallEnv.otap_max_block_num_bytes else Otap.BLOCK_SIZE) = 512 := rfl
    rw [hbs, hloop]
    rfl
set_option maxRecDepth 1000000 in
/-- With blocks of 40 bytes an image of 96 bytes goes to the pipeline as the
blocks `(0, 40)`, `(40, 40)` and `(80, 16)`. -/
theorem C32_block_streaming_witness :
    specBlocks 96 (blockSize block40Env) = [(0, 40), (40, 40), (80, 16)] ∧
    ∃ r w1, Otap.processStream block40Env smallSealedCleared 96 = .ok (r, w1) ∧
      ((∀ k, k < (96 + blockSize block40Env - 1) / blockSize block40Env →
          block40Env.otap_write_ok (smallSealedCleared.trace.length + 2 + 2 * k) = true) →
        ∃ tail, (pipelineCalls (newCalls smallSealedCleared w1)).map Call.shape =
          (specBlocks 96 (blockSize block40Env)).map (fun p => Call.otap_write p.1 p.2 []) ++
            Call.otap_setTargetScratchpadAndAction block40Env.otap_seq block40Env.otap_crc ::
              tail) ∧
      (∀ j, j < (96 + blockSize block40Env - 1) / blockSize block40Env →
        (∀ k, k < j →
          block40Env.otap_write_ok (smallSealedCleared.trace.length + 2 + 2 * k) = true) →
        block40Env.otap_write_ok (smallSealedCleared.trace.length + 2 + 2 * j) = false →
        r = minus_one ∧
        (pipelineCalls (newCalls smallSealedCleared w1)).map Call.shape =
          ((specBlocks 96 (blockSize block40Env)).take (j + 1)).map
            (fun p => Call.otap_write p.1 p.2 [])) :=
  ⟨by decide,
   (C32_block_streaming block40Env smallSealedCleared 96 (by decide) (by decide)
      (by decide) (by decide) (by decide)).1⟩

/-! ### Erasing the area -/

set_option maxRecDepth 1000000 in
/-- C31 at a concrete input: an initialised layer on an area of 256 bytes in
sectors of 64 bytes that holds zeros.  The usable size is 244 bytes, which 4
sectors cover and 3 do not; `Otap_bufferBegin` asks for 3 sectors from sector 0
and returns `APP_RET_OK`, and the last 64 bytes of the area are not erased. -/
theorem C31_erase_stops_short :
    smallDirtyWorld.otap.m_initialized = true ∧
    smallDirtyWorld.otap.m_usable_memory_size = 244 ∧
    smallDirtyWorld.otap.m_memory_area.flash.erase_sector_size = 64 ∧
    3 * 64 < 244 ∧ 244 ≤ 4 * 64 ∧
    (Otap_bufferBegin smallEnv smallDirtyWorld).toOption.map
      (fun r => (r.1, newCalls smallDirtyWorld r.2, r.2.storage.mem)) =
      some (APP_RET_OK, [Call.Otap_bufferBegin, Call.mem_startErase 0 3],
        List.replicate 192 0xFF ++ List.replicate 64 0) := by
  decide

/-! ### Fragments that meet no session, or too large a one -/

set_option maxRecDepth 1000000 in
/-- C36 at a concrete input: a freshly created context (`start_message_id`,
`end_message_id` and `total_messages` are 0) receives an upload request with
message id 0.  The frame passes both duplicate checks and lies in the range
of the session (`0 ≤ 0 ≤ 0`), so the upload branch runs with `total_messages = 0`:
the test of the last bit shifts by `(0 - 1) % 8`, and the percentage, due
because `0 % 10 = 0`, has the divisor 0. -/
theorem C36_fragment_without_session :
    sampleWorld.ble.otap.start_message_id = 0 ∧ sampleWorld.ble.otap.end_message_id = 0 ∧
    sampleWorld.ble.otap.total_messages = 0 ∧
    (receiveFilter sampleWorld strayFragment).toOption.map
      (fun r => (r.2.map (fun c => (cmd_command c, cmd_message_id c)),
        r.1.ble.otap.total_messages)) =
      some (some (ble_ADV_CMD_OTAP_UPLOAD_REQUEST, 0), 0) ∧
    0 % 10 = 0 ∧
    faultOf (bleReceiveCb sampleEnv sampleWorld strayFragment) = some Fault.negative_shift := by
  decide

set_option maxRecDepth 1000000 in
/-- C37 at a concrete input: a begin-upload request for 5000 bytes in
fragments of 1 byte opens a session of 5000 fragments (message ids `0x8000` to
`0x9387`) over the bitmap of 512 bytes.  The fragment with message id `0x9387` is
accepted as in range; its index 4999 is not below 4096, and marking its bit
is an access past the end of the bitmap.  Fragment 0 ends the same way:
after its bit is marked, the bit of the last fragment (index 4999) is
read. -/
theorem C37_index_past_bitmap :
    afterBegin5000.ble.otap.total_messages = 5000 ∧
    afterBegin5000.ble.otap.start_message_id = 0x8000 ∧
    afterBegin5000.ble.otap.end_message_id = 0x9387 ∧
    afterBegin5000.ble.otap.messageReceived.length = 512 ∧
    (receiveFilter afterBegin5000 (mkPacket (fragmentFrame 4999 1))).toOption.map
      (fun r => r.2.map (fun c => (cmd_command c, cmd_message_id c,
        cmd_message_id c - r.1.ble.otap.start_message_id))) =
      some (some (ble_ADV_CMD_OTAP_UPLOAD_REQUEST, 0x9387, 4999)) ∧
    BLE_OTAP_MAX_NUMBER_OF_PACKAGES ≤ 4999 ∧ 512 ≤ 4999 / 8 ∧
    faultOf (bleReceiveCb sampleEnv afterBegin5000 (mkPacket (fragmentFrame 4999 1))) =
      some Fault.out_of_bounds ∧
    faultOf (bleReceiveCb sampleEnv afterBegin5000 (mkPacket (fragmentFrame 0 1))) =
      some Fault.out_of_bounds := by
  decide

/-- Where the bitmap is large enough: in a session set up by the begin-upload
branch with at most `BLE_OTAP_MAX_NUMBER_OF_PACKAGES` fragments, the index of
every fragment in range, and the index of the last fragment, lie inside a
bitmap of 512 bytes. -/
theorem fragment_index_in_bitmap (old : ble_otap_t) (cmd : ble_adv_cmd_t) (id : Nat)
    (hlo : (beginSession old cmd).start_message_id ≤ id)
    (hhi : id ≤ (beginSession old cmd).end_message_id)
    (hmax : (beginSession old cmd).total_messages ≤ BLE_OTAP_MAX_NUMBER_OF_PACKAGES) :
    id - (beginSession old cmd).start_message_id < (beginSession old cmd).total_messages ∧
    (id - (beginSession old cmd).start_message_id) / 8 < 512 ∧
    ((beginSession old cmd).total_messages - 1) / 8 < 512 := by
  obtain ⟨_, h2, h3⟩ := beginSession_range old cmd (Nat.le_trans hlo hhi)
  unfold BLE_OTAP_MAX_NUMBER_OF_PACKAGES at hmax
  omega

/-! ### Calls before `Otap_init` -/

set_option maxRecDepth 1000000 in
/-- C38 at a concrete input: the state after start-up, `Otap_init` not yet
called (`m_initialized` clear, `erase_sector_size` and `m_header_size` still 0).
`Otap_bufferBegin` divides by the sector size 0 before it looks at
`m_initialized`; this is what happens on a begin-upload request when `Otap_init`
fails for want of an area.  `Otap_bufferEnd` does not look at `m_initialized`: it
starts a write of 0 bytes and returns `APP_RET_OK`.  `Otap_bufferWrite` and `Otap_process` return
`APP_PERSISTENT_RES_UNINITIALIZED` without a call of the storage driver. -/
theorem C38_begin_and_end_before_init :
    sampleWorld.otap.m_initialized = false ∧
    sampleWorld.otap.m_memory_area.flash.erase_sector_size = 0 ∧
    faultOf (Otap_bufferBegin sampleEnv sampleWorld) = some Fault.div_by_zero ∧
    (Otap_init noAreaEnv sampleWorld).1 = APP_PERSISTENT_RES_NO_AREA ∧
    faultOf (bleReceiveCb noAreaEnv sampleWorld (mkPacket (beginUploadFrame 5 0x5678 7 69 23))) =
      some Fault.div_by_zero ∧
    (Otap_bufferEnd sampleEnv sampleWorld 96 5).toOption.map
      (fun r => (r.1, newCalls sampleWorld r.2)) =
      some (APP_RET_OK, [Call.Otap_bufferEnd 96 5, Call.mem_startWrite 0 [] 0]) ∧
    (Otap_bufferWrite sampleEnv sampleWorld [1, 2, 3] 3 0).toOption.map
      (fun r => (r.1, newCalls sampleWorld r.2)) =
      some (APP_PERSISTENT_RES_UNINITIALIZED, [Call.Otap_bufferWrite 3 0]) ∧
    (Otap_process sampleEnv sampleWorld).toOption.map
      (fun r => (r.1, newCalls sampleWorld r.2)) =
      some (APP_PERSISTENT_RES_UNINITIALIZED, [Call.Otap_process]) := by
  decide

/-! ### Completion when the header cannot be sealed -/

/-- Whatever `Otap_bufferEnd` returns, `finishUpload` goes on in the same way. -/
theorem finishUpload_any_result (env : Env) (w w1 : World) (cmd_rx : ble_adv_cmd_t)
    (r : Otap_ret)
    (h : Otap_bufferEnd env w w.ble.otap.scratchpad_length
      w.ble.otap.scratchpad_seqeunce_number = .ok (r, w1)) :
    finishUpload env w cmd_rx = .ok
      { (AppSettings_store env
          { w1 with
            ble := sendDone w1.ble cmd_rx
            app_settings := { w1.app_settings with do_otap := 1 } }
          { w1.app_settings with do_otap := 1 }).2 with
        fsm_sm := Sm_fireEvent (AppSettings_store env
          { w1 with
            ble := sendDone w1.ble cmd_rx
            app_settings := { w1.app_settings with do_otap := 1 } }
          { w1.app_settings with do_otap := 1 }).2.fsm_sm fsm_E_REBOOT } := by
  unfold finishUpload
  rw [h]

set_option maxRecDepth 1000000 in
/-- C40 at a concrete input: on an area of 256 bytes, fragments 0 and 1 of a
session of 3 fragments are stored, and fragment 2 arrives while the storage
driver refuses the write of the header (call number 11) and nothing else.
The header is not sealed (the first 12 bytes of the area stay erased), and
still `do_otap` is set to 1 and stored, the response `ble_STATUS_OTAP_OK` with 100
percent is queued and `fsm_E_REBOOT` is fired. -/
theorem C40_flag_raised_without_seal :
    headerRefusedEnv.start_ok 11 = false ∧
    afterTwoOf69.app_settings.do_otap = 0 ∧ afterTwoOf69.persistent = none ∧
    pendingEvents afterTwoOf69.fsm_sm = [] ∧
    (bleReceiveCb headerRefusedEnv afterTwoOf69 (mkPacket (fragmentFrame 2 23))).toOption.map
      (fun w1 => newCalls afterTwoOf69 w1) =
      some [Call.Otap_bufferWrite 23 46,
        Call.mem_startWrite 58 (List.replicate 23 2) 23,
        Call.Otap_bufferEnd 69 7,
        Call.mem_startWrite 0 (u32 OTAP_MAGIC ++ u32 69 ++ [7, 0, 0, 0]) 12,
        Call.AppSettings_store { is_sink := 1, do_otap := 1 }, Call.persistent_read,
        Call.persistent_write { is_sink := 1, do_otap := 1 }] ∧
    (bleReceiveCb headerRefusedEnv afterTwoOf69 (mkPacket (fragmentFrame 2 23))).toOption.map
      (fun w1 => (w1.storage.mem.take 12, w1.app_settings.do_otap,
        w1.persistent.map (fun s => s.do_otap))) =
      some (List.replicate 12 0xFF, 1, some 1) ∧
    (bleReceiveCb headerRefusedEnv afterTwoOf69 (mkPacket (fragmentFrame 2 23))).toOption.map
      (fun w1 => (pendingEvents w1.fsm_sm, (backlogFrames w1).drop 1)) =
      some ([fsm_E_REBOOT],
        [(mk_upload_rsp 2 0x8002 ble_STATUS_OTAP_UPLOAD 100).take 7,
         (mk_upload_rsp 3 0x8002 ble_STATUS_OTAP_OK 100).take 7]) := by
  decide

end WmBle
